import Mathlib

/-!
# CanSat launcher remote: session engine

Shallow embedding of the main loop of `cansat_launcher_remote.cpp`
(lines 98-370) and of `sendCommand` (lines 372-376).

* The loop variables that make up the engine state are the fields of
  `Engine`; the per-iteration local `refresh` and the externally visible
  actions (`Core::sleep`, `LoRa::tx`) are threaded through `Ctx`.
* `Core::Time` values are natural numbers (a millisecond clock that does not
  wrap); the two `unsigned long dt` locals are truncated to 32 bits.
* Every call of `Core::time()` that the engine reads is an explicit input of
  the iteration (`Inputs.tCmd` ... `Inputs.tClear`), as are the button edges and
  the result of `LoRa::rxAvailable()` / `LoRa::rx`.
* The power button, the power LED and the OLED drawing calls do not touch any
  engine variable and are left out.
-/

namespace CansatRemote

/-- Wire codes: `enum class Command` (lines 15-22). -/
inductive Command where
  | NONE
  | ACK
  | GET_STATUS
  | STATUS
  | OPEN
  | CLOSE
deriving DecidableEq, Repr

/-- Numeric value of a `Command`, i.e. `static_cast<uint8_t>(command)`. -/
def Command.code : Command → Nat
  | .NONE => 0
  | .ACK => 1
  | .GET_STATUS => 2
  | .STATUS => 3
  | .OPEN => 4
  | .CLOSE => 5

/-- One byte on the wire. -/
abbrev uint8_t := Fin 256

def N_LAUNCHERS : Int := 3
def DELAY_MIN_BETWEEN_COMMANDS : Nat := 400
def DELAY_COMMAND_TIMEOUT : Nat := 1000
def N_REPEAT_COMMANDS : Int := 3
def DELAY_ORDER_DISPLAYED : Nat := 1000
def DELAY_GET_STATUS : Nat := 3000
def DELAY_GET_STATUS_TIMEOUT : Nat := 10000
def BUFFER_RX_SIZE : Nat := 10

/-- Narrowing `static_cast<uint8_t>` of an `int`. -/
def toByte (z : Int) : uint8_t :=
  ⟨(z % 256).toNat, by omega⟩

/-- Frame built by `sendCommand` (lines 372-376): `'C'`, `'S'`, launcher, command. -/
def sendCommand (currentLauncher : Int) (command : Command) : List uint8_t :=
  [67, 83, toByte currentLauncher, toByte command.code]

/-- Variables declared before the main loop (lines 99-128) that the engine
reads and writes. -/
structure Engine where
  init : Bool
  currentLauncher : Int
  tCommandSent : Nat
  tAckReceived : Nat
  currentCommand : Command
  ackReceived : Bool
  commandFailed : Bool
  currentRepeat : Int
  tTelem : Nat
  telemAvailable : Bool
  hatchOpen : Bool
  altitude : Int
  temperature : Int
  batteryPercent : Int
  tGetStatus : Nat
deriving DecidableEq, Repr

/-- Values of the loop variables when the loop is entered (lines 99-128). -/
def initialState : Engine where
  init := true
  currentLauncher := 0
  tCommandSent := 0
  tAckReceived := 0
  currentCommand := .NONE
  ackReceived := false
  commandFailed := false
  currentRepeat := 0
  tTelem := 0
  telemAvailable := false
  hatchOpen := false
  altitude := 0
  temperature := 0
  batteryPercent := 0
  tGetStatus := 0

/-- Externally visible effect of the engine: a blocking `Core::sleep(d)` or a
frame handed to `LoRa::tx`.  The `stamp` of a transmission is the clock reading
the source stores for it (`tCommandSent`, `tGetStatus`, or `t` at a retry). -/
inductive Action where
  | sleep (d : Nat)
  | tx (stamp : Nat) (frame : List uint8_t)
deriving DecidableEq, Repr

/-- Engine variables, the `refresh` local of the current iteration, and the
actions performed so far in program order. -/
structure Ctx where
  st : Engine
  refresh : Bool
  out : List Action
deriving DecidableEq, Repr

/-- What one loop iteration reads from its collaborators. -/
structure Inputs where
  btnLeft : Bool
  btnRight : Bool
  btnUp : Bool
  btnDown : Bool
  btnOk : Bool
  /-- Received frame: `none` when `LoRa::rxAvailable()` is false, otherwise the
  `rxSize` bytes that `LoRa::rx` stored in `rxBuffer`. -/
  rx : Option (List uint8_t)
  /-- Clock read by `Core::time()` at line 210. -/
  tCmd : Nat
  /-- Clock read by `Core::time()` at line 230. -/
  tSent : Nat
  /-- Clock read by `Core::time()` at line 239. -/
  tPoll : Nat
  /-- Clock read by `Core::time()` at line 246. -/
  tRx : Nat
  /-- Clock read by `Core::time()` at line 283. -/
  tStale : Nat
  /-- Clock read by `Core::time()` at line 290. -/
  tRetry : Nat
  /-- Clock read by `Core::time()` at line 304. -/
  tClear : Nat
deriving DecidableEq, Repr

/-- Lines 132-138: `refresh` starts false and is forced on the first pass. -/
def initStep (s : Engine) : Ctx :=
  if s.init then
    { st := { s with init := false }, refresh := true, out := [] }
  else
    { st := s, refresh := false, out := [] }

/-- Lines 190-204: launcher selection with the Left and Right edges. -/
def selectStep (btnLeft btnRight : Bool) (c : Ctx) : Ctx :=
  if (btnLeft && decide (c.st.currentLauncher > 0))
      || (btnRight && decide (c.st.currentLauncher < N_LAUNCHERS - 1)) then
    let currentLauncher :=
      if btnLeft then c.st.currentLauncher - 1 else c.st.currentLauncher + 1
    { c with
      st := { c.st with
        currentLauncher := currentLauncher
        telemAvailable := false
        tGetStatus := 0
        currentCommand := .NONE
        ackReceived := false
        commandFailed := false
        currentRepeat := 0
        tAckReceived := 0 }
      refresh := true }
  else
    c

/-- The `unsigned long dt = t - x` of lines 211 and 215: the difference of two
`Core::Time` values, kept to 32 bits. -/
def elapsed (t x : Nat) : Nat :=
  (((t : Int) - (x : Int)) % 4294967296).toNat

/-- Lines 212-214 and 216-218: `if (dt < DELAY) Core::sleep(DELAY - dt)`. -/
def spacingWait (dt : Nat) : List Action :=
  if dt < DELAY_MIN_BETWEEN_COMMANDS then
    [Action.sleep (DELAY_MIN_BETWEEN_COMMANDS - dt)]
  else
    []

/-- Lines 207-236: an Up or Down edge waits for the channel, transmits OPEN or
CLOSE and starts a session.  `t` is the clock read at line 210 and `tSent` the
clock read at line 230. -/
def commandStep (btnUp btnDown : Bool) (t tSent : Nat) (c : Ctx) : Ctx :=
  if btnUp || btnDown then
    let waits := spacingWait (elapsed t c.st.tGetStatus)
      ++ spacingWait (elapsed t c.st.tCommandSent)
    let command := if btnUp then Command.OPEN else Command.CLOSE
    { st := { c.st with
        currentCommand := command
        tCommandSent := tSent
        ackReceived := false
        commandFailed := false
        currentRepeat := 0
        tAckReceived := 0 }
      refresh := true
      out := c.out ++ waits ++ [Action.tx tSent (sendCommand c.st.currentLauncher command)] }
  else
    c

/-- Lines 239-243: status poll on an OK edge or when the poll interval elapsed,
only while no command is current. -/
def pollStep (btnOk : Bool) (t : Nat) (c : Ctx) : Ctx :=
  if (btnOk || decide (t ≥ c.st.tGetStatus + DELAY_GET_STATUS))
      && decide (c.st.currentCommand = .NONE) then
    { c with
      st := { c.st with tGetStatus := t }
      out := c.out ++ [Action.tx t (sendCommand c.st.currentLauncher .GET_STATUS)] }
  else
    c

/-- Lines 249-281: handling of one received frame; `frame.length` is `rxSize`
and `frame.getD i 0` is `rxBuffer[i]` (only indices below `rxSize` are read). -/
def rxStep (t : Nat) (frame : List uint8_t) (c : Ctx) : Ctx :=
  let rxSize := frame.length
  let rxBuffer := fun (i : Nat) => (frame.getD i 0).val
  if rxSize ≥ 4 ∧ rxBuffer 0 = 99 ∧ rxBuffer 1 = 115
      ∧ (rxBuffer 2 : Int) = c.st.currentLauncher then
    let command := rxBuffer 3
    if rxSize = 5 ∧ command = Command.ACK.code ∧ c.st.currentCommand ≠ .NONE
        ∧ c.st.ackReceived = false ∧ c.st.commandFailed = false then
      let command2 := rxBuffer 4
      if command2 = c.st.currentCommand.code then
        let hatchOpen :=
          if command2 = Command.CLOSE.code then false
          else if command2 = Command.OPEN.code then true
          else c.st.hatchOpen
        { c with
          st := { c.st with
            hatchOpen := hatchOpen
            ackReceived := true
            tAckReceived := t }
          refresh := true }
      else
        c
    else if rxSize = 10 ∧ command = Command.STATUS.code then
      { c with
        st := { c.st with
          hatchOpen := decide (rxBuffer 4 ≠ 0)
          altitude := ((rxBuffer 5 <<< 8 ||| rxBuffer 6 : Nat) : Int)
          temperature := ((rxBuffer 7 <<< 8 ||| rxBuffer 8 : Nat) : Int)
          batteryPercent := (rxBuffer 9 : Int)
          tTelem := t
          telemAvailable := true }
        refresh := true }
    else
      c
  else
    c

/-- Lines 247-282: the frame handling runs only when a frame is available. -/
def receiveStep (t : Nat) (rx : Option (List uint8_t)) (c : Ctx) : Ctx :=
  match rx with
  | some frame => rxStep t frame c
  | none => c

/-- Lines 283-287: telemetry older than the freshness window is dropped. -/
def staleStep (t : Nat) (c : Ctx) : Ctx :=
  if c.st.tTelem > 0 ∧ t ≥ c.st.tTelem + DELAY_GET_STATUS_TIMEOUT then
    { c with
      st := { c.st with tTelem := 0, telemAvailable := false }
      refresh := true }
  else
    c

/-- Lines 290-301: repeat the command after a timeout, or give up. -/
def retryStep (t : Nat) (c : Ctx) : Ctx :=
  if c.st.currentCommand ≠ .NONE ∧ c.st.ackReceived = false ∧ c.st.commandFailed = false
      ∧ c.st.tCommandSent > 0 ∧ t ≥ c.st.tCommandSent + DELAY_COMMAND_TIMEOUT then
    if c.st.currentRepeat < N_REPEAT_COMMANDS - 1 then
      { st := { c.st with
          tCommandSent := t
          currentRepeat := c.st.currentRepeat + 1 }
        refresh := true
        out := c.out ++ [Action.tx t (sendCommand c.st.currentLauncher c.st.currentCommand)] }
    else
      { c with
        st := { c.st with commandFailed := true }
        refresh := true }
  else
    c

/-- Lines 304-313: end of the display hold of an acknowledged or failed command. -/
def clearStep (t : Nat) (c : Ctx) : Ctx :=
  if c.st.currentCommand ≠ .NONE
      ∧ ((c.st.ackReceived = true ∧ t > c.st.tAckReceived + DELAY_ORDER_DISPLAYED)
        ∨ (c.st.commandFailed = true
          ∧ t > c.st.tCommandSent + DELAY_COMMAND_TIMEOUT + DELAY_ORDER_DISPLAYED)) then
    { c with
      st := { c.st with
        currentCommand := .NONE
        ackReceived := false
        commandFailed := false
        tCommandSent := 0
        currentRepeat := 0
        tAckReceived := 0 }
      refresh := true }
  else
    c

/-- Line 368: `Core::sleep(10)` closes the iteration. -/
def endStep (c : Ctx) : Ctx :=
  { c with out := c.out ++ [Action.sleep 10] }

/-- Lines 131-243 of one pass: everything before the received frame is looked
at (first-pass flag, selection, Up/Down command, status poll). -/
def beforeReceive (i : Inputs) (s : Engine) : Ctx :=
  pollStep i.btnOk i.tPoll
    (commandStep i.btnUp i.btnDown i.tCmd i.tSent
      (selectStep i.btnLeft i.btnRight (initStep s)))

/-- Lines 131-301 of one pass: up to and including the timeout check. -/
def afterRetry (i : Inputs) (s : Engine) : Ctx :=
  retryStep i.tRetry
    (staleStep i.tStale
      (receiveStep i.tRx i.rx (beforeReceive i s)))

/-- One pass through the body of `while (1)` (lines 131-369). -/
def loopIteration (i : Inputs) (s : Engine) : Ctx :=
  endStep (clearStep i.tClear (afterRetry i s))

/-- Frames transmitted by a list of actions, with their stamps, in order. -/
def frames : List Action → List (Nat × List uint8_t)
  | [] => []
  | Action.tx stamp frame :: rest => (stamp, frame) :: frames rest
  | Action.sleep _ :: rest => frames rest

/-- Total time asked of `Core::sleep` by a list of actions. -/
def sleepTotal : List Action → Nat
  | [] => 0
  | Action.sleep d :: rest => d + sleepTotal rest
  | Action.tx _ _ :: rest => sleepTotal rest

/-- Successive iterations: engine state after the inputs, and every action
performed, in order. -/
def run : Engine → List Inputs → Engine × List Action
  | s, [] => (s, [])
  | s, i :: rest =>
    let c := loopIteration i s
    let r := run c.st rest
    (r.1, c.out ++ r.2)

/-- An iteration without button edge and without received frame in which every
clock reading is `t`. -/
def quietAt (t : Nat) : Inputs where
  btnLeft := false
  btnRight := false
  btnUp := false
  btnDown := false
  btnOk := false
  rx := none
  tCmd := t
  tSent := t
  tPoll := t
  tRx := t
  tStale := t
  tRetry := t
  tClear := t

/-- An iteration at clock `t` whose only input is an Up edge. -/
def upAt (t : Nat) : Inputs :=
  { quietAt t with btnUp := true }

/-- An iteration at clock `t` whose only input is a Down edge. -/
def downAt (t : Nat) : Inputs :=
  { quietAt t with btnDown := true }

/-- An iteration at clock `t` whose only input is a Right edge. -/
def rightAt (t : Nat) : Inputs :=
  { quietAt t with btnRight := true }

/-- An iteration at clock `t` whose only input is an OK edge. -/
def okAt (t : Nat) : Inputs :=
  { quietAt t with btnOk := true }

/-- An iteration at clock `t` in which both the Left and the Right edge are
reported. -/
def leftRightAt (t : Nat) : Inputs :=
  { quietAt t with btnLeft := true, btnRight := true }

/-- The command session of the data model, read off the engine variables:
command, sentAt, repeatCount, ackReceived, ackReceivedAt, failed. -/
structure CommandSession where
  command : Command
  sentAt : Nat
  repeatCount : Int
  ackReceived : Bool
  ackReceivedAt : Nat
  failed : Bool
deriving DecidableEq, Repr

/-- Session fields of an engine state. -/
def Engine.session (s : Engine) : CommandSession where
  command := s.currentCommand
  sentAt := s.tCommandSent
  repeatCount := s.currentRepeat
  ackReceived := s.ackReceived
  ackReceivedAt := s.tAckReceived
  failed := s.commandFailed

/-- The session with which the loop is entered. -/
def CommandSession.empty : CommandSession :=
  initialState.session

/-- Number of transmitted frames whose command byte is not GET_STATUS, i.e.
the frames that carry a command (first send or repeat) rather than a poll. -/
def commandFrameCount (out : List Action) : Nat :=
  (frames out).countP (fun f => decide ((f.2.getD 3 0).val ≠ Command.GET_STATUS.code))

/-- Repeats the timeout check may still transmit for the current session:
`N_REPEAT_COMMANDS - 1 - currentRepeat` while a command is pending, otherwise 0. -/
def retriesLeft (s : Engine) : Nat :=
  if s.currentCommand ≠ .NONE ∧ s.ackReceived = false ∧ s.commandFailed = false then
    (N_REPEAT_COMMANDS - 1 - s.currentRepeat).toNat
  else
    0

/-- No Up and no Down edge in any of the iterations. -/
def NoCommandEdge (ins : List Inputs) : Prop :=
  ∀ i ∈ ins, i.btnUp = false ∧ i.btnDown = false

/-- No button edge at all in the iteration. -/
def Inputs.noEdge (i : Inputs) : Prop :=
  i.btnLeft = false ∧ i.btnRight = false ∧ i.btnUp = false ∧ i.btnDown = false
    ∧ i.btnOk = false

/-- A command is pending: sent, neither acknowledged nor failed. -/
def Engine.pending (s : Engine) : Prop :=
  s.currentCommand ≠ .NONE ∧ s.ackReceived = false ∧ s.commandFailed = false

/-- Command frames already transmitted in this iteration plus the repeats the
session may still cause. -/
def budget (c : Ctx) : Nat :=
  commandFrameCount c.out + retriesLeft c.st

/-- Launcher 1 selected, everything else as when the loop is entered. -/
def launcherOne : Engine :=
  { initialState with init := false, currentLauncher := 1 }

/-- The selected launcher is `l` and the command session is `k`. -/
def Engine.sessionIs (s : Engine) (l : Int) (k : CommandSession) : Prop :=
  s.currentLauncher = l ∧ s.session = k

/-- Stamps of the transmitted frames that carry a command (command byte other
than GET_STATUS), in order. -/
def commandStamps (out : List Action) : List Nat :=
  ((frames out).filter
    (fun f => decide ((f.2.getD 3 0).val ≠ Command.GET_STATUS.code))).map Prod.fst

/-- Stamp of the last command frame in `out`, or `last` when there is none. -/
def lastStamp (last : Nat) (out : List Action) : Nat :=
  (commandStamps out).getLast?.getD last

/-- Clock readings of one iteration entered at clock `now` in state `s`: the
readings do not decrease in program order, and the reading of line 230 is at
least the reading of line 210 plus the time slept in between. -/
def Inputs.clockOk (now : Nat) (s : Engine) (i : Inputs) : Prop :=
  now ≤ i.tCmd
    ∧ i.tCmd + sleepTotal (commandStep i.btnUp i.btnDown i.tCmd i.tSent
        (selectStep i.btnLeft i.btnRight (initStep s))).out ≤ i.tSent
    ∧ i.tSent ≤ i.tPoll ∧ i.tPoll ≤ i.tRx ∧ i.tRx ≤ i.tStale ∧ i.tStale ≤ i.tRetry
    ∧ i.tRetry ≤ i.tClear

/-- Clock readings of a run entered at clock `now`: every iteration is
consistent, and the `Core::sleep(10)` of line 368 separates it from the next. -/
def ClockOk : Nat → Engine → List Inputs → Prop
  | _, _, [] => True
  | now, s, i :: rest =>
    i.clockOk now s ∧ ClockOk (i.tClear + 10) (loopIteration i s).st rest

/-- Successive stamps are at least `DELAY_MIN_BETWEEN_COMMANDS` apart. -/
def Spaced (stamps : List Nat) : Prop :=
  List.Chain' (fun a b => a + DELAY_MIN_BETWEEN_COMMANDS ≤ b) stamps

/-- Spacing invariant at clock `now`, where `last` is the stamp of the last
command frame: the send time is not in the future, it still records the last
command frame unless the spacing has already elapsed, and an acknowledgement
is not older than the send time. -/
def SpacingInv (now : Nat) (s : Engine) (last : Nat) : Prop :=
  s.tCommandSent ≤ now
    ∧ (last ≤ s.tCommandSent ∨ last + DELAY_MIN_BETWEEN_COMMANDS ≤ now)
    ∧ (s.ackReceived = true → s.tCommandSent ≤ s.tAckReceived)

/-- Spacing invariant of an iteration in progress: the command frames sent so
far follow `last` with the required spacing, and `SpacingInv` holds for the
last of them. -/
def SpacingCtx (now : Nat) (c : Ctx) (last : Nat) : Prop :=
  List.Chain (fun a b => a + DELAY_MIN_BETWEEN_COMMANDS ≤ b) last (commandStamps c.out)
    ∧ SpacingInv now c.st (lastStamp last c.out)

/-- Acceptance condition of an Ack frame as the specification words it: five
bytes, the incoming tag `'c'`, `'s'`, the selected launcher, the ACK code, and
the echo of the command that is pending (not yet acknowledged, not failed). -/
def ackAccepted (s : Engine) (frame : List uint8_t) : Prop :=
  frame.length = 5
    ∧ (frame.getD 0 0).val = 99 ∧ (frame.getD 1 0).val = 115
    ∧ ((frame.getD 2 0).val : Int) = s.currentLauncher
    ∧ (frame.getD 3 0).val = Command.ACK.code
    ∧ (frame.getD 4 0).val = s.currentCommand.code
    ∧ s.currentCommand ≠ .NONE ∧ s.ackReceived = false ∧ s.commandFailed = false

/-- Status frame for the selected launcher: ten bytes, the incoming tag, the
selected launcher and the STATUS code. -/
def isStatusFrame (s : Engine) (frame : List uint8_t) : Prop :=
  frame.length = 10
    ∧ (frame.getD 0 0).val = 99 ∧ (frame.getD 1 0).val = 115
    ∧ ((frame.getD 2 0).val : Int) = s.currentLauncher
    ∧ (frame.getD 3 0).val = Command.STATUS.code

/-- Frames the decoding contract calls unrecognized: shorter than four bytes,
wrong tag, other launcher, or a matching prefix that is neither a five-byte
ACK nor a ten-byte STATUS. -/
def unrecognized (s : Engine) (frame : List uint8_t) : Prop :=
  frame.length < 4
    ∨ (frame.getD 0 0).val ≠ 99 ∨ (frame.getD 1 0).val ≠ 115
    ∨ ((frame.getD 2 0).val : Int) ≠ s.currentLauncher
    ∨ (¬ (frame.length = 5 ∧ (frame.getD 3 0).val = Command.ACK.code)
      ∧ ¬ (frame.length = 10 ∧ (frame.getD 3 0).val = Command.STATUS.code))

/-- An iteration at clock `t` without button edge that receives `frame`. -/
def rxAt (t : Nat) (frame : List uint8_t) : Inputs :=
  { quietAt t with rx := some frame }

/-- The frame handed to the receive step, if any, is a Status frame for the
selected launcher. -/
def statusAccepted (s : Engine) (rx : Option (List uint8_t)) : Prop :=
  ∃ frame, rx = some frame ∧ isStatusFrame s frame

/-- No iteration of the run receives a Status frame for the launcher selected
at that moment. -/
def NoStatusAccepted : Engine → List Inputs → Prop
  | _, [] => True
  | s, i :: rest =>
    ¬ statusAccepted (beforeReceive i s).st i.rx ∧ NoStatusAccepted (loopIteration i s).st rest

/-- No iteration of the run changes the selected launcher. -/
def SelectionFixed : Engine → List Inputs → Prop
  | _, [] => True
  | s, i :: rest =>
    (loopIteration i s).st.currentLauncher = s.currentLauncher
      ∧ SelectionFixed (loopIteration i s).st rest

/-- Telemetry is available at the end of every iteration of the run. -/
def AllAvailable : Engine → List Inputs → Prop
  | _, [] => True
  | s, i :: rest =>
    (loopIteration i s).st.telemAvailable = true ∧ AllAvailable (loopIteration i s).st rest

/-- Every iteration reads the clock inside the freshness window that starts at
`start`: the receive reading is not before `start` and the staleness reading
is before `start + DELAY_GET_STATUS_TIMEOUT`. -/
def InWindow (start : Nat) (ins : List Inputs) : Prop :=
  ∀ i ∈ ins, start ≤ i.tRx ∧ i.tStale < start + DELAY_GET_STATUS_TIMEOUT

/-- Status frame of the scenario: launcher 0, hatch open, altitude 100,
temperature 200, battery 50. -/
def statusFrameZero : List uint8_t :=
  [99, 115, 0, 3, 1, 0, 100, 0, 200, 50]

/-- Condition of the status poll as the specification words it: an OK edge or
the poll interval elapsed, and no command current. -/
def pollCondition (btnOk : Bool) (t : Nat) (s : Engine) : Prop :=
  (btnOk = true ∨ t ≥ s.tGetStatus + DELAY_GET_STATUS) ∧ s.currentCommand = .NONE

/-- Transmitted frames whose command byte is GET_STATUS, with their stamps. -/
def pollFrames (out : List Action) : List (Nat × List uint8_t) :=
  (frames out).filter (fun f => decide ((f.2.getD 3 0).val = Command.GET_STATUS.code))

/-- State and actions at the poll step of an iteration: after the first-pass
flag, the selection and the Up/Down handling. -/
def beforePoll (i : Inputs) (s : Engine) : Ctx :=
  commandStep i.btnUp i.btnDown i.tCmd i.tSent (selectStep i.btnLeft i.btnRight (initStep s))

/-- Well-formed session: the current command is NONE, OPEN or CLOSE; the ack
and failed flags are not both set; a set flag goes with a current command; the
repeat count is between 0 and `N_REPEAT_COMMANDS - 1`. -/
def Engine.wellFormed (s : Engine) : Prop :=
  (s.currentCommand = .NONE ∨ s.currentCommand = .OPEN ∨ s.currentCommand = .CLOSE)
    ∧ ¬ (s.ackReceived = true ∧ s.commandFailed = true)
    ∧ ((s.ackReceived = true ∨ s.commandFailed = true) → s.currentCommand ≠ .NONE)
    ∧ 0 ≤ s.currentRepeat ∧ s.currentRepeat ≤ N_REPEAT_COMMANDS - 1

/-- The frame is what `sendCommand` builds for launcher `l` and one of the
commands GET_STATUS, OPEN, CLOSE. -/
def FrameOk (l : Int) (frame : List uint8_t) : Prop :=
  frame = sendCommand l .GET_STATUS ∨ frame = sendCommand l .OPEN
    ∨ frame = sendCommand l .CLOSE

/-- Every frame transmitted so far in the iteration is a GET_STATUS, OPEN or
CLOSE frame for the launcher now selected. -/
def CtxFramesOk (c : Ctx) : Prop :=
  ∀ f ∈ frames c.out, FrameOk c.st.currentLauncher f.2

/-- In every iteration of the run, each transmitted frame is a GET_STATUS,
OPEN or CLOSE frame for the launcher selected in that iteration. -/
def AllFramesOk : Engine → List Inputs → Prop
  | _, [] => True
  | s, i :: rest =>
    CtxFramesOk (loopIteration i s) ∧ AllFramesOk (loopIteration i s).st rest

/-- Invariant of one command instance, issued to launcher `l` with command
`cmd`: as long as a command is current it is that one, for that launcher, and
every command frame sent so far in the iteration is the frame of the instance. -/
def InstanceInv (l : Int) (cmd : Command) (c : Ctx) : Prop :=
  (c.st.currentCommand = .NONE ∨ (c.st.currentLauncher = l ∧ c.st.currentCommand = cmd))
    ∧ ∀ f ∈ frames c.out,
      (f.2.getD 3 0).val ≠ Command.GET_STATUS.code → f.2 = sendCommand l cmd

/-- An acknowledged session: a command is current, its Ack is recorded and it
has not failed. -/
def Engine.acked (s : Engine) : Prop :=
  s.currentCommand ≠ .NONE ∧ s.ackReceived = true ∧ s.commandFailed = false

/-- Every iteration is without button edge and reads its last clock value no
later than `limit`. -/
def HeldUntil (limit : Nat) (ins : List Inputs) : Prop :=
  ∀ i ∈ ins, i.noEdge ∧ i.tClear ≤ limit

/-- Font sizes named by the screen update (`Font::Size`). -/
inductive FontSize where
  | LARGE
  | MEDIUM
deriving DecidableEq, Repr

/-- Calls made on the OLED driver by the screen update, with their arguments. -/
inductive Draw where
  | clear
  | setSize (size : FontSize)
  | button (x y w h : Int) (label : Option String) (a b : Bool) (left right : Bool)
  | printAt (x y : Int) (text : String)
  | print (text : String)
  | printInt (n : Int)
  | printChar (code : Nat)
  | printCentered (x y : Int) (text : String)
  | refresh
deriving DecidableEq, Repr

/-- Launcher labels, the array `LAUNCHERS_NAMES` (lines 30-34). -/
def LAUNCHERS_NAMES : List String :=
  ["1 - VERT", "2 - ROUGE", "3 - JAUNE"]

def LABEL_COMMAND_OPEN : String := "Ouverture..."
def LABEL_COMMAND_CLOSE : String := "Fermeture..."
def LABEL_COMMAND_OPEN_ACK : String := "OUVERTURE !"
def LABEL_COMMAND_CLOSE_ACK : String := "FERMETURE !"
def LABEL_COMMAND_FAILED : String := "Echec de la commande"

/-- The element `LAUNCHERS_NAMES[l]`; `none` stands for a read outside the
array. -/
def launcherName (l : Int) : Option String :=
  if 0 ≤ l then LAUNCHERS_NAMES.get? l.toNat else none

/-- Lines 321-343: the telemetry block, or the placeholder. -/
def telemetryBlock (WIDTH : Int) (s : Engine) : List Draw :=
  if s.telemAvailable then
    [Draw.printAt 5 28 "Alt: ",
      Draw.printInt (Int.tdiv s.altitude 10),
      Draw.print ".",
      Draw.printInt (Int.tmod s.altitude 10),
      Draw.print "m"]
    ++ (if s.hatchOpen then
        [Draw.printAt 72 28 "Ouvert"]
      else
        [Draw.printAt 72 28 "Ferm", Draw.printChar (95 + 32)])
    ++ [Draw.printAt 5 40 "Temp: ",
      Draw.printInt (Int.tdiv s.temperature 10),
      Draw.print ".",
      Draw.printInt (Int.tmod s.temperature 10),
      Draw.print "C",
      Draw.printAt 72 40 "Batt: ",
      Draw.printInt s.batteryPercent,
      Draw.print "%"]
  else
    [Draw.printCentered (Int.tdiv WIDTH 2) 34 "Telem non disponible"]

/-- Lines 344-362: the status line of the command session. -/
def statusLine (WIDTH : Int) (s : Engine) : List Draw :=
  if s.currentCommand ≠ .NONE then
    if s.ackReceived then
      if s.currentCommand = .OPEN then
        [Draw.printCentered (Int.tdiv WIDTH 2) 55 LABEL_COMMAND_OPEN_ACK]
      else if s.currentCommand = .CLOSE then
        [Draw.printCentered (Int.tdiv WIDTH 2) 55 LABEL_COMMAND_CLOSE_ACK]
      else
        []
    else if s.commandFailed then
      [Draw.printCentered (Int.tdiv WIDTH 2) 55 LABEL_COMMAND_FAILED]
    else
      if s.currentCommand = .OPEN then
        [Draw.printCentered (Int.tdiv WIDTH 2) 55 LABEL_COMMAND_OPEN]
      else if s.currentCommand = .CLOSE then
        [Draw.printCentered (Int.tdiv WIDTH 2) 55 LABEL_COMMAND_CLOSE]
      else
        []
  else
    [Draw.printCentered (Int.tdiv WIDTH 2) 55 "Haut : ouvrir | Bas : fermer"]

/-- Lines 317-363: the drawing done when `refresh` is set.  `WIDTH` is the
driver constant `OLED::WIDTH`. -/
def screenUpdate (WIDTH : Int) (s : Engine) : List Draw :=
  [Draw.clear,
    Draw.setSize .LARGE,
    Draw.button 0 0 WIDTH 22 (launcherName s.currentLauncher) true false
      (decide (s.currentLauncher > 0)) (decide (s.currentLauncher < N_LAUNCHERS - 1)),
    Draw.setSize .MEDIUM]
  ++ telemetryBlock WIDTH s
  ++ statusLine WIDTH s
  ++ [Draw.refresh]

/-- Lines 316-364: the screen is drawn only when the refresh flag is set. -/
def display (WIDTH : Int) (c : Ctx) : Option (List Draw) :=
  if c.refresh then some (screenUpdate WIDTH c.st) else none

/-- The variables the screen update reads. -/
structure Displayed where
  currentLauncher : Int
  telemAvailable : Bool
  hatchOpen : Bool
  altitude : Int
  temperature : Int
  batteryPercent : Int
  currentCommand : Command
  ackReceived : Bool
  commandFailed : Bool
deriving DecidableEq, Repr

/-- Values of the displayed variables in an engine state. -/
def Engine.displayed (s : Engine) : Displayed where
  currentLauncher := s.currentLauncher
  telemAvailable := s.telemAvailable
  hatchOpen := s.hatchOpen
  altitude := s.altitude
  temperature := s.temperature
  batteryPercent := s.batteryPercent
  currentCommand := s.currentCommand
  ackReceived := s.ackReceived
  commandFailed := s.commandFailed

/-- State and refresh flag at the screen update of an iteration (line 316). -/
def atScreenUpdate (i : Inputs) (s : Engine) : Ctx :=
  clearStep i.tClear (afterRetry i s)

/-- The drawing call prints a number. -/
def Draw.isNumber : Draw → Bool
  | .printInt _ => true
  | _ => false

/-- Ack frame of launcher 0 echoing OPEN. -/
def ackOpenZero : List uint8_t :=
  [99, 115, 0, 1, 4]

/-- A reachable state with everything live: polled at 4000, telemetry received
at 5000, OPEN sent at 6000 and repeated at 7000, acknowledged at 7100. -/
def liveAcked : Engine :=
  (run initialState
    [okAt 4000, rxAt 5000 statusFrameZero, upAt 6000, quietAt 7000, rxAt 7100 ackOpenZero]).1

/-- A reachable state with everything live and the command failed: polled at
4000, telemetry received at 5000, OPEN sent at 6000, repeated at 7000 and 8000,
failed at 9000. -/
def liveFailed : Engine :=
  (run initialState
    [okAt 4000, rxAt 5000 statusFrameZero, upAt 6000, quietAt 7000, quietAt 8000,
      quietAt 9000]).1

/-- Iterations without button edge and without received frame. -/
def Idle (ins : List Inputs) : Prop :=
  ∀ i ∈ ins, i.noEdge ∧ i.rx = none

/-- Every iteration reads the clock of the timeout check (line 290) before
`limit`. -/
def RetryBefore (limit : Nat) (ins : List Inputs) : Prop :=
  ∀ i ∈ ins, i.tRetry < limit

/-- Every iteration reads the clock of the display hold (line 304) no later
than `limit`. -/
def ClearBy (limit : Nat) (ins : List Inputs) : Prop :=
  ∀ i ∈ ins, i.tClear ≤ limit

/-- Scenario up to the second repeat: the iteration `i0` that sends the
command at `T`, then any iterations `q0`, the iteration at `T + 1000`, any
iterations `q1`, the iteration at `T + 2000`, any iterations `q2`. -/
def scenarioPending (T : Nat) (i0 : Inputs) (q0 q1 q2 : List Inputs) : List Inputs :=
  [i0] ++ q0 ++ [quietAt (T + 1000)] ++ q1 ++ [quietAt (T + 2000)] ++ q2

/-- Scenario up to the iteration at `T + 3000`. -/
def scenarioFailed (T : Nat) (i0 : Inputs) (q0 q1 q2 : List Inputs) : List Inputs :=
  scenarioPending T i0 q0 q1 q2 ++ [quietAt (T + 3000)]

/-- Scenario up to the iteration at `T + 4000`, after any iterations `q3`. -/
def scenarioHeld (T : Nat) (i0 : Inputs) (q0 q1 q2 q3 : List Inputs) : List Inputs :=
  scenarioFailed T i0 q0 q1 q2 ++ q3 ++ [quietAt (T + 4000)]

/-- Scenario up to the iteration at clock `u`. -/
def scenarioCleared (T u : Nat) (i0 : Inputs) (q0 q1 q2 q3 : List Inputs) : List Inputs :=
  scenarioHeld T i0 q0 q1 q2 q3 ++ [quietAt u]

/-- Launcher 1 selected by a Right edge in the first iteration, at clock 2000. -/
def selectedOne : Engine :=
  (run initialState [rightAt 2000]).1

def TURNON_DELAY : Nat := 1000
def DELAY_LOGO_INIT : Nat := 1000

/-! ## Helper lemmas -/

theorem frames_append (a b : List Action) : frames (a ++ b) = frames a ++ frames b := by
  induction a with
  | nil => rfl
  | cons x xs ih =>
    cases x with
    | sleep d => simpa [frames] using ih
    | tx stamp frame => simp [frames, ih]

theorem sleepTotal_append (a b : List Action) :
    sleepTotal (a ++ b) = sleepTotal a + sleepTotal b := by
  induction a with
  | nil => simp [sleepTotal]
  | cons x xs ih =>
    cases x with
    | sleep d => simp [sleepTotal, ih, Nat.add_assoc]
    | tx stamp frame => simpa [sleepTotal] using ih

theorem frames_spacingWait (dt : Nat) : frames (spacingWait dt) = [] := by
  unfold spacingWait
  split <;> rfl

theorem sleepTotal_spacingWait_le (dt : Nat) :
    sleepTotal (spacingWait dt) ≤ DELAY_MIN_BETWEEN_COMMANDS := by
  unfold spacingWait
  split
  · simp [sleepTotal]
  · simp [sleepTotal]

/-! ## Launcher selection -/

/-- C1 (fails on the code): from the initial state, one iteration in which the
Left and the Right edge are both reported passes the guard of line 190 through
its Right half and then takes the `currentLauncher--` branch, so the selection
leaves the range 0..N_LAUNCHERS-1 and becomes -1. -/
theorem selection_escapes_on_both_edges :
    (loopIteration (leftRightAt 2000) initialState).st.currentLauncher = -1
      ∧ ¬ (0 ≤ (loopIteration (leftRightAt 2000) initialState).st.currentLauncher
          ∧ (loopIteration (leftRightAt 2000) initialState).st.currentLauncher
            ≤ N_LAUNCHERS - 1) := by
  decide

/-- C2 (as stated, fails): after an Up edge at clock 5000 and a Right edge in
the next iteration, the selection step has changed the launcher but the send
time of the session is still 5000, so the session is not the empty one. -/
theorem select_keeps_send_time :
    (selectStep false true
        (initStep (loopIteration (upAt 5000) initialState).st)).st.currentLauncher
        ≠ (loopIteration (upAt 5000) initialState).st.currentLauncher
      ∧ (selectStep false true
        (initStep (loopIteration (upAt 5000) initialState).st)).st.tCommandSent = 5000
      ∧ (selectStep false true
        (initStep (loopIteration (upAt 5000) initialState).st)).st.session
        ≠ CommandSession.empty := by
  decide

/-- C2 (amended): whenever the selection step changes `currentLauncher`, it
leaves telemetry unavailable, the poll timestamp at 0, and the session fields
command, repeat count, ack flag, ack time and failed flag at their initial
values; the send time `tCommandSent` is the one field it does not write. -/
theorem select_resets_on_move (btnLeft btnRight : Bool) (c : Ctx)
    (h : (selectStep btnLeft btnRight c).st.currentLauncher ≠ c.st.currentLauncher) :
    (selectStep btnLeft btnRight c).st.telemAvailable = false
      ∧ (selectStep btnLeft btnRight c).st.tGetStatus = 0
      ∧ (selectStep btnLeft btnRight c).st.currentCommand = Command.NONE
      ∧ (selectStep btnLeft btnRight c).st.currentRepeat = 0
      ∧ (selectStep btnLeft btnRight c).st.ackReceived = false
      ∧ (selectStep btnLeft btnRight c).st.tAckReceived = 0
      ∧ (selectStep btnLeft btnRight c).st.commandFailed = false
      ∧ (selectStep btnLeft btnRight c).st.tCommandSent = c.st.tCommandSent := by
  unfold selectStep at h ⊢
  split
  · simp
  · rename_i hc
    rw [if_neg hc] at h
    exact absurd rfl h

/-! ## Command issuance -/

/-- C3 (as stated, fails): with an OPEN session pending since clock 5000, a
Down edge at clock 5500 is not ignored: the command step transmits a CLOSE
frame and replaces the pending command. -/
theorem down_edge_replaces_pending_open :
    (initStep (loopIteration (upAt 5000) initialState).st).st.currentCommand = Command.OPEN
      ∧ (initStep (loopIteration (upAt 5000) initialState).st).st.ackReceived = false
      ∧ (initStep (loopIteration (upAt 5000) initialState).st).st.commandFailed = false
      ∧ frames (commandStep false true 5500 5500
          (initStep (loopIteration (upAt 5000) initialState).st)).out
        = [(5500, [67, 83, 0, 5])]
      ∧ (commandStep false true 5500 5500
          (initStep (loopIteration (upAt 5000) initialState).st)).st.currentCommand
        = Command.CLOSE := by
  decide

/-- C3 (amended): an Up or Down edge is handled in every state, also while a
session is pending, acknowledged or failed: the command step transmits exactly
one frame to the selected launcher, OPEN for Up and CLOSE otherwise, and starts
a session afresh with that command: `tCommandSent` is the send time,
`currentRepeat` 0, `ackReceived` and `commandFailed` false, `tAckReceived` 0. -/
theorem command_edge_always_issues (btnUp btnDown : Bool) (t tSent : Nat) (c : Ctx)
    (h : (btnUp || btnDown) = true) :
    frames (commandStep btnUp btnDown t tSent c).out
        = frames c.out
          ++ [(tSent, sendCommand c.st.currentLauncher
                (if btnUp then Command.OPEN else Command.CLOSE))]
      ∧ (commandStep btnUp btnDown t tSent c).st.currentCommand
        = (if btnUp then Command.OPEN else Command.CLOSE)
      ∧ (commandStep btnUp btnDown t tSent c).st.tCommandSent = tSent
      ∧ (commandStep btnUp btnDown t tSent c).st.currentRepeat = 0
      ∧ (commandStep btnUp btnDown t tSent c).st.ackReceived = false
      ∧ (commandStep btnUp btnDown t tSent c).st.commandFailed = false
      ∧ (commandStep btnUp btnDown t tSent c).st.tAckReceived = 0 := by
  unfold commandStep
  rw [if_pos h]
  simp [frames_append, frames_spacingWait, frames]

theorem command_edge_always_issues_witness :
    frames (commandStep false true 5500 5500
          (initStep (loopIteration (upAt 5000) initialState).st)).out
        = frames (initStep (loopIteration (upAt 5000) initialState).st).out
          ++ [(5500, sendCommand
                (initStep (loopIteration (upAt 5000) initialState).st).st.currentLauncher
                (if false then Command.OPEN else Command.CLOSE))]
      ∧ (commandStep false true 5500 5500
          (initStep (loopIteration (upAt 5000) initialState).st)).st.currentCommand
        = (if false then Command.OPEN else Command.CLOSE)
      ∧ (commandStep false true 5500 5500
          (initStep (loopIteration (upAt 5000) initialState).st)).st.tCommandSent = 5500
      ∧ (commandStep false true 5500 5500
          (initStep (loopIteration (upAt 5000) initialState).st)).st.currentRepeat = 0
      ∧ (commandStep false true 5500 5500
          (initStep (loopIteration (upAt 5000) initialState).st)).st.ackReceived = false
      ∧ (commandStep false true 5500 5500
          (initStep (loopIteration (upAt 5000) initialState).st)).st.commandFailed = false
      ∧ (commandStep false true 5500 5500
          (initStep (loopIteration (upAt 5000) initialState).st)).st.tAckReceived = 0 :=
  command_edge_always_issues false true 5500 5500
    (initStep (loopIteration (upAt 5000) initialState).st) (by decide)

/-! ## Retry budget -/

theorem commandFrameCount_append (a b : List Action) :
    commandFrameCount (a ++ b) = commandFrameCount a + commandFrameCount b := by
  simp [commandFrameCount, frames_append, List.countP_append]

theorem commandFrameCount_tx_le (stamp : Nat) (frame : List uint8_t) :
    commandFrameCount [Action.tx stamp frame] ≤ 1 := by
  simp only [commandFrameCount, frames]
  exact le_trans (List.countP_le_length _) (by simp)

theorem commandFrameCount_sleep (d : Nat) : commandFrameCount [Action.sleep d] = 0 := by
  simp [commandFrameCount, frames]

theorem commandFrameCount_poll (stamp : Nat) (l : Int) :
    commandFrameCount [Action.tx stamp (sendCommand l .GET_STATUS)] = 0 := by
  simp [commandFrameCount, frames, sendCommand, toByte, Command.code]

theorem initStep_budget (s : Engine) : budget (initStep s) = retriesLeft s := by
  unfold initStep budget
  split <;> simp [commandFrameCount, frames, retriesLeft]

theorem selectStep_budget (l r : Bool) (c : Ctx) : budget (selectStep l r c) ≤ budget c := by
  unfold selectStep budget
  split
  · simp [retriesLeft]
  · exact le_refl _

theorem commandStep_budget_idle (t tSent : Nat) (c : Ctx) :
    budget (commandStep false false t tSent c) = budget c := by
  simp [commandStep]

theorem pollStep_budget (ok : Bool) (t : Nat) (c : Ctx) :
    budget (pollStep ok t c) = budget c := by
  unfold pollStep budget
  split
  · simp [commandFrameCount_append, commandFrameCount_poll, retriesLeft]
  · rfl

theorem rxStep_budget (t : Nat) (frame : List uint8_t) (c : Ctx) :
    budget (rxStep t frame c) ≤ budget c := by
  unfold rxStep budget
  simp only
  split
  · split
    · split
      · simp [retriesLeft]
      · exact le_refl _
    · split
      · simp [retriesLeft]
      · exact le_refl _
  · exact le_refl _

theorem receiveStep_budget (t : Nat) (rx : Option (List uint8_t)) (c : Ctx) :
    budget (receiveStep t rx c) ≤ budget c := by
  cases rx with
  | none => exact le_refl _
  | some frame => exact rxStep_budget t frame c

theorem staleStep_budget (t : Nat) (c : Ctx) : budget (staleStep t c) = budget c := by
  unfold staleStep budget
  split <;> simp [retriesLeft]

theorem retryStep_budget (t : Nat) (c : Ctx) : budget (retryStep t c) ≤ budget c := by
  unfold retryStep budget
  split
  · rename_i h
    split
    · rename_i hr
      have hk := commandFrameCount_tx_le t (sendCommand c.st.currentLauncher c.st.currentCommand)
      have hne : c.st.currentCommand ≠ Command.NONE := h.1
      simp only [commandFrameCount_append, retriesLeft, h.2.1, h.2.2.1]
      simp only [N_REPEAT_COMMANDS] at hr ⊢
      simp [hne]
      omega
    · simp [retriesLeft]
  · exact le_refl _

theorem clearStep_budget (t : Nat) (c : Ctx) : budget (clearStep t c) ≤ budget c := by
  unfold clearStep budget
  split
  · simp [retriesLeft]
  · exact le_refl _

theorem endStep_budget (c : Ctx) : budget (endStep c) = budget c := by
  simp [endStep, budget, commandFrameCount_append, commandFrameCount_sleep]

/-- Steps after the Up/Down handling never raise the budget. -/
theorem tail_budget (i : Inputs) (c : Ctx) :
    budget (endStep (clearStep i.tClear (retryStep i.tRetry (staleStep i.tStale
      (receiveStep i.tRx i.rx (pollStep i.btnOk i.tPoll c)))))) ≤ budget c := by
  rw [endStep_budget]
  refine le_trans (clearStep_budget _ _) ?_
  refine le_trans (retryStep_budget _ _) ?_
  rw [staleStep_budget]
  refine le_trans (receiveStep_budget _ _ _) ?_
  rw [pollStep_budget]

/-- An iteration without Up or Down edge never raises the budget. -/
theorem loopIteration_budget (i : Inputs) (s : Engine)
    (hu : i.btnUp = false) (hd : i.btnDown = false) :
    budget (loopIteration i s) ≤ retriesLeft s := by
  unfold loopIteration afterRetry beforeReceive
  refine le_trans (tail_budget i _) ?_
  rw [hu, hd, commandStep_budget_idle]
  refine le_trans (selectStep_budget _ _ _) ?_
  rw [initStep_budget]

/-- Runs without Up or Down edge: command frames sent never exceed the repeats
that were left at the start. -/
theorem run_budget (ins : List Inputs) :
    ∀ s : Engine, NoCommandEdge ins →
      commandFrameCount (run s ins).2 + retriesLeft (run s ins).1 ≤ retriesLeft s := by
  induction ins with
  | nil =>
    intro s _
    simp [run, commandFrameCount, frames]
  | cons i rest ih =>
    intro s h
    have hi := h i (List.mem_cons_self _ _)
    have hrest : NoCommandEdge rest := fun j hj => h j (List.mem_cons_of_mem _ hj)
    have h1 := loopIteration_budget i s hi.1 hi.2
    have h2 := ih (loopIteration i s).st hrest
    simp only [run, commandFrameCount_append]
    unfold budget at h1
    omega

/-! ## Fields a step leaves alone -/

@[simp] theorem rxStep_currentCommand (t : Nat) (frame : List uint8_t) (c : Ctx) :
    (rxStep t frame c).st.currentCommand = c.st.currentCommand := by
  unfold rxStep
  simp only
  split_ifs <;> rfl

@[simp] theorem receiveStep_currentCommand (t : Nat) (rx : Option (List uint8_t)) (c : Ctx) :
    (receiveStep t rx c).st.currentCommand = c.st.currentCommand := by
  cases rx with
  | none => rfl
  | some frame => exact rxStep_currentCommand t frame c

@[simp] theorem rxStep_commandFailed (t : Nat) (frame : List uint8_t) (c : Ctx) :
    (rxStep t frame c).st.commandFailed = c.st.commandFailed := by
  unfold rxStep
  simp only
  split_ifs <;> rfl

@[simp] theorem receiveStep_commandFailed (t : Nat) (rx : Option (List uint8_t)) (c : Ctx) :
    (receiveStep t rx c).st.commandFailed = c.st.commandFailed := by
  cases rx with
  | none => rfl
  | some frame => exact rxStep_commandFailed t frame c

@[simp] theorem rxStep_tCommandSent (t : Nat) (frame : List uint8_t) (c : Ctx) :
    (rxStep t frame c).st.tCommandSent = c.st.tCommandSent := by
  unfold rxStep
  simp only
  split_ifs <;> rfl

@[simp] theorem receiveStep_tCommandSent (t : Nat) (rx : Option (List uint8_t)) (c : Ctx) :
    (receiveStep t rx c).st.tCommandSent = c.st.tCommandSent := by
  cases rx with
  | none => rfl
  | some frame => exact rxStep_tCommandSent t frame c

@[simp] theorem rxStep_currentRepeat (t : Nat) (frame : List uint8_t) (c : Ctx) :
    (rxStep t frame c).st.currentRepeat = c.st.currentRepeat := by
  unfold rxStep
  simp only
  split_ifs <;> rfl

@[simp] theorem receiveStep_currentRepeat (t : Nat) (rx : Option (List uint8_t)) (c : Ctx) :
    (receiveStep t rx c).st.currentRepeat = c.st.currentRepeat := by
  cases rx with
  | none => rfl
  | some frame => exact rxStep_currentRepeat t frame c

@[simp] theorem rxStep_currentLauncher (t : Nat) (frame : List uint8_t) (c : Ctx) :
    (rxStep t frame c).st.currentLauncher = c.st.currentLauncher := by
  unfold rxStep
  simp only
  split_ifs <;> rfl

@[simp] theorem receiveStep_currentLauncher (t : Nat) (rx : Option (List uint8_t)) (c : Ctx) :
    (receiveStep t rx c).st.currentLauncher = c.st.currentLauncher := by
  cases rx with
  | none => rfl
  | some frame => exact rxStep_currentLauncher t frame c

@[simp] theorem rxStep_tGetStatus (t : Nat) (frame : List uint8_t) (c : Ctx) :
    (rxStep t frame c).st.tGetStatus = c.st.tGetStatus := by
  unfold rxStep
  simp only
  split_ifs <;> rfl

@[simp] theorem receiveStep_tGetStatus (t : Nat) (rx : Option (List uint8_t)) (c : Ctx) :
    (receiveStep t rx c).st.tGetStatus = c.st.tGetStatus := by
  cases rx with
  | none => rfl
  | some frame => exact rxStep_tGetStatus t frame c

@[simp] theorem rxStep_init (t : Nat) (frame : List uint8_t) (c : Ctx) :
    (rxStep t frame c).st.init = c.st.init := by
  unfold rxStep
  simp only
  split_ifs <;> rfl

@[simp] theorem receiveStep_init (t : Nat) (rx : Option (List uint8_t)) (c : Ctx) :
    (receiveStep t rx c).st.init = c.st.init := by
  cases rx with
  | none => rfl
  | some frame => exact rxStep_init t frame c

@[simp] theorem staleStep_currentCommand (t : Nat) (c : Ctx) :
    (staleStep t c).st.currentCommand = c.st.currentCommand := by
  unfold staleStep
  split_ifs <;> rfl

@[simp] theorem staleStep_commandFailed (t : Nat) (c : Ctx) :
    (staleStep t c).st.commandFailed = c.st.commandFailed := by
  unfold staleStep
  split_ifs <;> rfl

@[simp] theorem staleStep_tCommandSent (t : Nat) (c : Ctx) :
    (staleStep t c).st.tCommandSent = c.st.tCommandSent := by
  unfold staleStep
  split_ifs <;> rfl

@[simp] theorem staleStep_currentRepeat (t : Nat) (c : Ctx) :
    (staleStep t c).st.currentRepeat = c.st.currentRepeat := by
  unfold staleStep
  split_ifs <;> rfl

@[simp] theorem staleStep_currentLauncher (t : Nat) (c : Ctx) :
    (staleStep t c).st.currentLauncher = c.st.currentLauncher := by
  unfold staleStep
  split_ifs <;> rfl

@[simp] theorem staleStep_tGetStatus (t : Nat) (c : Ctx) :
    (staleStep t c).st.tGetStatus = c.st.tGetStatus := by
  unfold staleStep
  split_ifs <;> rfl

@[simp] theorem staleStep_init (t : Nat) (c : Ctx) :
    (staleStep t c).st.init = c.st.init := by
  unfold staleStep
  split_ifs <;> rfl

@[simp] theorem staleStep_ackReceived (t : Nat) (c : Ctx) :
    (staleStep t c).st.ackReceived = c.st.ackReceived := by
  unfold staleStep
  split_ifs <;> rfl

@[simp] theorem staleStep_tAckReceived (t : Nat) (c : Ctx) :
    (staleStep t c).st.tAckReceived = c.st.tAckReceived := by
  unfold staleStep
  split_ifs <;> rfl

@[simp] theorem staleStep_hatchOpen (t : Nat) (c : Ctx) :
    (staleStep t c).st.hatchOpen = c.st.hatchOpen := by
  unfold staleStep
  split_ifs <;> rfl

@[simp] theorem staleStep_altitude (t : Nat) (c : Ctx) :
    (staleStep t c).st.altitude = c.st.altitude := by
  unfold staleStep
  split_ifs <;> rfl

@[simp] theorem staleStep_temperature (t : Nat) (c : Ctx) :
    (staleStep t c).st.temperature = c.st.temperature := by
  unfold staleStep
  split_ifs <;> rfl

@[simp] theorem staleStep_batteryPercent (t : Nat) (c : Ctx) :
    (staleStep t c).st.batteryPercent = c.st.batteryPercent := by
  unfold staleStep
  split_ifs <;> rfl

@[simp] theorem rxStep_out (t : Nat) (frame : List uint8_t) (c : Ctx) :
    (rxStep t frame c).out = c.out := by
  unfold rxStep
  simp only
  split_ifs <;> rfl

@[simp] theorem receiveStep_out (t : Nat) (rx : Option (List uint8_t)) (c : Ctx) :
    (receiveStep t rx c).out = c.out := by
  cases rx with
  | none => rfl
  | some frame => exact rxStep_out t frame c

@[simp] theorem staleStep_out (t : Nat) (c : Ctx) : (staleStep t c).out = c.out := by
  unfold staleStep
  split_ifs <;> rfl

@[simp] theorem clearStep_out (t : Nat) (c : Ctx) : (clearStep t c).out = c.out := by
  unfold clearStep
  split_ifs <;> rfl

@[simp] theorem selectStep_out (l r : Bool) (c : Ctx) : (selectStep l r c).out = c.out := by
  unfold selectStep
  split_ifs <;> rfl

@[simp] theorem initStep_out (s : Engine) : (initStep s).out = [] := by
  unfold initStep
  split_ifs <;> rfl

@[simp] theorem initStep_currentCommand (s : Engine) : (initStep s).st.currentCommand = s.currentCommand := by
  unfold initStep
  split_ifs <;> rfl

@[simp] theorem initStep_commandFailed (s : Engine) : (initStep s).st.commandFailed = s.commandFailed := by
  unfold initStep
  split_ifs <;> rfl

@[simp] theorem initStep_tCommandSent (s : Engine) : (initStep s).st.tCommandSent = s.tCommandSent := by
  unfold initStep
  split_ifs <;> rfl

@[simp] theorem initStep_currentRepeat (s : Engine) : (initStep s).st.currentRepeat = s.currentRepeat := by
  unfold initStep
  split_ifs <;> rfl

@[simp] theorem initStep_currentLauncher (s : Engine) : (initStep s).st.currentLauncher = s.currentLauncher := by
  unfold initStep
  split_ifs <;> rfl

@[simp] theorem initStep_tGetStatus (s : Engine) : (initStep s).st.tGetStatus = s.tGetStatus := by
  unfold initStep
  split_ifs <;> rfl

@[simp] theorem initStep_ackReceived (s : Engine) : (initStep s).st.ackReceived = s.ackReceived := by
  unfold initStep
  split_ifs <;> rfl

@[simp] theorem initStep_tAckReceived (s : Engine) : (initStep s).st.tAckReceived = s.tAckReceived := by
  unfold initStep
  split_ifs <;> rfl

@[simp] theorem initStep_hatchOpen (s : Engine) : (initStep s).st.hatchOpen = s.hatchOpen := by
  unfold initStep
  split_ifs <;> rfl

@[simp] theorem initStep_altitude (s : Engine) : (initStep s).st.altitude = s.altitude := by
  unfold initStep
  split_ifs <;> rfl

@[simp] theorem initStep_temperature (s : Engine) : (initStep s).st.temperature = s.temperature := by
  unfold initStep
  split_ifs <;> rfl

@[simp] theorem initStep_batteryPercent (s : Engine) : (initStep s).st.batteryPercent = s.batteryPercent := by
  unfold initStep
  split_ifs <;> rfl

@[simp] theorem initStep_tTelem (s : Engine) : (initStep s).st.tTelem = s.tTelem := by
  unfold initStep
  split_ifs <;> rfl

@[simp] theorem initStep_telemAvailable (s : Engine) : (initStep s).st.telemAvailable = s.telemAvailable := by
  unfold initStep
  split_ifs <;> rfl

/-- First iteration of a command: after the Up/Down handling one command frame
is out and at most `N_REPEAT_COMMANDS - 1` repeats may follow. -/
theorem issue_budget (i : Inputs) (s : Engine) (h : (i.btnUp || i.btnDown) = true) :
    budget (loopIteration i s) ≤ 3 := by
  unfold loopIteration afterRetry beforeReceive
  refine le_trans (tail_budget i _) ?_
  have hk := commandFrameCount_tx_le i.tSent
    (sendCommand (selectStep i.btnLeft i.btnRight (initStep s)).st.currentLauncher
      (if i.btnUp then Command.OPEN else Command.CLOSE))
  unfold budget commandStep
  rw [if_pos h]
  simp only [commandFrameCount_append, selectStep_out, initStep_out, retriesLeft]
  have h0 : commandFrameCount ([] : List Action) = 0 := rfl
  have h1 : ∀ dt, commandFrameCount (spacingWait dt) = 0 := by
    intro dt
    simp [commandFrameCount, frames_spacingWait]
  rw [h0, h1, h1]
  have h2 : (if i.btnUp then Command.OPEN else Command.CLOSE) ≠ Command.NONE := by
    cases i.btnUp <;> simp
  simp [h2, N_REPEAT_COMMANDS]
  omega

/-- Without button edge the steps before the receive leave a current command
as it is and transmit nothing. -/
theorem beforeReceive_quiet (i : Inputs) (s : Engine) (he : i.noEdge)
    (hc : s.currentCommand ≠ Command.NONE) :
    beforeReceive i s = initStep s := by
  obtain ⟨hl, hr, hu, hd, hk⟩ := he
  have hc2 : (initStep s).st.currentCommand ≠ Command.NONE := by simpa using hc
  unfold beforeReceive
  rw [hl, hr, hu, hd, hk]
  have h1 : selectStep false false (initStep s) = initStep s := by simp [selectStep]
  have h2 : ∀ t tSent, commandStep false false t tSent (initStep s) = initStep s := by
    intro t tSent
    simp [commandStep]
  rw [h1, h2]
  unfold pollStep
  rw [if_neg]
  simp [hc]

/-- C4: retry budget.  (1) In any run that starts with an iteration handling an
Up or Down edge and continues with iterations without Up/Down edge (whatever
the clock readings, the other edges and the received frames), at most
`N_REPEAT_COMMANDS` = 3 command frames are transmitted.  (2) In an iteration
without button edge and without accepted Ack that finds a pending command sent
at a positive time, with `currentRepeat = N_REPEAT_COMMANDS - 1` and the
timeout elapsed, the timeout check sets `commandFailed` and the iteration
transmits no frame.  (3) From a failed session on, no command frame is
transmitted as long as no Up/Down edge arrives. -/
theorem retry_budget :
    (∀ (s : Engine) (i : Inputs) (rest : List Inputs),
        (i.btnUp || i.btnDown) = true → NoCommandEdge rest →
        (commandFrameCount (run s (i :: rest)).2 : Int) ≤ N_REPEAT_COMMANDS)
      ∧ (∀ (s : Engine) (i : Inputs),
        s.pending → s.tCommandSent > 0 → s.currentRepeat = N_REPEAT_COMMANDS - 1 →
        i.noEdge →
        (receiveStep i.tRx i.rx (beforeReceive i s)).st.ackReceived = false →
        i.tRetry ≥ s.tCommandSent + DELAY_COMMAND_TIMEOUT →
        (afterRetry i s).st.commandFailed = true ∧ frames (loopIteration i s).out = [])
      ∧ (∀ (s : Engine) (ins : List Inputs),
        s.commandFailed = true → NoCommandEdge ins →
        commandFrameCount (run s ins).2 = 0) := by
  refine ⟨?_, ?_, ?_⟩
  · intro s i rest hi hrest
    have h1 := issue_budget i s hi
    have h2 := run_budget rest (loopIteration i s).st hrest
    simp only [run, commandFrameCount_append, N_REPEAT_COMMANDS]
    unfold budget at h1
    omega
  · intro s i hp hpos hrep he hack ht
    obtain ⟨hc, ha, hf⟩ := hp
    have hb := beforeReceive_quiet i s he hc
    rw [hb] at hack
    have hcond : (staleStep i.tStale (receiveStep i.tRx i.rx (initStep s))).st.currentCommand
          ≠ Command.NONE
        ∧ (staleStep i.tStale (receiveStep i.tRx i.rx (initStep s))).st.ackReceived = false
        ∧ (staleStep i.tStale (receiveStep i.tRx i.rx (initStep s))).st.commandFailed = false
        ∧ (staleStep i.tStale (receiveStep i.tRx i.rx (initStep s))).st.tCommandSent > 0
        ∧ i.tRetry ≥ (staleStep i.tStale (receiveStep i.tRx i.rx (initStep s))).st.tCommandSent
            + DELAY_COMMAND_TIMEOUT := by
      simp only [staleStep_currentCommand, receiveStep_currentCommand, initStep_currentCommand,
        staleStep_ackReceived, staleStep_commandFailed, receiveStep_commandFailed,
        initStep_commandFailed, staleStep_tCommandSent, receiveStep_tCommandSent,
        initStep_tCommandSent]
      exact ⟨hc, hack, hf, hpos, ht⟩
    have hrep2 : ¬ (staleStep i.tStale (receiveStep i.tRx i.rx (initStep s))).st.currentRepeat
        < N_REPEAT_COMMANDS - 1 := by
      simp only [staleStep_currentRepeat, receiveStep_currentRepeat, initStep_currentRepeat]
      omega
    have hr : afterRetry i s
        = { staleStep i.tStale (receiveStep i.tRx i.rx (initStep s)) with
            st := { (staleStep i.tStale (receiveStep i.tRx i.rx (initStep s))).st with
              commandFailed := true }
            refresh := true } := by
      unfold afterRetry retryStep
      rw [hb, if_pos hcond, if_neg hrep2]
    constructor
    · rw [hr]
    · unfold loopIteration endStep
      rw [hr]
      simp [frames_append, frames]
  · intro s ins hf hins
    have h := run_budget ins s hins
    have h0 : retriesLeft s = 0 := by simp [retriesLeft, hf]
    omega

theorem retry_budget_witness :
    (commandFrameCount
        (run initialState
          (upAt 5000 :: [quietAt 6000, quietAt 7000, quietAt 8000, quietAt 9010])).2 : Int)
        ≤ N_REPEAT_COMMANDS
      ∧ ((afterRetry (quietAt 8000)
            (run initialState [upAt 5000, quietAt 6000, quietAt 7000]).1).st.commandFailed = true
          ∧ frames (loopIteration (quietAt 8000)
            (run initialState [upAt 5000, quietAt 6000, quietAt 7000]).1).out = [])
      ∧ commandFrameCount
          (run (run initialState [upAt 5000, quietAt 6000, quietAt 7000, quietAt 8000]).1
            [quietAt 8500, okAt 8600]).2 = 0 :=
  ⟨retry_budget.1 initialState (upAt 5000)
      [quietAt 6000, quietAt 7000, quietAt 8000, quietAt 9010] (by decide)
      (by unfold NoCommandEdge; decide),
    retry_budget.2.1 (run initialState [upAt 5000, quietAt 6000, quietAt 7000]).1 (quietAt 8000)
      (by unfold Engine.pending; decide) (by decide) (by decide)
      (by unfold Inputs.noEdge; decide) (by decide) (by decide),
    retry_budget.2.2 (run initialState [upAt 5000, quietAt 6000, quietAt 7000, quietAt 8000]).1
      [quietAt 8500, okAt 8600] (by decide) (by unfold NoCommandEdge; decide)⟩

/-! ## Iterations without input -/

theorem quietAt_noEdge (t : Nat) : (quietAt t).noEdge := by
  simp [Inputs.noEdge, quietAt]

theorem quiet_iteration (t : Nat) (s : Engine) (hc : s.currentCommand ≠ Command.NONE) :
    loopIteration (quietAt t) s
      = endStep (clearStep t (retryStep t (staleStep t (initStep s)))) := by
  unfold loopIteration afterRetry
  rw [beforeReceive_quiet _ _ (quietAt_noEdge t) hc]
  rfl

theorem sessionIs_fields {s : Engine} {l : Int} {k : CommandSession} (h : s.sessionIs l k) :
    s.currentLauncher = l ∧ s.currentCommand = k.command ∧ s.tCommandSent = k.sentAt
      ∧ s.currentRepeat = k.repeatCount ∧ s.ackReceived = k.ackReceived
      ∧ s.tAckReceived = k.ackReceivedAt ∧ s.commandFailed = k.failed := by
  obtain ⟨hl, hk⟩ := h
  subst hk
  exact ⟨hl, rfl, rfl, rfl, rfl, rfl, rfl⟩

/-- A pending command whose timeout elapsed is repeated while repeats are left. -/
theorem quiet_resend (t : Nat) (s : Engine) (l : Int) (cmd : Command) (sent : Nat)
    (rep : Int) (ta : Nat)
    (h : s.sessionIs l ⟨cmd, sent, rep, false, ta, false⟩) (hc : cmd ≠ Command.NONE)
    (hpos : 0 < sent) (hrep : rep < 2) (ht : sent + 1000 ≤ t) :
    (loopIteration (quietAt t) s).st.sessionIs l ⟨cmd, t, rep + 1, false, ta, false⟩
      ∧ frames (loopIteration (quietAt t) s).out = [(t, sendCommand l cmd)] := by
  obtain ⟨hl, h1, h2, h3, h4, h5, h6⟩ := sessionIs_fields h
  simp only at h1 h2 h3 h4 h5 h6
  rw [quiet_iteration t s (by rw [h1]; exact hc)]
  have hr : retryStep t (staleStep t (initStep s))
      = { st := { (staleStep t (initStep s)).st with
            tCommandSent := t
            currentRepeat := (staleStep t (initStep s)).st.currentRepeat + 1 }
          refresh := true
          out := (staleStep t (initStep s)).out
            ++ [Action.tx t (sendCommand (staleStep t (initStep s)).st.currentLauncher
                (staleStep t (initStep s)).st.currentCommand)] } := by
    unfold retryStep
    rw [if_pos, if_pos]
    · simp [h3, N_REPEAT_COMMANDS]
      omega
    · simp [h1, h2, h4, h6, hc, DELAY_COMMAND_TIMEOUT]
      omega
  rw [hr]
  unfold clearStep
  rw [if_neg]
  · simp [endStep, Engine.sessionIs, Engine.session, frames_append, frames, hl, h1, h3, h4, h5, h6]
  · simp [h4, h6]

/-- A pending command whose timeout elapsed with no repeat left fails. -/
theorem quiet_fail (t : Nat) (s : Engine) (l : Int) (cmd : Command) (sent : Nat)
    (rep : Int) (ta : Nat)
    (h : s.sessionIs l ⟨cmd, sent, rep, false, ta, false⟩) (hc : cmd ≠ Command.NONE)
    (hpos : 0 < sent) (hrep : 2 ≤ rep) (ht : sent + 1000 ≤ t) (ht2 : t ≤ sent + 2000) :
    (loopIteration (quietAt t) s).st.sessionIs l ⟨cmd, sent, rep, false, ta, true⟩
      ∧ frames (loopIteration (quietAt t) s).out = [] := by
  obtain ⟨hl, h1, h2, h3, h4, h5, h6⟩ := sessionIs_fields h
  simp only at h1 h2 h3 h4 h5 h6
  rw [quiet_iteration t s (by rw [h1]; exact hc)]
  have hr : retryStep t (staleStep t (initStep s))
      = { staleStep t (initStep s) with
          st := { (staleStep t (initStep s)).st with commandFailed := true }
          refresh := true } := by
    unfold retryStep
    rw [if_pos, if_neg]
    · simp [h3, N_REPEAT_COMMANDS]
      omega
    · simp [h1, h2, h4, h6, hc, DELAY_COMMAND_TIMEOUT]
      omega
  rw [hr]
  unfold clearStep
  rw [if_neg]
  · simp [endStep, Engine.sessionIs, Engine.session, frames_append, frames, hl, h1, h2, h3, h4, h5]
  · simp [h4, h2, DELAY_COMMAND_TIMEOUT, DELAY_ORDER_DISPLAYED]
    omega

/-- A failed command stays on display until the hold has expired. -/
theorem quiet_hold (t : Nat) (s : Engine) (l : Int) (cmd : Command) (sent : Nat)
    (rep : Int) (ta : Nat)
    (h : s.sessionIs l ⟨cmd, sent, rep, false, ta, true⟩) (hc : cmd ≠ Command.NONE)
    (ht : t ≤ sent + 2000) :
    (loopIteration (quietAt t) s).st.sessionIs l ⟨cmd, sent, rep, false, ta, true⟩
      ∧ frames (loopIteration (quietAt t) s).out = [] := by
  obtain ⟨hl, h1, h2, h3, h4, h5, h6⟩ := sessionIs_fields h
  simp only at h1 h2 h3 h4 h5 h6
  rw [quiet_iteration t s (by rw [h1]; exact hc)]
  have hr : retryStep t (staleStep t (initStep s)) = staleStep t (initStep s) := by
    unfold retryStep
    rw [if_neg]
    simp [h6]
  rw [hr]
  unfold clearStep
  rw [if_neg]
  · simp [endStep, Engine.sessionIs, Engine.session, frames_append, frames, hl, h1, h2, h3, h4,
      h5, h6]
  · simp [h4, h2, DELAY_COMMAND_TIMEOUT, DELAY_ORDER_DISPLAYED]
    omega

/-- A failed command is cleared once the hold has expired. -/
theorem quiet_clear (t : Nat) (s : Engine) (l : Int) (cmd : Command) (sent : Nat)
    (rep : Int) (ta : Nat)
    (h : s.sessionIs l ⟨cmd, sent, rep, false, ta, true⟩) (hc : cmd ≠ Command.NONE)
    (ht : sent + 2000 < t) :
    (loopIteration (quietAt t) s).st.sessionIs l CommandSession.empty
      ∧ frames (loopIteration (quietAt t) s).out = [] := by
  obtain ⟨hl, h1, h2, h3, h4, h5, h6⟩ := sessionIs_fields h
  simp only at h1 h2 h3 h4 h5 h6
  rw [quiet_iteration t s (by rw [h1]; exact hc)]
  have hr : retryStep t (staleStep t (initStep s)) = staleStep t (initStep s) := by
    unfold retryStep
    rw [if_neg]
    simp [h6]
  rw [hr]
  unfold clearStep
  rw [if_pos]
  · simp [endStep, Engine.sessionIs, Engine.session, frames_append, frames, hl,
      CommandSession.empty, initialState]
  · simp [h1, hc, h4, h6, h2, DELAY_COMMAND_TIMEOUT, DELAY_ORDER_DISPLAYED]
    omega

/-- An Up edge handled at clock `t` starts an OPEN session and sends one frame. -/
theorem up_issue (t : Nat) (s : Engine) (l : Int) (hl : s.currentLauncher = l) :
    (loopIteration (upAt t) s).st.sessionIs l ⟨Command.OPEN, t, 0, false, 0, false⟩
      ∧ frames (loopIteration (upAt t) s).out = [(t, sendCommand l Command.OPEN)] := by
  have hsel : selectStep false false (initStep s) = initStep s := by simp [selectStep]
  have hb : beforeReceive (upAt t) s = commandStep true false t t (initStep s) := by
    unfold beforeReceive
    simp only [upAt, quietAt]
    rw [hsel]
    unfold pollStep
    rw [if_neg]
    simp [commandStep]
  have hr : afterRetry (upAt t) s
      = staleStep t (commandStep true false t t (initStep s)) := by
    unfold afterRetry
    rw [hb]
    simp only [upAt, quietAt, receiveStep]
    unfold retryStep
    rw [if_neg]
    simp [commandStep, DELAY_COMMAND_TIMEOUT]
  unfold loopIteration
  rw [hr]
  simp only [upAt, quietAt]
  unfold clearStep
  rw [if_neg]
  · simp [endStep, Engine.sessionIs, Engine.session, frames_append, frames, hl, commandStep,
      frames_spacingWait]
  · simp [commandStep]

/-! ## Timed failure scenario -/

theorem run_nil (s : Engine) : run s [] = (s, []) := rfl

theorem run_cons (s : Engine) (i : Inputs) (rest : List Inputs) :
    run s (i :: rest)
      = ((run (loopIteration i s).st rest).1,
          (loopIteration i s).out ++ (run (loopIteration i s).st rest).2) := rfl

/-! ## Blocking wait before a command -/

theorem sleepTotal_commandStep (btnUp btnDown : Bool) (t tSent : Nat) (c : Ctx) :
    sleepTotal (commandStep btnUp btnDown t tSent c).out
      = sleepTotal c.out
        + (if (btnUp || btnDown) = true then
            sleepTotal (spacingWait (elapsed t c.st.tGetStatus))
              + sleepTotal (spacingWait (elapsed t c.st.tCommandSent))
          else 0) := by
  unfold commandStep
  split
  · simp [sleepTotal_append, sleepTotal, Nat.add_assoc]
  · simp

/-- C7 (as stated, fails): after an Up edge at clock 5000 and a Right edge at
5010 (which polls the new launcher at 5010), an Up edge handled at clock 5020
sleeps 390 ms against `tGetStatus` and, computed from the same reading of the
clock, 380 ms against `tCommandSent`: 770 ms in total, more than 400. -/
theorem spacing_wait_exceeds_constant :
    (run initialState [upAt 5000, rightAt 5010]).1.tGetStatus = 5010
      ∧ (run initialState [upAt 5000, rightAt 5010]).1.tCommandSent = 5000
      ∧ sleepTotal (commandStep true false 5020 5790
          (initStep (run initialState [upAt 5000, rightAt 5010]).1)).out = 770
      ∧ ¬ sleepTotal (commandStep true false 5020 5790
          (initStep (run initialState [upAt 5000, rightAt 5010]).1)).out
          ≤ DELAY_MIN_BETWEEN_COMMANDS := by
  decide

/-- C7 (amended): for every state and clock value at which an Up/Down edge is
handled, each of the two waits (against `tGetStatus` and against
`tCommandSent`) is at most `DELAY_MIN_BETWEEN_COMMANDS` = 400 ms, so the
command step sleeps at most twice that, 800 ms, before transmitting. -/
theorem spacing_wait_bound (btnUp btnDown : Bool) (t tSent : Nat) (c : Ctx) :
    sleepTotal (spacingWait (elapsed t c.st.tGetStatus)) ≤ DELAY_MIN_BETWEEN_COMMANDS
      ∧ sleepTotal (spacingWait (elapsed t c.st.tCommandSent)) ≤ DELAY_MIN_BETWEEN_COMMANDS
      ∧ sleepTotal (commandStep btnUp btnDown t tSent c).out
        ≤ sleepTotal c.out + 2 * DELAY_MIN_BETWEEN_COMMANDS := by
  have h1 := sleepTotal_spacingWait_le (elapsed t c.st.tGetStatus)
  have h2 := sleepTotal_spacingWait_le (elapsed t c.st.tCommandSent)
  refine ⟨h1, h2, ?_⟩
  rw [sleepTotal_commandStep]
  split <;> omega

/-! ## Spacing of command frames -/

theorem getLast_cons_getD (last x : Nat) (xs : List Nat) :
    (x :: xs).getLast?.getD last = xs.getLast?.getD x := by
  cases xs with
  | nil => simp
  | cons y ys => simp [List.getLast?_cons_cons, List.getLast?_cons]

theorem getLast_append_getD (last : Nat) (xs ys : List Nat) :
    (xs ++ ys).getLast?.getD last = ys.getLast?.getD (xs.getLast?.getD last) := by
  induction xs generalizing last with
  | nil => simp
  | cons x xs ih =>
    rw [List.cons_append, getLast_cons_getD, getLast_cons_getD, ih]

theorem chain_append_getLast (R : Nat → Nat → Prop) (last : Nat) (xs ys : List Nat) :
    List.Chain R last (xs ++ ys)
      ↔ List.Chain R last xs ∧ List.Chain R (xs.getLast?.getD last) ys := by
  induction xs generalizing last with
  | nil => simp
  | cons x xs ih =>
    rw [getLast_cons_getD]
    simp [List.chain_cons, ih, and_assoc]

theorem commandStamps_append (a b : List Action) :
    commandStamps (a ++ b) = commandStamps a ++ commandStamps b := by
  simp [commandStamps, frames_append]

theorem lastStamp_append (last : Nat) (a b : List Action) :
    lastStamp last (a ++ b) = lastStamp (lastStamp last a) b := by
  unfold lastStamp
  rw [commandStamps_append, getLast_append_getD]

theorem commandStamps_nil : commandStamps [] = [] := rfl

theorem commandStamps_sleep (d : Nat) : commandStamps [Action.sleep d] = [] := rfl

theorem commandStamps_spacingWait (dt : Nat) : commandStamps (spacingWait dt) = [] := by
  simp [commandStamps, frames_spacingWait]

theorem commandStamps_poll (stamp : Nat) (l : Int) :
    commandStamps [Action.tx stamp (sendCommand l .GET_STATUS)] = [] := by
  simp [commandStamps, frames, sendCommand, toByte, Command.code]

theorem commandStamps_tx (stamp : Nat) (frame : List uint8_t) :
    commandStamps [Action.tx stamp frame] = [stamp]
      ∨ commandStamps [Action.tx stamp frame] = [] := by
  by_cases h : (frame.getD 3 0).val ≠ Command.GET_STATUS.code
  · left
    have hd : decide ((frame.getD 3 0).val ≠ Command.GET_STATUS.code) = true :=
      decide_eq_true h
    simp only [commandStamps, frames, List.filter, hd, List.map]
  · right
    have hd : decide ((frame.getD 3 0).val ≠ Command.GET_STATUS.code) = false :=
      decide_eq_false h
    simp only [commandStamps, frames, List.filter, hd, List.map]

theorem commandStamps_issue (stamp : Nat) (l : Int) (btnUp : Bool) :
    commandStamps [Action.tx stamp
        (sendCommand l (if btnUp then Command.OPEN else Command.CLOSE))] = [stamp] := by
  cases btnUp <;> rfl

theorem sleepTotal_spacingWait (dt : Nat) :
    sleepTotal (spacingWait dt)
      = if dt < DELAY_MIN_BETWEEN_COMMANDS then DELAY_MIN_BETWEEN_COMMANDS - dt else 0 := by
  unfold spacingWait
  split <;> simp [sleepTotal]

theorem spacingInv_mono {now t : Nat} {s : Engine} {last : Nat}
    (h : SpacingInv now s last) (ht : now ≤ t) : SpacingInv t s last := by
  obtain ⟨h1, h2, h3⟩ := h
  refine ⟨by omega, ?_, h3⟩
  rcases h2 with h2 | h2
  · exact Or.inl h2
  · exact Or.inr (by omega)

theorem spacingCtx_mono {now t : Nat} {c : Ctx} {last : Nat}
    (h : SpacingCtx now c last) (ht : now ≤ t) : SpacingCtx t c last :=
  ⟨h.1, spacingInv_mono h.2 ht⟩

theorem initStep_spacing (now : Nat) (s : Engine) (last : Nat)
    (h : SpacingInv now s last) : SpacingCtx now (initStep s) last := by
  unfold SpacingCtx SpacingInv
  simp only [initStep_out, commandStamps_nil, lastStamp, initStep_tCommandSent,
    initStep_ackReceived, initStep_tAckReceived]
  exact ⟨List.Chain.nil, h⟩

theorem selectStep_spacing (now : Nat) (l r : Bool) (c : Ctx) (last : Nat)
    (h : SpacingCtx now c last) : SpacingCtx now (selectStep l r c) last := by
  obtain ⟨h1, h2, h3, h4⟩ := h
  unfold selectStep
  split
  · exact ⟨h1, h2, h3, by simp⟩
  · exact ⟨h1, h2, h3, h4⟩

theorem commandStep_spacing (now t tSent : Nat) (btnUp btnDown : Bool) (c : Ctx) (last : Nat)
    (h : SpacingCtx now c last) (ht : now ≤ t)
    (hs : t + (sleepTotal (commandStep btnUp btnDown t tSent c).out - sleepTotal c.out)
      ≤ tSent) :
    SpacingCtx tSent (commandStep btnUp btnDown t tSent c) last := by
  rw [sleepTotal_commandStep] at hs
  by_cases he : (btnUp || btnDown) = true
  · rw [if_pos he, sleepTotal_spacingWait, sleepTotal_spacingWait] at hs
    obtain ⟨h1, h2, h3, h4⟩ := h
    unfold commandStep
    rw [if_pos he]
    unfold SpacingCtx SpacingInv
    simp only [commandStamps_append, commandStamps_spacingWait, lastStamp,
      List.append_nil, commandStamps_issue, getLast_append_getD, chain_append_getLast]
    refine ⟨⟨h1, ?_⟩, ?_⟩
    · refine List.Chain.cons ?_ List.Chain.nil
      unfold lastStamp at h3
      unfold elapsed DELAY_MIN_BETWEEN_COMMANDS at hs
      unfold DELAY_MIN_BETWEEN_COMMANDS at h3 ⊢
      split at hs <;> split at hs <;> omega
    · simp
  · have hc : commandStep btnUp btnDown t tSent c = c := by
      unfold commandStep
      rw [if_neg he]
    rw [if_neg he] at hs
    rw [hc]
    exact spacingCtx_mono h (by omega)

theorem pollStep_spacing (now t : Nat) (ok : Bool) (c : Ctx) (last : Nat)
    (h : SpacingCtx now c last) (ht : now ≤ t) : SpacingCtx t (pollStep ok t c) last := by
  have h' := spacingCtx_mono h ht
  obtain ⟨h1, h2⟩ := h'
  unfold pollStep
  split
  · unfold SpacingCtx
    simp only [commandStamps_append, commandStamps_poll, List.append_nil, lastStamp]
    exact ⟨h1, h2⟩
  · exact ⟨h1, h2⟩

theorem rxStep_spacing (now t : Nat) (frame : List uint8_t) (c : Ctx) (last : Nat)
    (h : SpacingCtx now c last) (ht : now ≤ t) : SpacingCtx t (rxStep t frame c) last := by
  have h' := spacingCtx_mono h ht
  obtain ⟨h1, h2, h3, h4⟩ := h'
  unfold rxStep
  simp only
  split_ifs <;> first
    | exact ⟨h1, h2, h3, h4⟩
    | exact ⟨h1, h2, h3, fun _ => h2⟩

theorem receiveStep_spacing (now t : Nat) (rx : Option (List uint8_t)) (c : Ctx) (last : Nat)
    (h : SpacingCtx now c last) (ht : now ≤ t) : SpacingCtx t (receiveStep t rx c) last := by
  cases rx with
  | none => exact spacingCtx_mono h ht
  | some frame => exact rxStep_spacing now t frame c last h ht

theorem staleStep_spacing (now t : Nat) (c : Ctx) (last : Nat)
    (h : SpacingCtx now c last) (ht : now ≤ t) : SpacingCtx t (staleStep t c) last := by
  have h' := spacingCtx_mono h ht
  obtain ⟨h1, h2, h3, h4⟩ := h'
  unfold staleStep
  split
  · exact ⟨h1, h2, h3, h4⟩
  · exact ⟨h1, h2, h3, h4⟩

theorem retryStep_spacing (now t : Nat) (c : Ctx) (last : Nat)
    (h : SpacingCtx now c last) (ht : now ≤ t) : SpacingCtx t (retryStep t c) last := by
  have h' := spacingCtx_mono h ht
  obtain ⟨h1, h2, h3, h4⟩ := h'
  unfold retryStep
  split
  · rename_i hc
    obtain ⟨_, hack, _, _, htime⟩ := hc
    split
    · unfold SpacingCtx SpacingInv
      simp only [commandStamps_append, lastStamp, getLast_append_getD, chain_append_getLast]
      unfold lastStamp at h3
      unfold DELAY_COMMAND_TIMEOUT at htime
      unfold DELAY_MIN_BETWEEN_COMMANDS at h3 ⊢
      rcases commandStamps_tx t (sendCommand c.st.currentLauncher c.st.currentCommand)
        with hk | hk
      · rw [hk]
        refine ⟨⟨h1, List.Chain.cons (by omega) List.Chain.nil⟩, ?_⟩
        simp [hack]
      · rw [hk]
        refine ⟨⟨h1, List.Chain.nil⟩, le_refl _, ?_, ?_⟩
        · left
          simp only [List.getLast?_nil, Option.getD_none]
          omega
        · simp [hack]
    · exact ⟨h1, h2, h3, h4⟩
  · exact ⟨h1, h2, h3, h4⟩

theorem clearStep_spacing (now t : Nat) (c : Ctx) (last : Nat)
    (h : SpacingCtx now c last) (ht : now ≤ t) : SpacingCtx t (clearStep t c) last := by
  have h' := spacingCtx_mono h ht
  obtain ⟨h1, h2, h3, h4⟩ := h'
  unfold clearStep
  split
  · rename_i hc
    refine ⟨h1, Nat.zero_le _, ?_, by simp⟩
    right
    show lastStamp last c.out + DELAY_MIN_BETWEEN_COMMANDS ≤ t
    unfold DELAY_MIN_BETWEEN_COMMANDS at h3 ⊢
    unfold DELAY_COMMAND_TIMEOUT DELAY_ORDER_DISPLAYED at hc
    rcases hc.2 with ⟨ha, hta⟩ | ⟨_, htf⟩
    · have := h4 ha
      omega
    · omega
  · exact ⟨h1, h2, h3, h4⟩

theorem endStep_spacing (now : Nat) (c : Ctx) (last : Nat)
    (h : SpacingCtx now c last) : SpacingCtx now (endStep c) last := by
  obtain ⟨h1, h2⟩ := h
  unfold endStep SpacingCtx
  simp only [commandStamps_append, commandStamps_sleep, List.append_nil, lastStamp]
  exact ⟨h1, h2⟩

/-- One iteration with consistent clock readings keeps the spacing invariant. -/
theorem loopIteration_spacing (now : Nat) (i : Inputs) (s : Engine) (last : Nat)
    (h : SpacingInv now s last) (hc : i.clockOk now s) :
    SpacingCtx i.tClear (loopIteration i s) last := by
  obtain ⟨c1, c2, c3, c4, c5, c6, c7⟩ := hc
  have h0 := selectStep_spacing now i.btnLeft i.btnRight _ last (initStep_spacing now s last h)
  have h1 := commandStep_spacing now i.tCmd i.tSent i.btnUp i.btnDown _ last h0 c1
    (by omega)
  have h2 := pollStep_spacing i.tSent i.tPoll i.btnOk _ last h1 c3
  have h3 := receiveStep_spacing i.tPoll i.tRx i.rx _ last h2 c4
  have h4 := staleStep_spacing i.tRx i.tStale _ last h3 c5
  have h5 := retryStep_spacing i.tStale i.tRetry _ last h4 c6
  have h6 := clearStep_spacing i.tRetry i.tClear _ last h5 c7
  exact endStep_spacing i.tClear _ last h6

/-- Runs with consistent clock readings: every command frame follows the
previous one, and the stamp `last`, by at least the spacing. -/
theorem run_spacing (ins : List Inputs) :
    ∀ (now : Nat) (s : Engine) (last : Nat), SpacingInv now s last → ClockOk now s ins →
      List.Chain (fun a b => a + DELAY_MIN_BETWEEN_COMMANDS ≤ b) last
        (commandStamps (run s ins).2) := by
  induction ins with
  | nil =>
    intro now s last _ _
    exact List.Chain.nil
  | cons i rest ih =>
    intro now s last h hc
    obtain ⟨hi, hrest⟩ := hc
    obtain ⟨k1, k2⟩ := loopIteration_spacing now i s last h hi
    have k3 := ih (i.tClear + 10) (loopIteration i s).st (lastStamp last (loopIteration i s).out)
      (spacingInv_mono k2 (by omega)) hrest
    rw [run_cons]
    simp only [commandStamps_append, chain_append_getLast]
    exact ⟨k1, k3⟩

theorem initial_spacing (now : Nat) : SpacingInv now initialState 0 := by
  refine ⟨Nat.zero_le _, Or.inl (le_refl _), ?_⟩
  intro h
  exact absurd h (by decide)

/-- What the receive step does with an accepted Ack. -/
theorem rxStep_accept (t : Nat) (frame : List uint8_t) (c : Ctx)
    (h : ackAccepted c.st frame) :
    rxStep t frame c
      = { c with
          st := { c.st with
            hatchOpen :=
              if c.st.currentCommand.code = Command.CLOSE.code then false
              else if c.st.currentCommand.code = Command.OPEN.code then true
              else c.st.hatchOpen
            ackReceived := true
            tAckReceived := t }
          refresh := true } := by
  obtain ⟨h1, h2, h3, h4, h5, h6, h7, h8, h9⟩ := h
  unfold rxStep
  simp only
  rw [if_pos ⟨by omega, h2, h3, h4⟩, if_pos ⟨h1, h5, h7, h8, h9⟩, if_pos h6]
  simp only [h6]

/-- A five-byte frame that is not an accepted Ack is dropped. -/
theorem rxStep_reject (t : Nat) (frame : List uint8_t) (c : Ctx)
    (hlen : frame.length ≠ 10 ∨ (frame.getD 3 0).val ≠ Command.STATUS.code
      ∨ ¬ isStatusFrame c.st frame)
    (h : ¬ ackAccepted c.st frame) :
    rxStep t frame c = c := by
  unfold rxStep
  simp only
  split
  · rename_i hh
    split
    · rename_i ha
      split
      · rename_i he
        exact absurd ⟨ha.1, hh.2.1, hh.2.2.1, hh.2.2.2, ha.2.1, he, ha.2.2.1, ha.2.2.2.1,
          ha.2.2.2.2⟩ h
      · rfl
    · split
      · rename_i hs
        rcases hlen with hl | hl | hl
        · exact absurd hs.1 hl
        · exact absurd hs.2 hl
        · exact absurd ⟨hs.1, hh.2.1, hh.2.2.1, hh.2.2.2, hs.2⟩ hl
      · rfl
  · rfl

/-- The receive step never writes the session unless it accepts an Ack. -/
theorem rxStep_session_of_not_accepted (t : Nat) (frame : List uint8_t) (c : Ctx)
    (h : ¬ ackAccepted c.st frame) :
    (rxStep t frame c).st.session = c.st.session := by
  by_cases hs : isStatusFrame c.st frame
  · obtain ⟨s1, s2, s3, s4, s5⟩ := hs
    unfold rxStep
    simp only
    rw [if_pos ⟨by omega, s2, s3, s4⟩, if_neg (fun ha => by omega), if_pos ⟨s1, s5⟩]
    rfl
  · rw [rxStep_reject t frame c (Or.inr (Or.inr hs)) h]

/-- C8: Ack acceptance.  For every state, clock value and received frame:
(1) the receive step changes the command session exactly when the frame has
length 5, bytes `'c'`, `'s'`, third byte the selected launcher, fourth byte
ACK, fifth byte the code of the current command, and that command is pending
(not NONE, not acknowledged, not failed); (2) on acceptance `ackReceived`
becomes true, `tAckReceived` the current time, `hatchOpen` true for OPEN and
false for CLOSE, and the other session fields keep their values; (3) in every
other case the session fields are unchanged, and so is `hatchOpen` unless the
frame is a ten-byte Status frame for the selected launcher (so for every
five-byte frame: echo of another command, ack already recorded, session
failed, no session). -/
theorem ack_acceptance (t : Nat) (frame : List uint8_t) (c : Ctx) :
    (ackAccepted c.st frame ↔ (rxStep t frame c).st.session ≠ c.st.session)
      ∧ (ackAccepted c.st frame →
        (rxStep t frame c).st.ackReceived = true
          ∧ (rxStep t frame c).st.tAckReceived = t
          ∧ (c.st.currentCommand = Command.OPEN → (rxStep t frame c).st.hatchOpen = true)
          ∧ (c.st.currentCommand = Command.CLOSE → (rxStep t frame c).st.hatchOpen = false)
          ∧ (rxStep t frame c).st.currentCommand = c.st.currentCommand
          ∧ (rxStep t frame c).st.tCommandSent = c.st.tCommandSent
          ∧ (rxStep t frame c).st.currentRepeat = c.st.currentRepeat
          ∧ (rxStep t frame c).st.commandFailed = c.st.commandFailed)
      ∧ (¬ ackAccepted c.st frame →
        (rxStep t frame c).st.session = c.st.session
          ∧ (¬ isStatusFrame c.st frame → (rxStep t frame c).st.hatchOpen = c.st.hatchOpen)) := by
  refine ⟨⟨?_, ?_⟩, ?_, ?_⟩
  · intro h
    rw [rxStep_accept t frame c h]
    intro hk
    have hk2 := congrArg CommandSession.ackReceived hk
    simp only [Engine.session] at hk2
    rw [h.2.2.2.2.2.2.2.1] at hk2
    exact absurd hk2 (by decide)
  · intro h
    by_contra hn
    exact h (rxStep_session_of_not_accepted t frame c hn)
  · intro h
    rw [rxStep_accept t frame c h]
    refine ⟨rfl, rfl, ?_, ?_, rfl, rfl, rfl, rfl⟩
    · intro ho
      simp [ho, Command.code]
    · intro hc
      simp [hc, Command.code]
  · intro h
    refine ⟨rxStep_session_of_not_accepted t frame c h, ?_⟩
    intro hs
    rw [rxStep_reject t frame c (Or.inr (Or.inr hs)) h]

theorem ack_acceptance_witness :
    (rxStep 5200 [99, 115, 1, 1, 4]
        (initStep (run launcherOne [upAt 5000]).1)).st.ackReceived = true
      ∧ (rxStep 5200 [99, 115, 1, 1, 4]
        (initStep (run launcherOne [upAt 5000]).1)).st.tAckReceived = 5200
      ∧ (rxStep 5200 [99, 115, 1, 1, 4]
        (initStep (run launcherOne [upAt 5000]).1)).st.hatchOpen = true :=
  ⟨((ack_acceptance 5200 [99, 115, 1, 1, 4]
      (initStep (run launcherOne [upAt 5000]).1)).2.1 (by unfold ackAccepted; decide)).1,
    ((ack_acceptance 5200 [99, 115, 1, 1, 4]
      (initStep (run launcherOne [upAt 5000]).1)).2.1 (by unfold ackAccepted; decide)).2.1,
    ((ack_acceptance 5200 [99, 115, 1, 1, 4]
      (initStep (run launcherOne [upAt 5000]).1)).2.1 (by unfold ackAccepted; decide)).2.2.1
      (by decide)⟩

/-! ## Duplicate acknowledgements -/

theorem pending_of_session_eq {s s' : Engine} (h : s.session = s'.session) :
    s.pending ↔ s'.pending := by
  have h1 : s.currentCommand = s'.currentCommand := congrArg CommandSession.command h
  have h2 : s.ackReceived = s'.ackReceived := congrArg CommandSession.ackReceived h
  have h3 : s.commandFailed = s'.commandFailed := congrArg CommandSession.failed h
  unfold Engine.pending
  rw [h1, h2, h3]

theorem not_accepted_of_not_pending {s : Engine} (frame : List uint8_t) (h : ¬ s.pending) :
    ¬ ackAccepted s frame := by
  intro ha
  exact h ⟨ha.2.2.2.2.2.2.1, ha.2.2.2.2.2.2.2.1, ha.2.2.2.2.2.2.2.2⟩

/-- Outside a pending session a five-byte frame leaves everything as it is. -/
theorem rxStep_five_not_pending (t : Nat) (frame : List uint8_t) (c : Ctx)
    (hlen : frame.length = 5) (h : ¬ c.st.pending) : rxStep t frame c = c :=
  rxStep_reject t frame c (Or.inl (by omega)) (not_accepted_of_not_pending frame h)

theorem initStep_not_pending (s : Engine) (h : ¬ s.pending) : ¬ (initStep s).st.pending := by
  unfold Engine.pending at h ⊢
  simpa using h

theorem selectStep_not_pending (l r : Bool) (c : Ctx) (h : ¬ c.st.pending) :
    ¬ (selectStep l r c).st.pending := by
  unfold selectStep
  split
  · intro hp
    exact hp.1 rfl
  · exact h

theorem pollStep_not_pending (ok : Bool) (t : Nat) (c : Ctx) (h : ¬ c.st.pending) :
    ¬ (pollStep ok t c).st.pending := by
  unfold pollStep
  split
  · exact h
  · exact h

theorem beforeReceive_not_pending (i : Inputs) (s : Engine)
    (hu : i.btnUp = false) (hd : i.btnDown = false) (h : ¬ s.pending) :
    ¬ (beforeReceive i s).st.pending := by
  unfold beforeReceive
  apply pollStep_not_pending
  have hc : ∀ c, commandStep i.btnUp i.btnDown i.tCmd i.tSent c = c := by
    intro c
    simp [commandStep, hu, hd]
  rw [hc]
  exact selectStep_not_pending _ _ _ (initStep_not_pending s h)

theorem receiveStep_not_pending (t : Nat) (rx : Option (List uint8_t)) (c : Ctx)
    (h : ¬ c.st.pending) : ¬ (receiveStep t rx c).st.pending := by
  cases rx with
  | none => exact h
  | some frame =>
    have hk := rxStep_session_of_not_accepted t frame c (not_accepted_of_not_pending frame h)
    intro hp
    exact h ((pending_of_session_eq hk).mp hp)

theorem staleStep_not_pending (t : Nat) (c : Ctx) (h : ¬ c.st.pending) :
    ¬ (staleStep t c).st.pending := by
  unfold Engine.pending at h ⊢
  simpa using h

theorem retryStep_not_pending (t : Nat) (c : Ctx) (h : ¬ c.st.pending) :
    ¬ (retryStep t c).st.pending := by
  have hk : retryStep t c = c := by
    unfold retryStep
    rw [if_neg]
    intro hc
    exact h ⟨hc.1, hc.2.1, hc.2.2.1⟩
  rw [hk]
  exact h

theorem clearStep_not_pending (t : Nat) (c : Ctx) (h : ¬ c.st.pending) :
    ¬ (clearStep t c).st.pending := by
  unfold clearStep
  split
  · intro hp
    exact hp.1 rfl
  · exact h

/-- Without Up or Down edge no iteration makes a command pending. -/
theorem loopIteration_not_pending (i : Inputs) (s : Engine)
    (hu : i.btnUp = false) (hd : i.btnDown = false) (h : ¬ s.pending) :
    ¬ (loopIteration i s).st.pending := by
  unfold loopIteration afterRetry
  exact clearStep_not_pending _ _ (retryStep_not_pending _ _ (staleStep_not_pending _ _
    (receiveStep_not_pending _ _ _ (beforeReceive_not_pending i s hu hd h))))

/-- Outside a pending session, an iteration that receives a five-byte frame
is the same as an iteration that receives nothing. -/
theorem loopIteration_rxAt_not_pending (t : Nat) (frame : List uint8_t) (s : Engine)
    (hlen : frame.length = 5) (h : ¬ s.pending) :
    loopIteration (rxAt t frame) s = loopIteration (quietAt t) s := by
  have hb : beforeReceive (rxAt t frame) s = beforeReceive (quietAt t) s := rfl
  have hn : ¬ (beforeReceive (quietAt t) s).st.pending :=
    beforeReceive_not_pending (quietAt t) s rfl rfl h
  unfold loopIteration afterRetry
  rw [hb]
  have hr : receiveStep (rxAt t frame).tRx (rxAt t frame).rx (beforeReceive (quietAt t) s)
      = receiveStep (quietAt t).tRx (quietAt t).rx (beforeReceive (quietAt t) s) := by
    show rxStep t frame (beforeReceive (quietAt t) s) = beforeReceive (quietAt t) s
    exact rxStep_five_not_pending t frame _ hlen hn
  rw [hr]
  rfl

theorem run_rxAt_not_pending (frame : List uint8_t) (hlen : frame.length = 5)
    (ts : List Nat) :
    ∀ s : Engine, ¬ s.pending →
      run s (ts.map (fun t => rxAt t frame)) = run s (ts.map quietAt) := by
  induction ts with
  | nil =>
    intro s _
    rfl
  | cons t rest ih =>
    intro s h
    simp only [List.map_cons, run_cons]
    rw [loopIteration_rxAt_not_pending t frame s hlen h]
    rw [ih _ (loopIteration_not_pending (quietAt t) s rfl rfl h)]

/-- C9: idempotent Ack acceptance.  Let a matching Ack be accepted at clock `t1`
for a pending session.  Then `ackReceived` is true and `tAckReceived` is `t1`,
and (1) processing the same frame again, at any clock and with any value of the
refresh flag, changes nothing: session, `hatchOpen`, every other variable and
the refresh flag stay as they are; (2) so does processing it any number of
times; (3) a run of later iterations that each receive the duplicate is equal,
in state and in actions, to the run in which they receive nothing. -/
theorem ack_idempotent (t1 : Nat) (frame : List uint8_t) (c : Ctx)
    (h : ackAccepted c.st frame) :
    (rxStep t1 frame c).st.ackReceived = true
      ∧ (rxStep t1 frame c).st.tAckReceived = t1
      ∧ (∀ (t : Nat) (r : Bool) (out : List Action),
        rxStep t frame ⟨(rxStep t1 frame c).st, r, out⟩ = ⟨(rxStep t1 frame c).st, r, out⟩)
      ∧ (∀ ts : List Nat,
        ts.foldl (fun acc t => rxStep t frame acc) (rxStep t1 frame c) = rxStep t1 frame c)
      ∧ (∀ ts : List Nat,
        run (rxStep t1 frame c).st (ts.map (fun t => rxAt t frame))
          = run (rxStep t1 frame c).st (ts.map quietAt)) := by
  have hlen : frame.length = 5 := h.1
  have hack : (rxStep t1 frame c).st.ackReceived = true := by
    rw [rxStep_accept t1 frame c h]
  have hnp : ¬ (rxStep t1 frame c).st.pending := by
    intro hp
    have hf := hp.2.1
    rw [hack] at hf
    exact absurd hf (by decide)
  refine ⟨hack, by rw [rxStep_accept t1 frame c h], ?_, ?_, ?_⟩
  · intro t r out
    exact rxStep_five_not_pending t frame _ hlen hnp
  · intro ts
    induction ts with
    | nil => rfl
    | cons t rest ih =>
      rw [List.foldl_cons, rxStep_five_not_pending t frame _ hlen hnp]
      exact ih
  · intro ts
    exact run_rxAt_not_pending frame hlen ts _ hnp

theorem ack_idempotent_witness :
    (rxStep 5200 [99, 115, 1, 1, 4]
        (initStep (run launcherOne [upAt 5000]).1)).st.ackReceived = true
      ∧ (rxStep 5200 [99, 115, 1, 1, 4]
        (initStep (run launcherOne [upAt 5000]).1)).st.tAckReceived = 5200
      ∧ [5300, 5400].foldl (fun acc t => rxStep t [99, 115, 1, 1, 4] acc)
          (rxStep 5200 [99, 115, 1, 1, 4] (initStep (run launcherOne [upAt 5000]).1))
        = rxStep 5200 [99, 115, 1, 1, 4] (initStep (run launcherOne [upAt 5000]).1) :=
  ⟨(ack_idempotent 5200 [99, 115, 1, 1, 4] (initStep (run launcherOne [upAt 5000]).1)
      (by unfold ackAccepted; decide)).1,
    (ack_idempotent 5200 [99, 115, 1, 1, 4] (initStep (run launcherOne [upAt 5000]).1)
      (by unfold ackAccepted; decide)).2.1,
    (ack_idempotent 5200 [99, 115, 1, 1, 4] (initStep (run launcherOne [upAt 5000]).1)
      (by unfold ackAccepted; decide)).2.2.2.1 [5300, 5400]⟩

/-! ## Foreign and malformed frames -/

/-- C10: foreign and malformed frames are discarded.  For every state, clock
value and received byte sequence that is shorter than four bytes, or does not
start with `'c'`, `'s'`, or whose third byte differs from `currentLauncher`, or
that has a matching prefix but is neither five bytes with fourth byte ACK nor
ten bytes with fourth byte STATUS, the receive step returns the engine
variables, the refresh flag and the actions exactly as it found them. -/
theorem unrecognized_frame_discarded (t : Nat) (frame : List uint8_t) (c : Ctx)
    (h : unrecognized c.st frame) :
    rxStep t frame c = c ∧ receiveStep t (some frame) c = receiveStep t none c := by
  have hk : rxStep t frame c = c := by
    unfold rxStep
    simp only
    split
    · rename_i hh
      rcases h with h | h | h | h | h
      · omega
      · exact absurd hh.2.1 h
      · exact absurd hh.2.2.1 h
      · exact absurd hh.2.2.2 h
      · rw [if_neg (fun ha => h.1 ⟨ha.1, ha.2.1⟩), if_neg h.2]
    · rfl
  exact ⟨hk, hk⟩

theorem unrecognized_frame_discarded_witness :
    rxStep 5200 [99, 115, 2, 1, 4] (initStep (run launcherOne [upAt 5000]).1)
        = initStep (run launcherOne [upAt 5000]).1
      ∧ receiveStep 5200 (some [99, 115, 2, 1, 4]) (initStep (run launcherOne [upAt 5000]).1)
        = receiveStep 5200 none (initStep (run launcherOne [upAt 5000]).1) :=
  unrecognized_frame_discarded 5200 [99, 115, 2, 1, 4]
    (initStep (run launcherOne [upAt 5000]).1) (by unfold unrecognized; decide)

/-! ## Selection range when Left and Right are not reported together -/

@[simp] theorem commandStep_currentLauncher (btnUp btnDown : Bool) (t tSent : Nat) (c : Ctx) :
    (commandStep btnUp btnDown t tSent c).st.currentLauncher = c.st.currentLauncher := by
  unfold commandStep
  split_ifs <;> rfl

@[simp] theorem pollStep_currentLauncher (ok : Bool) (t : Nat) (c : Ctx) :
    (pollStep ok t c).st.currentLauncher = c.st.currentLauncher := by
  unfold pollStep
  split_ifs <;> rfl

@[simp] theorem retryStep_currentLauncher (t : Nat) (c : Ctx) :
    (retryStep t c).st.currentLauncher = c.st.currentLauncher := by
  unfold retryStep
  split_ifs <;> rfl

@[simp] theorem clearStep_currentLauncher (t : Nat) (c : Ctx) :
    (clearStep t c).st.currentLauncher = c.st.currentLauncher := by
  unfold clearStep
  split_ifs <;> rfl

/-- Only the selection step writes `currentLauncher`. -/
theorem loopIteration_currentLauncher (i : Inputs) (s : Engine) :
    (loopIteration i s).st.currentLauncher
      = (selectStep i.btnLeft i.btnRight (initStep s)).st.currentLauncher := by
  simp [loopIteration, afterRetry, beforeReceive, endStep]

/-- The selection never exceeds `N_LAUNCHERS - 1`, whatever the edges. -/
theorem selectStep_upper (l r : Bool) (c : Ctx)
    (h : c.st.currentLauncher ≤ N_LAUNCHERS - 1) :
    (selectStep l r c).st.currentLauncher ≤ N_LAUNCHERS - 1 := by
  unfold selectStep
  unfold N_LAUNCHERS at h ⊢
  split
  · cases l
    · simp only [Bool.false_eq_true, if_false]
      simp_all
      omega
    · simp only [if_true]
      omega
  · exact h

/-- The selection stays non-negative when Left and Right are not both set. -/
theorem selectStep_lower (l r : Bool) (c : Ctx) (hlr : ¬ (l = true ∧ r = true))
    (h : 0 ≤ c.st.currentLauncher) :
    0 ≤ (selectStep l r c).st.currentLauncher := by
  unfold selectStep
  unfold N_LAUNCHERS
  split
  · cases l
    · simp only [Bool.false_eq_true, if_false]
      omega
    · cases r
      · simp_all
        omega
      · exact absurd ⟨rfl, rfl⟩ hlr
  · exact h

/-- Runs in which no iteration reports Left and Right together keep the
selection within 0..N_LAUNCHERS-1. -/
theorem selection_in_range_single_edges (ins : List Inputs) :
    ∀ s : Engine, (∀ i ∈ ins, ¬ (i.btnLeft = true ∧ i.btnRight = true)) →
      0 ≤ s.currentLauncher ∧ s.currentLauncher ≤ N_LAUNCHERS - 1 →
      0 ≤ (run s ins).1.currentLauncher ∧ (run s ins).1.currentLauncher ≤ N_LAUNCHERS - 1 := by
  induction ins with
  | nil =>
    intro s _ h
    exact h
  | cons i rest ih =>
    intro s hins h
    rw [run_cons]
    apply ih _ (fun j hj => hins j (List.mem_cons_of_mem _ hj))
    rw [loopIteration_currentLauncher]
    have h0 : (initStep s).st.currentLauncher = s.currentLauncher := initStep_currentLauncher s
    exact ⟨selectStep_lower _ _ _ (hins i (List.mem_cons_self _ _)) (by rw [h0]; exact h.1),
      selectStep_upper _ _ _ (by rw [h0]; exact h.2)⟩

/-! ## Status frames -/

theorem shift_or_bytes (hi lo : Nat) (h : lo < 256) :
    ((hi <<< 8 ||| lo : Nat) : Int) = 256 * (hi : Int) + (lo : Int) := by
  have h2 : lo < 2 ^ 8 := by omega
  have hk := Nat.mul_add_lt_is_or h2 hi
  rw [Nat.shiftLeft_eq, Nat.mul_comm hi (2 ^ 8), ← hk]
  push_cast
  norm_num

/-- What the receive step does with a Status frame for the selected launcher. -/
theorem rxStep_status (t : Nat) (frame : List uint8_t) (c : Ctx)
    (h : isStatusFrame c.st frame) :
    rxStep t frame c
      = { c with
          st := { c.st with
            hatchOpen := decide ((frame.getD 4 0).val ≠ 0)
            altitude := (((frame.getD 5 0).val <<< 8 ||| (frame.getD 6 0).val : Nat) : Int)
            temperature := (((frame.getD 7 0).val <<< 8 ||| (frame.getD 8 0).val : Nat) : Int)
            batteryPercent := ((frame.getD 9 0).val : Int)
            tTelem := t
            telemAvailable := true }
          refresh := true } := by
  obtain ⟨h1, h2, h3, h4, h5⟩ := h
  unfold rxStep
  simp only
  rw [if_pos ⟨by omega, h2, h3, h4⟩, if_neg (fun ha => by omega), if_pos ⟨h1, h5⟩]

/-- C11: Status frame decoding.  For every state, clock value `t` and ten-byte
frame that starts with `'c'`, `'s'`, carries the selected launcher in its third
byte and STATUS in its fourth, the receive step sets `hatchOpen` to
(b4 ≠ 0), `altitude` to 256*b5 + b6, `temperature` to 256*b7 + b8,
`batteryPercent` to b9, `telemAvailable` to true and `tTelem` to `t`, whatever
the snapshot held before; it raises the refresh flag, transmits nothing, and
leaves the selection, the poll time and the command session as they were. -/
theorem status_frame_decoding (t : Nat) (frame : List uint8_t) (c : Ctx)
    (h : isStatusFrame c.st frame) :
    (rxStep t frame c).st.hatchOpen = decide ((frame.getD 4 0).val ≠ 0)
      ∧ (rxStep t frame c).st.altitude
        = 256 * ((frame.getD 5 0).val : Int) + ((frame.getD 6 0).val : Int)
      ∧ (rxStep t frame c).st.temperature
        = 256 * ((frame.getD 7 0).val : Int) + ((frame.getD 8 0).val : Int)
      ∧ (rxStep t frame c).st.batteryPercent = ((frame.getD 9 0).val : Int)
      ∧ (rxStep t frame c).st.telemAvailable = true
      ∧ (rxStep t frame c).st.tTelem = t
      ∧ (rxStep t frame c).refresh = true
      ∧ (rxStep t frame c).out = c.out
      ∧ (rxStep t frame c).st.currentLauncher = c.st.currentLauncher
      ∧ (rxStep t frame c).st.tGetStatus = c.st.tGetStatus
      ∧ (rxStep t frame c).st.session = c.st.session := by
  rw [rxStep_status t frame c h]
  refine ⟨rfl, ?_, ?_, rfl, rfl, rfl, rfl, rfl, rfl, rfl, rfl⟩
  · exact shift_or_bytes _ _ (frame.getD 6 0).isLt
  · exact shift_or_bytes _ _ (frame.getD 8 0).isLt

theorem status_frame_decoding_witness :
    (rxStep 5000 [99, 115, 1, 3, 1, 0, 100, 0, 200, 50] ⟨launcherOne, false, []⟩).st.hatchOpen
        = true
      ∧ (rxStep 5000 [99, 115, 1, 3, 1, 0, 100, 0, 200, 50] ⟨launcherOne, false, []⟩).st.altitude
        = 100
      ∧ (rxStep 5000 [99, 115, 1, 3, 1, 0, 100, 0, 200, 50]
          ⟨launcherOne, false, []⟩).st.temperature = 200
      ∧ (rxStep 5000 [99, 115, 1, 3, 1, 0, 100, 0, 200, 50]
          ⟨launcherOne, false, []⟩).st.batteryPercent = 50
      ∧ (rxStep 5000 [99, 115, 1, 3, 1, 0, 100, 0, 200, 50]
          ⟨launcherOne, false, []⟩).st.telemAvailable = true
      ∧ (rxStep 5000 [99, 115, 1, 3, 1, 0, 100, 0, 200, 50] ⟨launcherOne, false, []⟩).st.tTelem
        = 5000 :=
  ⟨(status_frame_decoding 5000 [99, 115, 1, 3, 1, 0, 100, 0, 200, 50] ⟨launcherOne, false, []⟩
      (by unfold isStatusFrame; decide)).1,
    (status_frame_decoding 5000 [99, 115, 1, 3, 1, 0, 100, 0, 200, 50] ⟨launcherOne, false, []⟩
      (by unfold isStatusFrame; decide)).2.1,
    (status_frame_decoding 5000 [99, 115, 1, 3, 1, 0, 100, 0, 200, 50] ⟨launcherOne, false, []⟩
      (by unfold isStatusFrame; decide)).2.2.1,
    (status_frame_decoding 5000 [99, 115, 1, 3, 1, 0, 100, 0, 200, 50] ⟨launcherOne, false, []⟩
      (by unfold isStatusFrame; decide)).2.2.2.1,
    (status_frame_decoding 5000 [99, 115, 1, 3, 1, 0, 100, 0, 200, 50] ⟨launcherOne, false, []⟩
      (by unfold isStatusFrame; decide)).2.2.2.2.1,
    (status_frame_decoding 5000 [99, 115, 1, 3, 1, 0, 100, 0, 200, 50] ⟨launcherOne, false, []⟩
      (by unfold isStatusFrame; decide)).2.2.2.2.2.1⟩

/-! ## More fields a step leaves alone -/

@[simp] theorem selectStep_init (l r : Bool) (c : Ctx) :
    (selectStep l r c).st.init = c.st.init := by
  unfold selectStep
  split_ifs <;> rfl

@[simp] theorem selectStep_tCommandSent (l r : Bool) (c : Ctx) :
    (selectStep l r c).st.tCommandSent = c.st.tCommandSent := by
  unfold selectStep
  split_ifs <;> rfl

@[simp] theorem selectStep_tTelem (l r : Bool) (c : Ctx) :
    (selectStep l r c).st.tTelem = c.st.tTelem := by
  unfold selectStep
  split_ifs <;> rfl

@[simp] theorem selectStep_hatchOpen (l r : Bool) (c : Ctx) :
    (selectStep l r c).st.hatchOpen = c.st.hatchOpen := by
  unfold selectStep
  split_ifs <;> rfl

@[simp] theorem selectStep_altitude (l r : Bool) (c : Ctx) :
    (selectStep l r c).st.altitude = c.st.altitude := by
  unfold selectStep
  split_ifs <;> rfl

@[simp] theorem selectStep_temperature (l r : Bool) (c : Ctx) :
    (selectStep l r c).st.temperature = c.st.temperature := by
  unfold selectStep
  split_ifs <;> rfl

@[simp] theorem selectStep_batteryPercent (l r : Bool) (c : Ctx) :
    (selectStep l r c).st.batteryPercent = c.st.batteryPercent := by
  unfold selectStep
  split_ifs <;> rfl

@[simp] theorem commandStep_init (btnUp btnDown : Bool) (t tSent : Nat) (c : Ctx) :
    (commandStep btnUp btnDown t tSent c).st.init = c.st.init := by
  unfold commandStep
  split_ifs <;> rfl

@[simp] theorem commandStep_tTelem (btnUp btnDown : Bool) (t tSent : Nat) (c : Ctx) :
    (commandStep btnUp btnDown t tSent c).st.tTelem = c.st.tTelem := by
  unfold commandStep
  split_ifs <;> rfl

@[simp] theorem commandStep_telemAvailable (btnUp btnDown : Bool) (t tSent : Nat) (c : Ctx) :
    (commandStep btnUp btnDown t tSent c).st.telemAvailable = c.st.telemAvailable := by
  unfold commandStep
  split_ifs <;> rfl

@[simp] theorem commandStep_hatchOpen (btnUp btnDown : Bool) (t tSent : Nat) (c : Ctx) :
    (commandStep btnUp btnDown t tSent c).st.hatchOpen = c.st.hatchOpen := by
  unfold commandStep
  split_ifs <;> rfl

@[simp] theorem commandStep_altitude (btnUp btnDown : Bool) (t tSent : Nat) (c : Ctx) :
    (commandStep btnUp btnDown t tSent c).st.altitude = c.st.altitude := by
  unfold commandStep
  split_ifs <;> rfl

@[simp] theorem commandStep_temperature (btnUp btnDown : Bool) (t tSent : Nat) (c : Ctx) :
    (commandStep btnUp btnDown t tSent c).st.temperature = c.st.temperature := by
  unfold commandStep
  split_ifs <;> rfl

@[simp] theorem commandStep_batteryPercent (btnUp btnDown : Bool) (t tSent : Nat) (c : Ctx) :
    (commandStep btnUp btnDown t tSent c).st.batteryPercent = c.st.batteryPercent := by
  unfold commandStep
  split_ifs <;> rfl

@[simp] theorem commandStep_tGetStatus (btnUp btnDown : Bool) (t tSent : Nat) (c : Ctx) :
    (commandStep btnUp btnDown t tSent c).st.tGetStatus = c.st.tGetStatus := by
  unfold commandStep
  split_ifs <;> rfl

@[simp] theorem pollStep_init (ok : Bool) (t : Nat) (c : Ctx) :
    (pollStep ok t c).st.init = c.st.init := by
  unfold pollStep
  split_ifs <;> rfl

@[simp] theorem pollStep_tCommandSent (ok : Bool) (t : Nat) (c : Ctx) :
    (pollStep ok t c).st.tCommandSent = c.st.tCommandSent := by
  unfold pollStep
  split_ifs <;> rfl

@[simp] theorem pollStep_tAckReceived (ok : Bool) (t : Nat) (c : Ctx) :
    (pollStep ok t c).st.tAckReceived = c.st.tAckReceived := by
  unfold pollStep
  split_ifs <;> rfl

@[simp] theorem pollStep_currentCommand (ok : Bool) (t : Nat) (c : Ctx) :
    (pollStep ok t c).st.currentCommand = c.st.currentCommand := by
  unfold pollStep
  split_ifs <;> rfl

@[simp] theorem pollStep_ackReceived (ok : Bool) (t : Nat) (c : Ctx) :
    (pollStep ok t c).st.ackReceived = c.st.ackReceived := by
  unfold pollStep
  split_ifs <;> rfl

@[simp] theorem pollStep_commandFailed (ok : Bool) (t : Nat) (c : Ctx) :
    (pollStep ok t c).st.commandFailed = c.st.commandFailed := by
  unfold pollStep
  split_ifs <;> rfl

@[simp] theorem pollStep_currentRepeat (ok : Bool) (t : Nat) (c : Ctx) :
    (pollStep ok t c).st.currentRepeat = c.st.currentRepeat := by
  unfold pollStep
  split_ifs <;> rfl

@[simp] theorem pollStep_tTelem (ok : Bool) (t : Nat) (c : Ctx) :
    (pollStep ok t c).st.tTelem = c.st.tTelem := by
  unfold pollStep
  split_ifs <;> rfl

@[simp] theorem pollStep_telemAvailable (ok : Bool) (t : Nat) (c : Ctx) :
    (pollStep ok t c).st.telemAvailable = c.st.telemAvailable := by
  unfold pollStep
  split_ifs <;> rfl

@[simp] theorem pollStep_hatchOpen (ok : Bool) (t : Nat) (c : Ctx) :
    (pollStep ok t c).st.hatchOpen = c.st.hatchOpen := by
  unfold pollStep
  split_ifs <;> rfl

@[simp] theorem pollStep_altitude (ok : Bool) (t : Nat) (c : Ctx) :
    (pollStep ok t c).st.altitude = c.st.altitude := by
  unfold pollStep
  split_ifs <;> rfl

@[simp] theorem pollStep_temperature (ok : Bool) (t : Nat) (c : Ctx) :
    (pollStep ok t c).st.temperature = c.st.temperature := by
  unfold pollStep
  split_ifs <;> rfl

@[simp] theorem pollStep_batteryPercent (ok : Bool) (t : Nat) (c : Ctx) :
    (pollStep ok t c).st.batteryPercent = c.st.batteryPercent := by
  unfold pollStep
  split_ifs <;> rfl

@[simp] theorem retryStep_init (t : Nat) (c : Ctx) :
    (retryStep t c).st.init = c.st.init := by
  unfold retryStep
  split_ifs <;> rfl

@[simp] theorem retryStep_tAckReceived (t : Nat) (c : Ctx) :
    (retryStep t c).st.tAckReceived = c.st.tAckReceived := by
  unfold retryStep
  split_ifs <;> rfl

@[simp] theorem retryStep_currentCommand (t : Nat) (c : Ctx) :
    (retryStep t c).st.currentCommand = c.st.currentCommand := by
  unfold retryStep
  split_ifs <;> rfl

@[simp] theorem retryStep_ackReceived (t : Nat) (c : Ctx) :
    (retryStep t c).st.ackReceived = c.st.ackReceived := by
  unfold retryStep
  split_ifs <;> rfl

@[simp] theorem retryStep_tTelem (t : Nat) (c : Ctx) :
    (retryStep t c).st.tTelem = c.st.tTelem := by
  unfold retryStep
  split_ifs <;> rfl

@[simp] theorem retryStep_telemAvailable (t : Nat) (c : Ctx) :
    (retryStep t c).st.telemAvailable = c.st.telemAvailable := by
  unfold retryStep
  split_ifs <;> rfl

@[simp] theorem retryStep_hatchOpen (t : Nat) (c : Ctx) :
    (retryStep t c).st.hatchOpen = c.st.hatchOpen := by
  unfold retryStep
  split_ifs <;> rfl

@[simp] theorem retryStep_altitude (t : Nat) (c : Ctx) :
    (retryStep t c).st.altitude = c.st.altitude := by
  unfold retryStep
  split_ifs <;> rfl

@[simp] theorem retryStep_temperature (t : Nat) (c : Ctx) :
    (retryStep t c).st.temperature = c.st.temperature := by
  unfold retryStep
  split_ifs <;> rfl

@[simp] theorem retryStep_batteryPercent (t : Nat) (c : Ctx) :
    (retryStep t c).st.batteryPercent = c.st.batteryPercent := by
  unfold retryStep
  split_ifs <;> rfl

@[simp] theorem retryStep_tGetStatus (t : Nat) (c : Ctx) :
    (retryStep t c).st.tGetStatus = c.st.tGetStatus := by
  unfold retryStep
  split_ifs <;> rfl

@[simp] theorem clearStep_init (t : Nat) (c : Ctx) :
    (clearStep t c).st.init = c.st.init := by
  unfold clearStep
  split_ifs <;> rfl

@[simp] theorem clearStep_tTelem (t : Nat) (c : Ctx) :
    (clearStep t c).st.tTelem = c.st.tTelem := by
  unfold clearStep
  split_ifs <;> rfl

@[simp] theorem clearStep_telemAvailable (t : Nat) (c : Ctx) :
    (clearStep t c).st.telemAvailable = c.st.telemAvailable := by
  unfold clearStep
  split_ifs <;> rfl

@[simp] theorem clearStep_hatchOpen (t : Nat) (c : Ctx) :
    (clearStep t c).st.hatchOpen = c.st.hatchOpen := by
  unfold clearStep
  split_ifs <;> rfl

@[simp] theorem clearStep_altitude (t : Nat) (c : Ctx) :
    (clearStep t c).st.altitude = c.st.altitude := by
  unfold clearStep
  split_ifs <;> rfl

@[simp] theorem clearStep_temperature (t : Nat) (c : Ctx) :
    (clearStep t c).st.temperature = c.st.temperature := by
  unfold clearStep
  split_ifs <;> rfl

@[simp] theorem clearStep_batteryPercent (t : Nat) (c : Ctx) :
    (clearStep t c).st.batteryPercent = c.st.batteryPercent := by
  unfold clearStep
  split_ifs <;> rfl

@[simp] theorem clearStep_tGetStatus (t : Nat) (c : Ctx) :
    (clearStep t c).st.tGetStatus = c.st.tGetStatus := by
  unfold clearStep
  split_ifs <;> rfl

@[simp] theorem endStep_st (c : Ctx) : (endStep c).st = c.st := rfl

@[simp] theorem endStep_refresh (c : Ctx) : (endStep c).refresh = c.refresh := rfl

@[simp] theorem pollStep_refresh (ok : Bool) (t : Nat) (c : Ctx) :
    (pollStep ok t c).refresh = c.refresh := by
  unfold pollStep
  split_ifs <;> rfl

/-! ## Telemetry freshness -/

/-- A frame that is no Status frame for the selected launcher leaves the
telemetry time and availability alone. -/
theorem rxStep_telem_of_not_status (t : Nat) (frame : List uint8_t) (c : Ctx)
    (h : ¬ isStatusFrame c.st frame) :
    (rxStep t frame c).st.tTelem = c.st.tTelem
      ∧ (rxStep t frame c).st.telemAvailable = c.st.telemAvailable := by
  by_cases ha : ackAccepted c.st frame
  · rw [rxStep_accept t frame c ha]
    exact ⟨rfl, rfl⟩
  · rw [rxStep_reject t frame c (Or.inr (Or.inr h)) ha]
    exact ⟨rfl, rfl⟩

theorem receiveStep_telem_of_not_status (t : Nat) (rx : Option (List uint8_t)) (c : Ctx)
    (h : ¬ statusAccepted c.st rx) :
    (receiveStep t rx c).st.tTelem = c.st.tTelem
      ∧ (receiveStep t rx c).st.telemAvailable = c.st.telemAvailable := by
  cases rx with
  | none => exact ⟨rfl, rfl⟩
  | some frame =>
    exact rxStep_telem_of_not_status t frame c (fun hs => h ⟨frame, rfl, hs⟩)

theorem beforeReceive_tTelem (i : Inputs) (s : Engine) :
    (beforeReceive i s).st.tTelem = s.tTelem := by
  simp [beforeReceive]

theorem selectStep_telemAvailable_true (l r : Bool) (c : Ctx)
    (h : (selectStep l r c).st.telemAvailable = true) : c.st.telemAvailable = true := by
  unfold selectStep at h
  split at h
  · exact absurd h (by simp)
  · exact h

theorem beforeReceive_telemAvailable_true (i : Inputs) (s : Engine)
    (h : (beforeReceive i s).st.telemAvailable = true) : s.telemAvailable = true := by
  unfold beforeReceive at h
  simp only [pollStep_telemAvailable, commandStep_telemAvailable] at h
  have h2 := selectStep_telemAvailable_true _ _ _ h
  simpa using h2

theorem staleStep_telemAvailable_true (t : Nat) (c : Ctx)
    (h : (staleStep t c).st.telemAvailable = true) :
    c.st.telemAvailable = true ∧ (staleStep t c).st.tTelem = c.st.tTelem
      ∧ ¬ (c.st.tTelem > 0 ∧ t ≥ c.st.tTelem + DELAY_GET_STATUS_TIMEOUT) := by
  unfold staleStep at h ⊢
  split at h
  · exact absurd h (by simp)
  · rename_i hc
    rw [if_neg hc]
    exact ⟨h, rfl, hc⟩

theorem loopIteration_telem (i : Inputs) (s : Engine) :
    (loopIteration i s).st.telemAvailable
        = (staleStep i.tStale (receiveStep i.tRx i.rx (beforeReceive i s))).st.telemAvailable
      ∧ (loopIteration i s).st.tTelem
        = (staleStep i.tStale (receiveStep i.tRx i.rx (beforeReceive i s))).st.tTelem := by
  simp [loopIteration, afterRetry]

/-- While no Status frame is accepted, telemetry that is still available dates
from the last accepted frame. -/
theorem loopIteration_keeps_telem_time (T : Nat) (i : Inputs) (s : Engine)
    (hinv : s.telemAvailable = true → s.tTelem = T)
    (hno : ¬ statusAccepted (beforeReceive i s).st i.rx) :
    (loopIteration i s).st.telemAvailable = true → (loopIteration i s).st.tTelem = T := by
  obtain ⟨e1, e2⟩ := loopIteration_telem i s
  obtain ⟨r1, r2⟩ := receiveStep_telem_of_not_status i.tRx i.rx _ hno
  intro h
  rw [e1] at h
  rw [e2]
  obtain ⟨k1, k2, _⟩ := staleStep_telemAvailable_true _ _ h
  rw [k2, r1, beforeReceive_tTelem]
  rw [r2] at k1
  exact hinv (beforeReceive_telemAvailable_true i s k1)

/-- Once the window is over, the staleness step leaves telemetry unavailable. -/
theorem loopIteration_stale (T : Nat) (i : Inputs) (s : Engine) (hT : 0 < T)
    (hinv : s.telemAvailable = true → s.tTelem = T)
    (hno : ¬ statusAccepted (beforeReceive i s).st i.rx)
    (ht : T + DELAY_GET_STATUS_TIMEOUT ≤ i.tStale) :
    (staleStep i.tStale (receiveStep i.tRx i.rx (beforeReceive i s))).st.telemAvailable
      = false := by
  obtain ⟨r1, r2⟩ := receiveStep_telem_of_not_status i.tRx i.rx _ hno
  by_contra hc
  have h : (staleStep i.tStale
      (receiveStep i.tRx i.rx (beforeReceive i s))).st.telemAvailable = true := by
    simpa using hc
  obtain ⟨k1, _, k3⟩ := staleStep_telemAvailable_true _ _ h
  rw [r2] at k1
  have hs := hinv (beforeReceive_telemAvailable_true i s k1)
  rw [r1, beforeReceive_tTelem, hs] at k3
  exact k3 ⟨hT, ht⟩

theorem run_keeps_telem_time (T : Nat) (ins : List Inputs) :
    ∀ s : Engine, (s.telemAvailable = true → s.tTelem = T) → NoStatusAccepted s ins →
      ((run s ins).1.telemAvailable = true → (run s ins).1.tTelem = T) := by
  induction ins with
  | nil =>
    intro s h _
    exact h
  | cons i rest ih =>
    intro s h hno
    rw [run_cons]
    exact ih _ (loopIteration_keeps_telem_time T i s h hno.1) hno.2

theorem noStatusAccepted_append (a b : List Inputs) :
    ∀ s : Engine, NoStatusAccepted s (a ++ b) →
      NoStatusAccepted s a ∧ NoStatusAccepted (run s a).1 b := by
  induction a with
  | nil =>
    intro s h
    exact ⟨trivial, h⟩
  | cons i rest ih =>
    intro s h
    obtain ⟨h1, h2⟩ := h
    obtain ⟨k1, k2⟩ := ih _ h2
    exact ⟨⟨h1, k1⟩, k2⟩

theorem run_append (a b : List Inputs) :
    ∀ s : Engine, run s (a ++ b) = ((run (run s a).1 b).1, (run s a).2 ++ (run (run s a).1 b).2) := by
  induction a with
  | nil =>
    intro s
    rfl
  | cons i rest ih =>
    intro s
    rw [List.cons_append, run_cons, ih, run_cons]
    simp

/-- An iteration that accepts a Status frame at clock `i.tRx` and checks
staleness inside the window ends with telemetry available, dated `i.tRx`. -/
theorem loopIteration_status (i : Inputs) (s : Engine) (frame : List uint8_t)
    (hrx : i.rx = some frame) (hs : isStatusFrame (beforeReceive i s).st frame)
    (hw : i.tStale < i.tRx + DELAY_GET_STATUS_TIMEOUT) :
    (loopIteration i s).st.telemAvailable = true ∧ (loopIteration i s).st.tTelem = i.tRx := by
  obtain ⟨e1, e2⟩ := loopIteration_telem i s
  rw [e1, e2, hrx]
  have hr : receiveStep i.tRx (some frame) (beforeReceive i s)
      = rxStep i.tRx frame (beforeReceive i s) := rfl
  rw [hr, rxStep_status _ _ _ hs]
  unfold staleStep
  rw [if_neg]
  · exact ⟨rfl, rfl⟩
  · simp only [not_and, not_le]
    intro _
    exact hw
/-- A selection step that leaves the launcher where it was did nothing. -/
theorem selectStep_fixed (l r : Bool) (c : Ctx)
    (h : (selectStep l r c).st.currentLauncher = c.st.currentLauncher) :
    selectStep l r c = c := by
  unfold selectStep at h ⊢
  split
  · rename_i hg
    rw [if_pos hg] at h
    cases l
    · simp at h
    · simp at h
  · rfl

theorem staleStep_of_fresh (t : Nat) (c : Ctx)
    (h : t < c.st.tTelem + DELAY_GET_STATUS_TIMEOUT) : staleStep t c = c := by
  unfold staleStep
  rw [if_neg]
  intro hc
  omega

/-- Inside the window that starts at `start`, an iteration that does not move
the selection keeps telemetry available and not older than `start`. -/
theorem loopIteration_keeps_fresh (start : Nat) (i : Inputs) (s : Engine)
    (ha : s.telemAvailable = true) (hs : start ≤ s.tTelem)
    (h1 : start ≤ i.tRx) (h2 : i.tStale < start + DELAY_GET_STATUS_TIMEOUT)
    (hsel : (loopIteration i s).st.currentLauncher = s.currentLauncher) :
    (loopIteration i s).st.telemAvailable = true ∧ start ≤ (loopIteration i s).st.tTelem := by
  rw [loopIteration_currentLauncher] at hsel
  have hfix : selectStep i.btnLeft i.btnRight (initStep s) = initStep s :=
    selectStep_fixed _ _ _ (by rw [hsel, initStep_currentLauncher])
  have hb : (beforeReceive i s).st.telemAvailable = true
      ∧ (beforeReceive i s).st.tTelem = s.tTelem := by
    unfold beforeReceive
    rw [hfix]
    simp [ha]
  have hr : (receiveStep i.tRx i.rx (beforeReceive i s)).st.telemAvailable = true
      ∧ start ≤ (receiveStep i.tRx i.rx (beforeReceive i s)).st.tTelem := by
    by_cases hst : statusAccepted (beforeReceive i s).st i.rx
    · obtain ⟨frame, hrx, hf⟩ := hst
      rw [hrx]
      have hk : receiveStep i.tRx (some frame) (beforeReceive i s)
          = rxStep i.tRx frame (beforeReceive i s) := rfl
      rw [hk, rxStep_status _ _ _ hf]
      exact ⟨rfl, h1⟩
    · obtain ⟨r1, r2⟩ := receiveStep_telem_of_not_status i.tRx i.rx _ hst
      rw [r1, r2, hb.1, hb.2]
      exact ⟨rfl, hs⟩
  obtain ⟨e1, e2⟩ := loopIteration_telem i s
  rw [e1, e2, staleStep_of_fresh _ _ (by omega)]
  exact hr

theorem run_keeps_fresh (start : Nat) (ins : List Inputs) :
    ∀ s : Engine, s.telemAvailable = true → start ≤ s.tTelem → InWindow start ins →
      SelectionFixed s ins →
      AllAvailable s ins ∧ (run s ins).1.telemAvailable = true
        ∧ start ≤ (run s ins).1.tTelem := by
  induction ins with
  | nil =>
    intro s ha hs _ _
    exact ⟨trivial, ha, hs⟩
  | cons i rest ih =>
    intro s ha hs hw hsel
    obtain ⟨w1, w2⟩ := hw i (List.mem_cons_self _ _)
    obtain ⟨k1, k2⟩ := loopIteration_keeps_fresh start i s ha hs w1 w2 hsel.1
    obtain ⟨r1, r2, r3⟩ := ih _ k1 k2 (fun j hj => hw j (List.mem_cons_of_mem _ hj)) hsel.2
    rw [run_cons]
    exact ⟨⟨k1, r1⟩, r2, r3⟩

theorem allAvailable_append (a b : List Inputs) :
    ∀ s : Engine, AllAvailable s a → AllAvailable (run s a).1 b → AllAvailable s (a ++ b) := by
  induction a with
  | nil =>
    intro s _ h
    exact h
  | cons i rest ih =>
    intro s h1 h2
    exact ⟨h1.1, ih _ h1.2 h2⟩

/-- After an iteration that accepted a Status frame, telemetry that is still
available dates from that frame. -/
theorem loopIteration_status_inv (i : Inputs) (s : Engine) (frame : List uint8_t)
    (hrx : i.rx = some frame) (hs : isStatusFrame (beforeReceive i s).st frame) :
    (loopIteration i s).st.telemAvailable = true → (loopIteration i s).st.tTelem = i.tRx := by
  obtain ⟨e1, e2⟩ := loopIteration_telem i s
  rw [e1, e2, hrx]
  have hr : receiveStep i.tRx (some frame) (beforeReceive i s)
      = rxStep i.tRx frame (beforeReceive i s) := rfl
  rw [hr, rxStep_status _ _ _ hs]
  intro h
  obtain ⟨_, k2, _⟩ := staleStep_telemAvailable_true _ _ h
  rw [k2]

/-! ## Status poll -/

theorem pollFrames_append (a b : List Action) :
    pollFrames (a ++ b) = pollFrames a ++ pollFrames b := by
  simp [pollFrames, frames_append]

theorem pollFrames_sleep (d : Nat) : pollFrames [Action.sleep d] = [] := rfl

theorem pollFrames_spacingWait (dt : Nat) : pollFrames (spacingWait dt) = [] := by
  simp [pollFrames, frames_spacingWait]

theorem pollFrames_poll (stamp : Nat) (l : Int) :
    pollFrames [Action.tx stamp (sendCommand l .GET_STATUS)]
      = [(stamp, sendCommand l .GET_STATUS)] := rfl

theorem pollFrames_command (stamp : Nat) (l : Int) (cmd : Command)
    (h : cmd ≠ .GET_STATUS) :
    pollFrames [Action.tx stamp (sendCommand l cmd)] = [] := by
  cases cmd
  · rfl
  · rfl
  · exact absurd rfl h
  · rfl
  · rfl
  · rfl

theorem pollStep_pos (ok : Bool) (t : Nat) (c : Ctx) (h : pollCondition ok t c.st) :
    pollStep ok t c
      = { c with
          st := { c.st with tGetStatus := t }
          out := c.out ++ [Action.tx t (sendCommand c.st.currentLauncher .GET_STATUS)] } := by
  unfold pollStep
  rw [if_pos]
  obtain ⟨h1, h2⟩ := h
  rcases h1 with h1 | h1
  · simp [h1, h2]
  · simp [h1, h2]

theorem pollStep_neg (ok : Bool) (t : Nat) (c : Ctx) (h : ¬ pollCondition ok t c.st) :
    pollStep ok t c = c := by
  unfold pollStep
  rw [if_neg]
  intro hc
  apply h
  simp only [Bool.and_eq_true, Bool.or_eq_true, decide_eq_true_eq] at hc
  exact hc

theorem beforePoll_out (i : Inputs) (s : Engine) : pollFrames (beforePoll i s).out = [] := by
  unfold beforePoll commandStep
  split
  · simp only [selectStep_out, initStep_out, pollFrames_append, pollFrames_spacingWait,
      List.append_nil, List.nil_append]
    exact pollFrames_command _ _ _ (by cases i.btnUp <;> simp)
  · simp only [selectStep_out, initStep_out]
    rfl

theorem beforePoll_currentCommand (i : Inputs) (s : Engine)
    (h : s.currentCommand ≠ .GET_STATUS) :
    (beforePoll i s).st.currentCommand ≠ .GET_STATUS := by
  unfold beforePoll commandStep
  split
  · cases i.btnUp <;> simp
  · unfold selectStep
    split
    · simp
    · simpa using h

theorem retryStep_pollFrames (t : Nat) (c : Ctx) (h : c.st.currentCommand ≠ .GET_STATUS) :
    pollFrames (retryStep t c).out = pollFrames c.out := by
  unfold retryStep
  split
  · split
    · simp only [pollFrames_append, pollFrames_command _ _ _ h, List.append_nil]
    · rfl
  · rfl

/-- Poll frames of an iteration are those of its poll step. -/
theorem loopIteration_pollFrames (i : Inputs) (s : Engine)
    (h : s.currentCommand ≠ .GET_STATUS) :
    pollFrames (loopIteration i s).out
      = pollFrames (pollStep i.btnOk i.tPoll (beforePoll i s)).out := by
  have hc := beforePoll_currentCommand i s h
  have hb : beforeReceive i s = pollStep i.btnOk i.tPoll (beforePoll i s) := rfl
  unfold loopIteration afterRetry endStep
  simp only [pollFrames_append, pollFrames_sleep, List.append_nil, clearStep_out]
  rw [retryStep_pollFrames, hb]
  · simp only [staleStep_out, receiveStep_out]
  · simpa [hb] using hc

/-- C13: poll/command exclusion.  (1) At the poll step, for every state: when
an OK edge is set or `t ≥ tGetStatus + DELAY_GET_STATUS`, and
`currentCommand = NONE`, the step transmits one GET_STATUS frame to the
selected launcher, sets `tGetStatus` to `t` and changes nothing else; in every
other case, in particular whenever a command session is active, it transmits
nothing and changes nothing.  (2) In every iteration entered in a state whose
current command is not GET_STATUS (every reachable state), the GET_STATUS
frames transmitted are exactly that one frame when the condition holds at the
poll step, after selection and Up/Down handling, and none otherwise. -/
theorem poll_command_exclusion :
    (∀ (ok : Bool) (t : Nat) (c : Ctx),
        (pollCondition ok t c.st →
          pollStep ok t c
            = { c with
                st := { c.st with tGetStatus := t }
                out := c.out ++ [Action.tx t (sendCommand c.st.currentLauncher .GET_STATUS)] })
          ∧ (¬ pollCondition ok t c.st → pollStep ok t c = c)
          ∧ (c.st.currentCommand ≠ .NONE → pollStep ok t c = c))
      ∧ (∀ (i : Inputs) (s : Engine), s.currentCommand ≠ .GET_STATUS →
        (pollCondition i.btnOk i.tPoll (beforePoll i s).st →
          pollFrames (loopIteration i s).out
            = [(i.tPoll, sendCommand (beforePoll i s).st.currentLauncher .GET_STATUS)])
          ∧ (¬ pollCondition i.btnOk i.tPoll (beforePoll i s).st →
            pollFrames (loopIteration i s).out = [])) := by
  constructor
  · intro ok t c
    refine ⟨pollStep_pos ok t c, pollStep_neg ok t c, ?_⟩
    intro h
    exact pollStep_neg ok t c (fun hc => h hc.2)
  · intro i s h
    rw [loopIteration_pollFrames i s h]
    constructor
    · intro hc
      rw [pollStep_pos _ _ _ hc]
      simp only [pollFrames_append, beforePoll_out, List.nil_append]
      rfl
    · intro hc
      rw [pollStep_neg _ _ _ hc]
      exact beforePoll_out i s

theorem poll_command_exclusion_witness :
    pollStep true 5200 (initStep (run launcherOne [upAt 5000]).1)
        = initStep (run launcherOne [upAt 5000]).1
      ∧ pollFrames (loopIteration (okAt 5000) initialState).out
        = [(5000, sendCommand (beforePoll (okAt 5000) initialState).st.currentLauncher
            .GET_STATUS)]
      ∧ pollFrames (loopIteration (okAt 5200) (run launcherOne [upAt 5000]).1).out = [] :=
  ⟨(poll_command_exclusion.1 true 5200 (initStep (run launcherOne [upAt 5000]).1)).2.2
      (by decide),
    (poll_command_exclusion.2 (okAt 5000) initialState (by decide)).1
      (by unfold pollCondition; decide),
    (poll_command_exclusion.2 (okAt 5200) (run launcherOne [upAt 5000]).1 (by decide)).2
      (by unfold pollCondition; decide)⟩

/-! ## Well-formed sessions -/

theorem initialState_wellFormed : initialState.wellFormed := by
  unfold Engine.wellFormed
  decide

theorem wellFormed_of_fields {s s' : Engine}
    (h1 : s'.currentCommand = s.currentCommand) (h2 : s'.ackReceived = s.ackReceived)
    (h3 : s'.commandFailed = s.commandFailed) (h4 : s'.currentRepeat = s.currentRepeat)
    (h : s.wellFormed) : s'.wellFormed := by
  unfold Engine.wellFormed at h ⊢
  rw [h1, h2, h3, h4]
  exact h

theorem initStep_wellFormed (s : Engine) (h : s.wellFormed) : (initStep s).st.wellFormed :=
  wellFormed_of_fields (by simp) (by simp) (by simp) (by simp) h

theorem selectStep_wellFormed (l r : Bool) (c : Ctx) (h : c.st.wellFormed) :
    (selectStep l r c).st.wellFormed := by
  unfold selectStep
  split
  · unfold Engine.wellFormed N_REPEAT_COMMANDS
    simp
  · exact h

theorem commandStep_wellFormed (btnUp btnDown : Bool) (t tSent : Nat) (c : Ctx)
    (h : c.st.wellFormed) : (commandStep btnUp btnDown t tSent c).st.wellFormed := by
  unfold commandStep
  split
  · unfold Engine.wellFormed N_REPEAT_COMMANDS
    cases btnUp <;> simp
  · exact h

theorem pollStep_wellFormed (ok : Bool) (t : Nat) (c : Ctx) (h : c.st.wellFormed) :
    (pollStep ok t c).st.wellFormed :=
  wellFormed_of_fields (by simp) (by simp) (by simp) (by simp) h

theorem rxStep_wellFormed (t : Nat) (frame : List uint8_t) (c : Ctx) (h : c.st.wellFormed) :
    (rxStep t frame c).st.wellFormed := by
  by_cases ha : ackAccepted c.st frame
  · rw [rxStep_accept t frame c ha]
    obtain ⟨h1, _, _, h4, h5⟩ := h
    refine ⟨h1, ?_, ?_, h4, h5⟩
    · intro hk
      have hf := ha.2.2.2.2.2.2.2.2
      simp only at hk
      rw [hf] at hk
      exact absurd hk.2 (by decide)
    · intro _
      exact ha.2.2.2.2.2.2.1
  · have hk := rxStep_session_of_not_accepted t frame c ha
    exact wellFormed_of_fields (congrArg CommandSession.command hk)
      (congrArg CommandSession.ackReceived hk) (congrArg CommandSession.failed hk)
      (congrArg CommandSession.repeatCount hk) h

theorem receiveStep_wellFormed (t : Nat) (rx : Option (List uint8_t)) (c : Ctx)
    (h : c.st.wellFormed) : (receiveStep t rx c).st.wellFormed := by
  cases rx with
  | none => exact h
  | some frame => exact rxStep_wellFormed t frame c h

theorem staleStep_wellFormed (t : Nat) (c : Ctx) (h : c.st.wellFormed) :
    (staleStep t c).st.wellFormed :=
  wellFormed_of_fields (by simp) (by simp) (by simp) (by simp) h

theorem retryStep_wellFormed (t : Nat) (c : Ctx) (h : c.st.wellFormed) :
    (retryStep t c).st.wellFormed := by
  obtain ⟨h1, h2, h3, h4, h5⟩ := h
  unfold retryStep
  split
  · rename_i hc
    split
    · rename_i hr
      refine ⟨h1, h2, h3, ?_, ?_⟩
      · show 0 ≤ c.st.currentRepeat + 1
        omega
      · show c.st.currentRepeat + 1 ≤ N_REPEAT_COMMANDS - 1
        omega
    · refine ⟨h1, ?_, ?_, h4, h5⟩
      · intro hk
        have ha := hc.2.1
        simp only at hk
        rw [ha] at hk
        exact absurd hk.1 (by decide)
      · intro _
        exact hc.1
  · exact ⟨h1, h2, h3, h4, h5⟩

theorem clearStep_wellFormed (t : Nat) (c : Ctx) (h : c.st.wellFormed) :
    (clearStep t c).st.wellFormed := by
  unfold clearStep
  split
  · unfold Engine.wellFormed N_REPEAT_COMMANDS
    simp
  · exact h

/-- Every iteration keeps the session well-formed, whatever it reads. -/
theorem loopIteration_wellFormed (i : Inputs) (s : Engine) (h : s.wellFormed) :
    (loopIteration i s).st.wellFormed := by
  unfold loopIteration afterRetry beforeReceive
  rw [endStep_st]
  exact clearStep_wellFormed _ _ (retryStep_wellFormed _ _ (staleStep_wellFormed _ _
    (receiveStep_wellFormed _ _ _ (pollStep_wellFormed _ _ _ (commandStep_wellFormed _ _ _ _ _
      (selectStep_wellFormed _ _ _ (initStep_wellFormed s h)))))))

theorem run_wellFormed (ins : List Inputs) :
    ∀ s : Engine, s.wellFormed → (run s ins).1.wellFormed := by
  induction ins with
  | nil =>
    intro s h
    exact h
  | cons i rest ih =>
    intro s h
    rw [run_cons]
    exact ih _ (loopIteration_wellFormed i s h)

/-- C19: session well-formedness.  In every state reachable from the initial
state, under arbitrary button edges, clock readings and received frames, at
the end of each iteration: `currentCommand` is NONE, OPEN or CLOSE;
`ackReceived` and `commandFailed` are not both true; if one of them is true
then `currentCommand` is not NONE; and `currentRepeat` lies between 0 and
`N_REPEAT_COMMANDS - 1`. -/
theorem session_well_formed (ins : List Inputs) :
    ((run initialState ins).1.currentCommand = Command.NONE
        ∨ (run initialState ins).1.currentCommand = Command.OPEN
        ∨ (run initialState ins).1.currentCommand = Command.CLOSE)
      ∧ ¬ ((run initialState ins).1.ackReceived = true
          ∧ (run initialState ins).1.commandFailed = true)
      ∧ (((run initialState ins).1.ackReceived = true
          ∨ (run initialState ins).1.commandFailed = true) →
        (run initialState ins).1.currentCommand ≠ Command.NONE)
      ∧ 0 ≤ (run initialState ins).1.currentRepeat
      ∧ (run initialState ins).1.currentRepeat ≤ N_REPEAT_COMMANDS - 1 :=
  run_wellFormed ins initialState initialState_wellFormed

/-! ## Outbound wire format -/

theorem frames_tx (stamp : Nat) (frame : List uint8_t) :
    frames [Action.tx stamp frame] = [(stamp, frame)] := rfl

theorem ctxFramesOk_of_out {c c' : Ctx} (ho : c'.out = c.out)
    (hl : c'.st.currentLauncher = c.st.currentLauncher) (h : CtxFramesOk c) :
    CtxFramesOk c' := by
  unfold CtxFramesOk at h ⊢
  rw [ho, hl]
  exact h

theorem ctxFramesOk_snoc (c c' : Ctx) (stamp : Nat) (frame : List uint8_t)
    (ho : frames c'.out = frames c.out ++ [(stamp, frame)])
    (hl : c'.st.currentLauncher = c.st.currentLauncher)
    (hf : FrameOk c.st.currentLauncher frame) (h : CtxFramesOk c) : CtxFramesOk c' := by
  unfold CtxFramesOk at h ⊢
  rw [ho, hl]
  intro f hmem
  rcases List.mem_append.mp hmem with hm | hm
  · exact h f hm
  · rw [List.mem_singleton.mp hm]
    exact hf

theorem beforePoll_framesOk (i : Inputs) (s : Engine) : CtxFramesOk (beforePoll i s) := by
  unfold beforePoll commandStep
  split
  · unfold CtxFramesOk
    simp only [selectStep_out, initStep_out, frames_append, frames_spacingWait,
      List.append_nil, List.nil_append, frames_tx]
    intro f hmem
    rw [List.mem_singleton.mp hmem]
    cases i.btnUp
    · exact Or.inr (Or.inr rfl)
    · exact Or.inr (Or.inl rfl)
  · unfold CtxFramesOk
    simp only [selectStep_out, initStep_out]
    intro f hmem
    exact absurd hmem (List.not_mem_nil f)

theorem pollStep_framesOk (ok : Bool) (t : Nat) (c : Ctx) (h : CtxFramesOk c) :
    CtxFramesOk (pollStep ok t c) := by
  by_cases hc : pollCondition ok t c.st
  · refine ctxFramesOk_snoc c _ t (sendCommand c.st.currentLauncher .GET_STATUS) ?_
      (pollStep_currentLauncher ok t c) (Or.inl rfl) h
    rw [pollStep_pos ok t c hc, frames_append, frames_tx]
  · rw [pollStep_neg ok t c hc]
    exact h

theorem retryStep_framesOk (t : Nat) (c : Ctx) (hw : c.st.wellFormed) (h : CtxFramesOk c) :
    CtxFramesOk (retryStep t c) := by
  unfold retryStep
  split
  · rename_i hc
    split
    · refine ctxFramesOk_snoc c _ t (sendCommand c.st.currentLauncher c.st.currentCommand) ?_
        rfl ?_ h
      · rw [frames_append, frames_tx]
      · rcases hw.1 with hk | hk | hk
        · exact absurd hk hc.1
        · rw [hk]
          exact Or.inr (Or.inl rfl)
        · rw [hk]
          exact Or.inr (Or.inr rfl)
    · exact ctxFramesOk_of_out rfl rfl h
  · exact h

/-- Frames of one iteration from a well-formed state. -/
theorem loopIteration_framesOk (i : Inputs) (s : Engine) (hw : s.wellFormed) :
    CtxFramesOk (loopIteration i s) := by
  have h1 : CtxFramesOk (beforeReceive i s) := pollStep_framesOk _ _ _ (beforePoll_framesOk i s)
  have w1 : (beforeReceive i s).st.wellFormed := by
    unfold beforeReceive
    exact pollStep_wellFormed _ _ _ (commandStep_wellFormed _ _ _ _ _
      (selectStep_wellFormed _ _ _ (initStep_wellFormed s hw)))
  have h2 : CtxFramesOk (receiveStep i.tRx i.rx (beforeReceive i s)) :=
    ctxFramesOk_of_out (receiveStep_out _ _ _) (receiveStep_currentLauncher _ _ _) h1
  have w2 := receiveStep_wellFormed i.tRx i.rx _ w1
  have h3 : CtxFramesOk (staleStep i.tStale (receiveStep i.tRx i.rx (beforeReceive i s))) :=
    ctxFramesOk_of_out (staleStep_out _ _) (staleStep_currentLauncher _ _) h2
  have w3 := staleStep_wellFormed i.tStale _ w2
  have h4 := retryStep_framesOk i.tRetry _ w3 h3
  have h5 : CtxFramesOk (clearStep i.tClear (afterRetry i s)) :=
    ctxFramesOk_of_out (clearStep_out _ _) (clearStep_currentLauncher _ _) h4
  unfold loopIteration
  unfold CtxFramesOk at h5 ⊢
  simp only [endStep, frames_append]
  intro f hmem
  have hs : frames [Action.sleep 10] = [] := rfl
  rw [hs, List.append_nil] at hmem
  exact h5 f hmem

theorem run_framesOk (ins : List Inputs) :
    ∀ s : Engine, s.wellFormed → AllFramesOk s ins := by
  induction ins with
  | nil =>
    intro s _
    trivial
  | cons i rest ih =>
    intro s h
    exact ⟨loopIteration_framesOk i s h, ih _ (loopIteration_wellFormed i s h)⟩

theorem frameOk_bytes {l : Int} {frame : List uint8_t} (h : FrameOk l frame) :
    frame.length = 4 ∧ frame.getD 0 0 = 67 ∧ frame.getD 1 0 = 83
      ∧ frame.getD 2 0 = toByte l
      ∧ ((frame.getD 3 0).val = 2 ∨ (frame.getD 3 0).val = 4 ∨ (frame.getD 3 0).val = 5) := by
  rcases h with h | h | h
  · rw [h]
    exact ⟨rfl, rfl, rfl, rfl, Or.inl rfl⟩
  · rw [h]
    exact ⟨rfl, rfl, rfl, rfl, Or.inr (Or.inl rfl)⟩
  · rw [h]
    exact ⟨rfl, rfl, rfl, rfl, Or.inr (Or.inr rfl)⟩

theorem run_frames_bytes (ins : List Inputs) :
    ∀ s : Engine, AllFramesOk s ins →
      ∀ f ∈ frames (run s ins).2,
        f.2.length = 4 ∧ f.2.getD 0 0 = 67 ∧ f.2.getD 1 0 = 83
          ∧ ((f.2.getD 3 0).val = 2 ∨ (f.2.getD 3 0).val = 4 ∨ (f.2.getD 3 0).val = 5) := by
  induction ins with
  | nil =>
    intro s _ f hmem
    exact absurd hmem (List.not_mem_nil f)
  | cons i rest ih =>
    intro s h f hmem
    rw [run_cons, frames_append] at hmem
    rcases List.mem_append.mp hmem with hm | hm
    · obtain ⟨b1, b2, b3, _, b5⟩ := frameOk_bytes (h.1 f hm)
      exact ⟨b1, b2, b3, b5⟩
    · exact ih _ h.2 f hm

theorem toByte_val (l : Int) (h0 : 0 ≤ l) (h1 : l < 256) : ((toByte l).val : Int) = l := by
  unfold toByte
  simp only
  omega

/-- C14: outbound wire format.  (1) `sendCommand` builds exactly the four bytes
`'C'`, `'S'`, the selection narrowed to a byte (the selection itself when it
lies in 0..255) and the numeric value of the command.  (2) In every run from
the initial state, under arbitrary inputs, every frame transmitted in an
iteration is what `sendCommand` builds for the launcher selected in that
iteration and GET_STATUS, OPEN or CLOSE.  (3) Hence every transmitted frame has
four bytes, starts with 67, 83, and carries the code 2, 4 or 5, never the
sentinel NONE (0) nor ACK (1) or STATUS (3). -/
theorem outbound_wire_format :
    (∀ (l : Int) (cmd : Command),
        sendCommand l cmd = [67, 83, toByte l, toByte cmd.code]
          ∧ (0 ≤ l → l < 256 → ((toByte l).val : Int) = l)
          ∧ ((toByte cmd.code).val : Int) = cmd.code)
      ∧ (∀ ins : List Inputs, AllFramesOk initialState ins)
      ∧ (∀ ins : List Inputs, ∀ f ∈ frames (run initialState ins).2,
        f.2.length = 4 ∧ f.2.getD 0 0 = 67 ∧ f.2.getD 1 0 = 83
          ∧ ((f.2.getD 3 0).val = 2 ∨ (f.2.getD 3 0).val = 4 ∨ (f.2.getD 3 0).val = 5)) := by
  refine ⟨?_, ?_, ?_⟩
  · intro l cmd
    refine ⟨rfl, toByte_val l, ?_⟩
    cases cmd <;> rfl
  · intro ins
    exact run_framesOk ins initialState initialState_wellFormed
  · intro ins
    exact run_frames_bytes ins initialState (run_framesOk ins initialState initialState_wellFormed)

theorem outbound_wire_format_witness :
    AllFramesOk initialState [upAt 5000, quietAt 6000]
      ∧ ((5000, [67, 83, 0, 4]) : Nat × List uint8_t).2.length = 4 :=
  ⟨outbound_wire_format.2.1 [upAt 5000, quietAt 6000],
    (outbound_wire_format.2.2 [upAt 5000, quietAt 6000] (5000, [67, 83, 0, 4])
      (by decide)).1⟩

theorem session_well_formed_witness :
    ((run initialState [upAt 5000, quietAt 6000]).1.currentCommand = Command.NONE
        ∨ (run initialState [upAt 5000, quietAt 6000]).1.currentCommand = Command.OPEN
        ∨ (run initialState [upAt 5000, quietAt 6000]).1.currentCommand = Command.CLOSE)
      ∧ ¬ ((run initialState [upAt 5000, quietAt 6000]).1.ackReceived = true
          ∧ (run initialState [upAt 5000, quietAt 6000]).1.commandFailed = true)
      ∧ (((run initialState [upAt 5000, quietAt 6000]).1.ackReceived = true
          ∨ (run initialState [upAt 5000, quietAt 6000]).1.commandFailed = true) →
        (run initialState [upAt 5000, quietAt 6000]).1.currentCommand ≠ Command.NONE)
      ∧ 0 ≤ (run initialState [upAt 5000, quietAt 6000]).1.currentRepeat
      ∧ (run initialState [upAt 5000, quietAt 6000]).1.currentRepeat ≤ N_REPEAT_COMMANDS - 1 :=
  session_well_formed [upAt 5000, quietAt 6000]

/-! ## Identical retransmission -/

theorem instanceInv_of_out {l : Int} {cmd : Command} {c c' : Ctx} (ho : c'.out = c.out)
    (hl : c'.st.currentLauncher = c.st.currentLauncher)
    (hc : c'.st.currentCommand = c.st.currentCommand) (h : InstanceInv l cmd c) :
    InstanceInv l cmd c' := by
  unfold InstanceInv at h ⊢
  rw [ho, hl, hc]
  exact h

theorem selectStep_instance (l : Int) (cmd : Command) (a b : Bool) (c : Ctx)
    (h : InstanceInv l cmd c) : InstanceInv l cmd (selectStep a b c) := by
  unfold selectStep
  split
  · exact ⟨Or.inl rfl, h.2⟩
  · exact h

theorem pollStep_instance (l : Int) (cmd : Command) (ok : Bool) (t : Nat) (c : Ctx)
    (h : InstanceInv l cmd c) : InstanceInv l cmd (pollStep ok t c) := by
  by_cases hc : pollCondition ok t c.st
  · rw [pollStep_pos ok t c hc]
    refine ⟨h.1, ?_⟩
    intro f hmem hne
    simp only [frames_append, frames_tx] at hmem
    rcases List.mem_append.mp hmem with hm | hm
    · exact h.2 f hm hne
    · rw [List.mem_singleton.mp hm] at hne
      exact absurd rfl hne
  · rw [pollStep_neg ok t c hc]
    exact h

theorem retryStep_instance (l : Int) (cmd : Command) (t : Nat) (c : Ctx)
    (h : InstanceInv l cmd c) : InstanceInv l cmd (retryStep t c) := by
  unfold retryStep
  split
  · rename_i hc
    split
    · refine ⟨h.1, ?_⟩
      intro f hmem _
      simp only [frames_append, frames_tx] at hmem
      rcases List.mem_append.mp hmem with hm | hm
      · rename_i hne
        exact h.2 f hm hne
      · rw [List.mem_singleton.mp hm]
        rcases h.1 with hk | hk
        · exact absurd hk hc.1
        · simp only [hk.1, hk.2]
    · exact instanceInv_of_out rfl rfl rfl h
  · exact h

theorem clearStep_instance (l : Int) (cmd : Command) (t : Nat) (c : Ctx)
    (h : InstanceInv l cmd c) : InstanceInv l cmd (clearStep t c) := by
  unfold clearStep
  split
  · exact ⟨Or.inl rfl, h.2⟩
  · exact h

theorem endStep_instance (l : Int) (cmd : Command) (c : Ctx)
    (h : InstanceInv l cmd c) : InstanceInv l cmd (endStep c) := by
  refine ⟨h.1, ?_⟩
  intro f hmem hne
  have hs : frames (endStep c).out = frames c.out := by
    simp only [endStep, frames_append]
    have h0 : frames [Action.sleep 10] = [] := rfl
    rw [h0, List.append_nil]
  rw [hs] at hmem
  exact h.2 f hmem hne

/-- From the poll step to the end of the iteration the instance invariant is
kept. -/
theorem tail_instance (l : Int) (cmd : Command) (i : Inputs) (c : Ctx)
    (h : InstanceInv l cmd c) :
    InstanceInv l cmd (endStep (clearStep i.tClear (retryStep i.tRetry (staleStep i.tStale
      (receiveStep i.tRx i.rx (pollStep i.btnOk i.tPoll c)))))) := by
  have h1 := pollStep_instance l cmd i.btnOk i.tPoll c h
  have h2 : InstanceInv l cmd (receiveStep i.tRx i.rx (pollStep i.btnOk i.tPoll c)) :=
    instanceInv_of_out (receiveStep_out _ _ _) (receiveStep_currentLauncher _ _ _)
      (receiveStep_currentCommand _ _ _) h1
  have h3 : InstanceInv l cmd
      (staleStep i.tStale (receiveStep i.tRx i.rx (pollStep i.btnOk i.tPoll c))) :=
    instanceInv_of_out (staleStep_out _ _) (staleStep_currentLauncher _ _)
      (staleStep_currentCommand _ _) h2
  exact endStep_instance l cmd _ (clearStep_instance l cmd _ _
    (retryStep_instance l cmd _ _ h3))

/-- The iteration that issues the command establishes the invariant. -/
theorem issue_instance (i : Inputs) (s : Engine) (h : (i.btnUp || i.btnDown) = true) :
    InstanceInv (beforePoll i s).st.currentLauncher
      (if i.btnUp then Command.OPEN else Command.CLOSE) (loopIteration i s) := by
  have hb : InstanceInv (beforePoll i s).st.currentLauncher
      (if i.btnUp then Command.OPEN else Command.CLOSE) (beforePoll i s) := by
    refine ⟨Or.inr ⟨rfl, ?_⟩, ?_⟩
    · unfold beforePoll commandStep
      rw [if_pos h]
    · intro f hmem _
      have hl : (beforePoll i s).st.currentLauncher
          = (selectStep i.btnLeft i.btnRight (initStep s)).st.currentLauncher := by
        unfold beforePoll
        exact commandStep_currentLauncher _ _ _ _ _
      rw [hl]
      unfold beforePoll commandStep at hmem
      rw [if_pos h] at hmem
      simp only [selectStep_out, initStep_out, frames_append, frames_spacingWait,
        List.append_nil, List.nil_append, frames_tx] at hmem
      rw [List.mem_singleton.mp hmem]
  exact tail_instance _ _ i _ hb

/-- An iteration without Up or Down edge keeps the invariant of the state. -/
theorem loopIteration_instance (l : Int) (cmd : Command) (i : Inputs) (s : Engine)
    (hu : i.btnUp = false) (hd : i.btnDown = false)
    (h : s.currentCommand = .NONE ∨ (s.currentLauncher = l ∧ s.currentCommand = cmd)) :
    InstanceInv l cmd (loopIteration i s) := by
  have h0 : InstanceInv l cmd (initStep s) := by
    refine ⟨by simpa using h, ?_⟩
    intro f hmem
    rw [initStep_out] at hmem
    exact absurd hmem (List.not_mem_nil f)
  have h1 := selectStep_instance l cmd i.btnLeft i.btnRight _ h0
  have hc : commandStep i.btnUp i.btnDown i.tCmd i.tSent
      (selectStep i.btnLeft i.btnRight (initStep s))
      = selectStep i.btnLeft i.btnRight (initStep s) := by
    simp [commandStep, hu, hd]
  have h2 := tail_instance l cmd i _ h1
  unfold loopIteration afterRetry beforeReceive
  rw [hc]
  exact h2

theorem run_instance (l : Int) (cmd : Command) (ins : List Inputs) :
    ∀ s : Engine,
      (s.currentCommand = .NONE ∨ (s.currentLauncher = l ∧ s.currentCommand = cmd)) →
      NoCommandEdge ins →
      ∀ f ∈ frames (run s ins).2,
        (f.2.getD 3 0).val ≠ Command.GET_STATUS.code → f.2 = sendCommand l cmd := by
  induction ins with
  | nil =>
    intro s _ _ f hmem
    exact absurd hmem (List.not_mem_nil f)
  | cons i rest ih =>
    intro s h hno f hmem hne
    have hi := hno i (List.mem_cons_self _ _)
    obtain ⟨k1, k2⟩ := loopIteration_instance l cmd i s hi.1 hi.2 h
    rw [run_cons, frames_append] at hmem
    rcases List.mem_append.mp hmem with hm | hm
    · exact k2 f hm hne
    · exact ih _ k1 (fun j hj => hno j (List.mem_cons_of_mem _ hj)) f hm hne

/-- What the timeout check does when it repeats the command. -/
theorem retryStep_resend (t : Nat) (c : Ctx) (hp : c.st.pending) (hpos : c.st.tCommandSent > 0)
    (ht : t ≥ c.st.tCommandSent + DELAY_COMMAND_TIMEOUT)
    (hr : c.st.currentRepeat < N_REPEAT_COMMANDS - 1) :
    retryStep t c
      = { st := { c.st with
            tCommandSent := t
            currentRepeat := c.st.currentRepeat + 1 }
          refresh := true
          out := c.out
            ++ [Action.tx t (sendCommand c.st.currentLauncher c.st.currentCommand)] } := by
  unfold retryStep
  rw [if_pos ⟨hp.1, hp.2.1, hp.2.2, hpos, ht⟩, if_pos hr]

/-- C15: identical retransmission.  (1) In every run that starts with an
iteration handling an Up or Down edge and continues with iterations without
Up/Down edge, every transmitted frame that is not a GET_STATUS poll (the first
send and every repeat) is byte for byte the frame `sendCommand` builds for the
launcher selected when the command was issued and for the issued command.
(2) Each repeat, i.e. the timeout check on a pending command sent at a positive
time whose timeout elapsed and that has repeats left, transmits that frame for
the current launcher and command, sets `tCommandSent` to the current time and
raises `currentRepeat` by exactly 1, leaving every other variable alone. -/
theorem retransmission_identical :
    (∀ (s : Engine) (i : Inputs) (rest : List Inputs),
        (i.btnUp || i.btnDown) = true → NoCommandEdge rest →
        ∀ f ∈ frames (run s (i :: rest)).2,
          (f.2.getD 3 0).val ≠ Command.GET_STATUS.code →
          f.2 = sendCommand (beforePoll i s).st.currentLauncher
            (if i.btnUp then Command.OPEN else Command.CLOSE))
      ∧ (∀ (t : Nat) (c : Ctx), c.st.pending → c.st.tCommandSent > 0 →
        t ≥ c.st.tCommandSent + DELAY_COMMAND_TIMEOUT →
        c.st.currentRepeat < N_REPEAT_COMMANDS - 1 →
        retryStep t c
          = { st := { c.st with
                tCommandSent := t
                currentRepeat := c.st.currentRepeat + 1 }
              refresh := true
              out := c.out
                ++ [Action.tx t (sendCommand c.st.currentLauncher c.st.currentCommand)] }) := by
  constructor
  · intro s i rest he hno f hmem hne
    obtain ⟨k1, k2⟩ := issue_instance i s he
    rw [run_cons, frames_append] at hmem
    rcases List.mem_append.mp hmem with hm | hm
    · exact k2 f hm hne
    · exact run_instance _ _ rest _ k1 hno f hm hne
  · intro t c hp hpos ht hr
    exact retryStep_resend t c hp hpos ht hr

theorem retransmission_identical_witness :
    ((6000, [67, 83, 0, 4]) : Nat × List uint8_t).2
        = sendCommand (beforePoll (upAt 5000) initialState).st.currentLauncher
          (if (upAt 5000).btnUp then Command.OPEN else Command.CLOSE)
      ∧ (retryStep 6000 (initStep (run initialState [upAt 5000]).1)).st.currentRepeat = 1 :=
  ⟨retransmission_identical.1 initialState (upAt 5000) [quietAt 6000] (by decide)
      (by unfold NoCommandEdge; decide) (6000, [67, 83, 0, 4]) (by decide) (by decide),
    congrArg (fun c => c.st.currentRepeat)
      (retransmission_identical.2 6000 (initStep (run initialState [upAt 5000]).1)
        (by unfold Engine.pending; decide) (by decide) (by decide) (by decide))⟩

/-! ## Ack and timeout in the same iteration -/

theorem retryStep_of_acked (t : Nat) (c : Ctx) (h : c.st.ackReceived = true) :
    retryStep t c = c := by
  unfold retryStep
  rw [if_neg]
  intro hc
  rw [h] at hc
  exact absurd hc.2.1 (by decide)

theorem clearStep_of_hold (t : Nat) (c : Ctx) (hf : c.st.commandFailed = false)
    (ht : t ≤ c.st.tAckReceived + DELAY_ORDER_DISPLAYED) : clearStep t c = c := by
  unfold clearStep
  rw [if_neg]
  intro hc
  rcases hc.2 with h | h
  · omega
  · rw [hf] at h
    exact absurd h.1 (by decide)

/-- An iteration whose receive step accepts an Ack, and whose last clock
reading is within the display hold of it, is that acceptance followed by the
staleness check only. -/
theorem loopIteration_of_accept (i : Inputs) (s : Engine) (frame : List uint8_t)
    (hrx : i.rx = some frame) (ha : ackAccepted (beforeReceive i s).st frame)
    (ht : i.tClear ≤ i.tRx + DELAY_ORDER_DISPLAYED) :
    loopIteration i s
      = endStep (staleStep i.tStale (rxStep i.tRx frame (beforeReceive i s))) := by
  unfold loopIteration afterRetry
  rw [hrx]
  have hr : receiveStep i.tRx (some frame) (beforeReceive i s)
      = rxStep i.tRx frame (beforeReceive i s) := rfl
  rw [hr]
  have hack : (staleStep i.tStale (rxStep i.tRx frame (beforeReceive i s))).st.ackReceived
      = true := by
    rw [staleStep_ackReceived, rxStep_accept _ _ _ ha]
  have hfail : (staleStep i.tStale (rxStep i.tRx frame (beforeReceive i s))).st.commandFailed
      = false := by
    rw [staleStep_commandFailed, rxStep_commandFailed]
    exact ha.2.2.2.2.2.2.2.2
  have htack : (staleStep i.tStale (rxStep i.tRx frame (beforeReceive i s))).st.tAckReceived
      = i.tRx := by
    rw [staleStep_tAckReceived, rxStep_accept _ _ _ ha]
  rw [retryStep_of_acked _ _ hack, clearStep_of_hold _ _ hfail (by rw [htack]; exact ht)]

theorem frames_endStep (c : Ctx) : frames (endStep c).out = frames c.out := by
  simp only [endStep, frames_append]
  have h0 : frames [Action.sleep 10] = [] := rfl
  rw [h0, List.append_nil]

theorem ackAccepted_initStep (s : Engine) (frame : List uint8_t) (h : ackAccepted s frame) :
    ackAccepted (initStep s).st frame := by
  unfold ackAccepted at h ⊢
  simpa using h

/-- C16: Ack wins over timeout.  (1) In every iteration whose receive step
accepts a matching Ack for the pending command, whether or not the timeout of
that command has elapsed, and whose clock stays within the display hold of the
receive time, the iteration ends with `ackReceived = true` and
`commandFailed = false`, leaves `currentRepeat` and `tCommandSent` as the
receive step found them and transmits nothing after the receive step.
(2) When the iteration has no button edge, this is relative to the state at its
start: no frame at all is transmitted and `currentRepeat` is unchanged.
(3) Without the frame, the same timeout check on the same pending command
(sent at a positive time, timeout elapsed) either repeats the command or marks
it failed. -/
theorem ack_wins_over_timeout :
    (∀ (i : Inputs) (s : Engine) (frame : List uint8_t),
        i.rx = some frame → ackAccepted (beforeReceive i s).st frame →
        i.tClear ≤ i.tRx + DELAY_ORDER_DISPLAYED →
        (loopIteration i s).st.ackReceived = true
          ∧ (loopIteration i s).st.commandFailed = false
          ∧ (loopIteration i s).st.currentRepeat = (beforeReceive i s).st.currentRepeat
          ∧ (loopIteration i s).st.tCommandSent = (beforeReceive i s).st.tCommandSent
          ∧ frames (loopIteration i s).out = frames (beforeReceive i s).out)
      ∧ (∀ (i : Inputs) (s : Engine) (frame : List uint8_t),
        i.noEdge → i.rx = some frame → ackAccepted s frame →
        s.tCommandSent + DELAY_COMMAND_TIMEOUT ≤ i.tRetry →
        i.tClear ≤ i.tRx + DELAY_ORDER_DISPLAYED →
        (loopIteration i s).st.ackReceived = true
          ∧ (loopIteration i s).st.commandFailed = false
          ∧ (loopIteration i s).st.currentRepeat = s.currentRepeat
          ∧ frames (loopIteration i s).out = [])
      ∧ (∀ (t : Nat) (c : Ctx), c.st.pending → c.st.tCommandSent > 0 →
        c.st.tCommandSent + DELAY_COMMAND_TIMEOUT ≤ t →
        (retryStep t c).st.commandFailed = true
          ∨ frames (retryStep t c).out
            = frames c.out ++ [(t, sendCommand c.st.currentLauncher c.st.currentCommand)]) := by
  have part1 : ∀ (i : Inputs) (s : Engine) (frame : List uint8_t),
      i.rx = some frame → ackAccepted (beforeReceive i s).st frame →
      i.tClear ≤ i.tRx + DELAY_ORDER_DISPLAYED →
      (loopIteration i s).st.ackReceived = true
        ∧ (loopIteration i s).st.commandFailed = false
        ∧ (loopIteration i s).st.currentRepeat = (beforeReceive i s).st.currentRepeat
        ∧ (loopIteration i s).st.tCommandSent = (beforeReceive i s).st.tCommandSent
        ∧ frames (loopIteration i s).out = frames (beforeReceive i s).out := by
    intro i s frame hrx ha ht
    rw [loopIteration_of_accept i s frame hrx ha ht]
    refine ⟨?_, ?_, ?_, ?_, ?_⟩
    · rw [endStep_st, staleStep_ackReceived, rxStep_accept _ _ _ ha]
    · rw [endStep_st, staleStep_commandFailed, rxStep_commandFailed]
      exact ha.2.2.2.2.2.2.2.2
    · rw [endStep_st, staleStep_currentRepeat, rxStep_currentRepeat]
    · rw [endStep_st, staleStep_tCommandSent, rxStep_tCommandSent]
    · rw [frames_endStep, staleStep_out, rxStep_out]
  refine ⟨part1, ?_, ?_⟩
  · intro i s frame he hrx ha _ ht
    have hb := beforeReceive_quiet i s he ha.2.2.2.2.2.2.1
    have ha2 : ackAccepted (beforeReceive i s).st frame := by
      rw [hb]
      exact ackAccepted_initStep s frame ha
    obtain ⟨k1, k2, k3, _, k5⟩ := part1 i s frame hrx ha2 ht
    rw [hb] at k3 k5
    refine ⟨k1, k2, ?_, ?_⟩
    · rw [k3, initStep_currentRepeat]
    · rw [k5, initStep_out]
      rfl
  · intro t c hp hpos ht
    by_cases hr : c.st.currentRepeat < N_REPEAT_COMMANDS - 1
    · right
      rw [retryStep_resend t c hp hpos ht hr]
      simp only [frames_append, frames_tx]
    · left
      unfold retryStep
      rw [if_pos ⟨hp.1, hp.2.1, hp.2.2, hpos, ht⟩, if_neg hr]

theorem ack_wins_over_timeout_witness :
    (loopIteration (rxAt 6000 [99, 115, 1, 1, 4]) (run launcherOne [upAt 5000]).1).st.ackReceived
        = true
      ∧ (loopIteration (rxAt 6000 [99, 115, 1, 1, 4])
          (run launcherOne [upAt 5000]).1).st.commandFailed = false
      ∧ (loopIteration (rxAt 6000 [99, 115, 1, 1, 4])
          (run launcherOne [upAt 5000]).1).st.currentRepeat
        = (run launcherOne [upAt 5000]).1.currentRepeat
      ∧ frames (loopIteration (rxAt 6000 [99, 115, 1, 1, 4])
          (run launcherOne [upAt 5000]).1).out = [] :=
  ack_wins_over_timeout.2.1 (rxAt 6000 [99, 115, 1, 1, 4]) (run launcherOne [upAt 5000]).1
    [99, 115, 1, 1, 4] (by unfold Inputs.noEdge; decide) rfl (by unfold ackAccepted; decide)
    (by decide) (by decide)

/-! ## Display hold after an Ack -/

theorem session_initStep (s : Engine) : (initStep s).st.session = s.session := by
  simp [Engine.session]

theorem session_staleStep (t : Nat) (c : Ctx) : (staleStep t c).st.session = c.st.session := by
  simp [Engine.session]

theorem receiveStep_session_of_acked (t : Nat) (rx : Option (List uint8_t)) (c : Ctx)
    (h : c.st.ackReceived = true) : (receiveStep t rx c).st.session = c.st.session := by
  cases rx with
  | none => rfl
  | some frame =>
    apply rxStep_session_of_not_accepted
    intro ha
    have hk := ha.2.2.2.2.2.2.2.1
    rw [h] at hk
    exact absurd hk (by decide)

/-- During the hold an iteration without button edge keeps the session and the
selection. -/
theorem loopIteration_hold (i : Inputs) (s : Engine) (ha : s.acked) (he : i.noEdge)
    (ht : i.tClear ≤ s.tAckReceived + DELAY_ORDER_DISPLAYED) :
    (loopIteration i s).st.session = s.session
      ∧ (loopIteration i s).st.currentLauncher = s.currentLauncher := by
  obtain ⟨hc, hack, hfail⟩ := ha
  have hb := beforeReceive_quiet i s he hc
  have h1 : (receiveStep i.tRx i.rx (initStep s)).st.session = s.session := by
    rw [receiveStep_session_of_acked _ _ _ (by simpa using hack), session_initStep]
  have h2 : (staleStep i.tStale (receiveStep i.tRx i.rx (initStep s))).st.session
      = s.session := by
    rw [session_staleStep, h1]
  have k1 : (staleStep i.tStale (receiveStep i.tRx i.rx (initStep s))).st.ackReceived
      = true := by
    have := congrArg CommandSession.ackReceived h2
    simp only [Engine.session] at this
    rw [this, hack]
  have k2 : (staleStep i.tStale (receiveStep i.tRx i.rx (initStep s))).st.commandFailed
      = false := by
    simp [hfail]
  have k3 : (staleStep i.tStale (receiveStep i.tRx i.rx (initStep s))).st.tAckReceived
      = s.tAckReceived := by
    have := congrArg CommandSession.ackReceivedAt h2
    simp only [Engine.session] at this
    exact this
  have hl : loopIteration i s
      = endStep (staleStep i.tStale (receiveStep i.tRx i.rx (initStep s))) := by
    unfold loopIteration afterRetry
    rw [hb, retryStep_of_acked _ _ k1, clearStep_of_hold _ _ k2 (by rw [k3]; exact ht)]
  rw [hl, endStep_st]
  exact ⟨h2, by simp⟩

theorem acked_of_session_eq {s s' : Engine} (h : s'.session = s.session) (ha : s.acked) :
    s'.acked := by
  have h1 : s'.currentCommand = s.currentCommand := congrArg CommandSession.command h
  have h2 : s'.ackReceived = s.ackReceived := congrArg CommandSession.ackReceived h
  have h3 : s'.commandFailed = s.commandFailed := congrArg CommandSession.failed h
  unfold Engine.acked
  rw [h1, h2, h3]
  exact ha

theorem run_hold (ins : List Inputs) :
    ∀ s : Engine, s.acked → HeldUntil (s.tAckReceived + DELAY_ORDER_DISPLAYED) ins →
      (run s ins).1.session = s.session
        ∧ (run s ins).1.currentLauncher = s.currentLauncher := by
  induction ins with
  | nil =>
    intro s _ _
    exact ⟨rfl, rfl⟩
  | cons i rest ih =>
    intro s ha hh
    obtain ⟨he, ht⟩ := hh i (List.mem_cons_self _ _)
    obtain ⟨k1, k2⟩ := loopIteration_hold i s ha he ht
    have hta : (loopIteration i s).st.tAckReceived = s.tAckReceived := by
      have := congrArg CommandSession.ackReceivedAt k1
      simp only [Engine.session] at this
      exact this
    obtain ⟨r1, r2⟩ := ih (loopIteration i s).st (acked_of_session_eq k1 ha)
      (by rw [hta]; exact fun j hj => hh j (List.mem_cons_of_mem _ hj))
    rw [run_cons]
    exact ⟨by rw [r1, k1], by rw [r2, k2]⟩

/-- What the clear step does once the hold of an acknowledged session is over. -/
theorem clearStep_of_expired (t : Nat) (c : Ctx) (hc : c.st.currentCommand ≠ .NONE)
    (ha : c.st.ackReceived = true) (ht : t > c.st.tAckReceived + DELAY_ORDER_DISPLAYED) :
    clearStep t c
      = { c with
          st := { c.st with
            currentCommand := .NONE
            ackReceived := false
            commandFailed := false
            tCommandSent := 0
            currentRepeat := 0
            tAckReceived := 0 }
          refresh := true } := by
  unfold clearStep
  rw [if_pos ⟨hc, Or.inl ⟨ha, ht⟩⟩]

/-- C17: display hold after an Ack.  (1) From a session acknowledged at
`tAckReceived`, every run of iterations without button edge whose clock is at
most `tAckReceived + DELAY_ORDER_DISPLAYED`, whatever they receive, keeps the
session (`currentCommand` unchanged, `ackReceived = true`, every session field
as it was) and the selection.  (2) At a clock `t > tAckReceived + 1000` the
clear step sets `currentCommand` to NONE, `ackReceived` and `commandFailed` to
false, `tCommandSent`, `currentRepeat` and `tAckReceived` to 0 and raises the
refresh flag, leaving `currentLauncher`, the telemetry fields and every other
variable as they were.  (3) The first iteration without button edge that reads
such a clock at line 304, after iterations inside the hold, ends with the
empty session and the same selection. -/
theorem display_hold_after_ack :
    (∀ (s : Engine) (ins : List Inputs), s.acked →
        HeldUntil (s.tAckReceived + DELAY_ORDER_DISPLAYED) ins →
        (run s ins).1.session = s.session
          ∧ (run s ins).1.currentLauncher = s.currentLauncher)
      ∧ (∀ (t : Nat) (c : Ctx), c.st.currentCommand ≠ .NONE → c.st.ackReceived = true →
        t > c.st.tAckReceived + DELAY_ORDER_DISPLAYED →
        clearStep t c
          = { c with
              st := { c.st with
                currentCommand := .NONE
                ackReceived := false
                commandFailed := false
                tCommandSent := 0
                currentRepeat := 0
                tAckReceived := 0 }
              refresh := true })
      ∧ (∀ (s : Engine) (ins : List Inputs) (i : Inputs), s.acked →
        HeldUntil (s.tAckReceived + DELAY_ORDER_DISPLAYED) ins → i.noEdge →
        i.tClear > s.tAckReceived + DELAY_ORDER_DISPLAYED →
        (run s (ins ++ [i])).1.session = CommandSession.empty
          ∧ (run s (ins ++ [i])).1.currentLauncher = s.currentLauncher) := by
  refine ⟨fun s ins ha hh => run_hold ins s ha hh, clearStep_of_expired, ?_⟩
  intro s ins i ha hh he ht
  obtain ⟨r1, r2⟩ := run_hold ins s ha hh
  have ha2 : (run s ins).1.acked := acked_of_session_eq r1 ha
  have hta : (run s ins).1.tAckReceived = s.tAckReceived := by
    have := congrArg CommandSession.ackReceivedAt r1
    simp only [Engine.session] at this
    exact this
  rw [run_append, run_cons, run_nil]
  simp only
  generalize (run s ins).1 = s1 at ha2 hta r2
  obtain ⟨hc, hack, hfail⟩ := ha2
  have hb := beforeReceive_quiet i s1 he hc
  have h1 : (receiveStep i.tRx i.rx (initStep s1)).st.session = s1.session := by
    rw [receiveStep_session_of_acked _ _ _ (by simpa using hack), session_initStep]
  have h2 : (staleStep i.tStale (receiveStep i.tRx i.rx (initStep s1))).st.session
      = s1.session := by
    rw [session_staleStep, h1]
  have k0 : (staleStep i.tStale (receiveStep i.tRx i.rx (initStep s1))).st.currentCommand
      ≠ .NONE := by
    simpa using hc
  have k1 : (staleStep i.tStale (receiveStep i.tRx i.rx (initStep s1))).st.ackReceived
      = true := by
    have := congrArg CommandSession.ackReceived h2
    simp only [Engine.session] at this
    rw [this, hack]
  have k3 : (staleStep i.tStale (receiveStep i.tRx i.rx (initStep s1))).st.tAckReceived
      = s1.tAckReceived := by
    have := congrArg CommandSession.ackReceivedAt h2
    simp only [Engine.session] at this
    exact this
  have hl : loopIteration i s1
      = endStep (clearStep i.tClear
          (staleStep i.tStale (receiveStep i.tRx i.rx (initStep s1)))) := by
    unfold loopIteration afterRetry
    rw [hb, retryStep_of_acked _ _ k1]
  rw [hl, endStep_st, clearStep_of_expired _ _ k0 k1 (by rw [k3, hta]; exact ht)]
  refine ⟨rfl, ?_⟩
  simp only [staleStep_currentLauncher, receiveStep_currentLauncher, initStep_currentLauncher]
  exact r2

theorem display_hold_after_ack_witness :
    ((run (run launcherOne [upAt 5000, rxAt 5200 [99, 115, 1, 1, 4]]).1
          [quietAt 5500, quietAt 6200]).1.session
        = (run launcherOne [upAt 5000, rxAt 5200 [99, 115, 1, 1, 4]]).1.session
      ∧ (run (run launcherOne [upAt 5000, rxAt 5200 [99, 115, 1, 1, 4]]).1
          [quietAt 5500, quietAt 6200]).1.currentLauncher
        = (run launcherOne [upAt 5000, rxAt 5200 [99, 115, 1, 1, 4]]).1.currentLauncher)
      ∧ ((run (run launcherOne [upAt 5000, rxAt 5200 [99, 115, 1, 1, 4]]).1
          ([quietAt 5500, quietAt 6200] ++ [quietAt 6201])).1.session = CommandSession.empty
        ∧ (run (run launcherOne [upAt 5000, rxAt 5200 [99, 115, 1, 1, 4]]).1
          ([quietAt 5500, quietAt 6200] ++ [quietAt 6201])).1.currentLauncher
          = (run launcherOne [upAt 5000, rxAt 5200 [99, 115, 1, 1, 4]]).1.currentLauncher) :=
  ⟨display_hold_after_ack.1 (run launcherOne [upAt 5000, rxAt 5200 [99, 115, 1, 1, 4]]).1
      [quietAt 5500, quietAt 6200] (by unfold Engine.acked; decide)
      (by unfold HeldUntil Inputs.noEdge; decide),
    display_hold_after_ack.2.2 (run launcherOne [upAt 5000, rxAt 5200 [99, 115, 1, 1, 4]]).1
      [quietAt 5500, quietAt 6200] (quietAt 6201) (by unfold Engine.acked; decide)
      (by unfold HeldUntil Inputs.noEdge; decide) (by unfold Inputs.noEdge; decide)
      (by decide)⟩

/-! ## Screen update -/

/-- The drawing depends on the displayed variables only. -/
theorem screenUpdate_of_displayed (WIDTH : Int) (s s' : Engine)
    (h : s.displayed = s'.displayed) : screenUpdate WIDTH s = screenUpdate WIDTH s' := by
  have h1 : s.currentLauncher = s'.currentLauncher := congrArg Displayed.currentLauncher h
  have h2 : s.telemAvailable = s'.telemAvailable := congrArg Displayed.telemAvailable h
  have h3 : s.hatchOpen = s'.hatchOpen := congrArg Displayed.hatchOpen h
  have h4 : s.altitude = s'.altitude := congrArg Displayed.altitude h
  have h5 : s.temperature = s'.temperature := congrArg Displayed.temperature h
  have h6 : s.batteryPercent = s'.batteryPercent := congrArg Displayed.batteryPercent h
  have h7 : s.currentCommand = s'.currentCommand := congrArg Displayed.currentCommand h
  have h8 : s.ackReceived = s'.ackReceived := congrArg Displayed.ackReceived h
  have h9 : s.commandFailed = s'.commandFailed := congrArg Displayed.commandFailed h
  unfold screenUpdate telemetryBlock statusLine
  rw [h1, h2, h3, h4, h5, h6, h7, h8, h9]

theorem telemetryBlock_unavailable (WIDTH : Int) (s : Engine) (h : s.telemAvailable = false) :
    telemetryBlock WIDTH s
      = [Draw.printCentered (Int.tdiv WIDTH 2) 34 "Telem non disponible"] := by
  unfold telemetryBlock
  rw [h]
  rfl

theorem statusLine_no_number (WIDTH : Int) (s : Engine) :
    ∀ d ∈ statusLine WIDTH s, d.isNumber = false := by
  intro d hd
  unfold statusLine at hd
  split_ifs at hd <;> simp at hd <;> (try rw [hd]) <;> rfl

/-- C18: unavailable telemetry shows no numbers.  (1) The drawing of the screen
update is a function of `currentLauncher`, `telemAvailable`, `hatchOpen`,
`altitude`, `temperature`, `batteryPercent`, `currentCommand`, `ackReceived`
and `commandFailed`: two states that agree on them are drawn alike.  (2) Two
states with `telemAvailable = false` that agree on `currentLauncher`,
`currentCommand`, `ackReceived` and `commandFailed` are drawn alike, whatever
their stored altitude, temperature, battery and hatch values.  (3) With
`telemAvailable = false` the telemetry block is the placeholder text alone and
the drawing contains no number. -/
theorem unavailable_telemetry_shows_no_numbers :
    (∀ (WIDTH : Int) (s s' : Engine), s.displayed = s'.displayed →
        screenUpdate WIDTH s = screenUpdate WIDTH s')
      ∧ (∀ (WIDTH : Int) (s s' : Engine),
        s.telemAvailable = false → s'.telemAvailable = false →
        s.currentLauncher = s'.currentLauncher → s.currentCommand = s'.currentCommand →
        s.ackReceived = s'.ackReceived → s.commandFailed = s'.commandFailed →
        screenUpdate WIDTH s = screenUpdate WIDTH s')
      ∧ (∀ (WIDTH : Int) (s : Engine), s.telemAvailable = false →
        telemetryBlock WIDTH s
            = [Draw.printCentered (Int.tdiv WIDTH 2) 34 "Telem non disponible"]
          ∧ ∀ d ∈ screenUpdate WIDTH s, d.isNumber = false) := by
  refine ⟨screenUpdate_of_displayed, ?_, ?_⟩
  · intro WIDTH s s' h1 h2 h3 h4 h5 h6
    unfold screenUpdate statusLine
    rw [telemetryBlock_unavailable WIDTH s h1, telemetryBlock_unavailable WIDTH s' h2,
      h3, h4, h5, h6]
  · intro WIDTH s h
    refine ⟨telemetryBlock_unavailable WIDTH s h, ?_⟩
    intro d hd
    unfold screenUpdate at hd
    rw [telemetryBlock_unavailable WIDTH s h] at hd
    rcases List.mem_append.mp hd with h1 | h1
    · rcases List.mem_append.mp h1 with h2 | h2
      · rcases List.mem_append.mp h2 with h3 | h3
        · simp only [List.mem_cons, List.mem_singleton, List.not_mem_nil, or_false] at h3
          rcases h3 with h4 | h4 | h4 | h4
          · rw [h4]
            rfl
          · rw [h4]
            rfl
          · rw [h4]
            rfl
          · rw [h4]
            rfl
        · rw [List.mem_singleton.mp h3]
          rfl
      · exact statusLine_no_number WIDTH s d h2
    · rw [List.mem_singleton.mp h1]
      rfl

theorem unavailable_telemetry_shows_no_numbers_witness :
    screenUpdate 128 initialState
      = screenUpdate 128
          { initialState with altitude := 100, temperature := 200, batteryPercent := 50,
                              hatchOpen := true } :=
  unavailable_telemetry_shows_no_numbers.2.1 128 initialState
    { initialState with altitude := 100, temperature := 200, batteryPercent := 50,
                        hatchOpen := true }
    rfl rfl rfl rfl rfl rfl

/-! ## Refresh flag -/

theorem initStep_displayed (s : Engine) :
    (initStep s).st.displayed = s.displayed := by
  simp [Engine.displayed]

theorem selectStep_unrefreshed (l r : Bool) (c : Ctx) (h : (selectStep l r c).refresh = false) :
    c.refresh = false ∧ (selectStep l r c).st.displayed = c.st.displayed := by
  unfold selectStep at h ⊢
  split
  · rename_i hg
    rw [if_pos hg] at h
    exact absurd h (by simp)
  · rename_i hg
    rw [if_neg hg] at h
    exact ⟨h, rfl⟩

theorem commandStep_unrefreshed (btnUp btnDown : Bool) (t tSent : Nat) (c : Ctx)
    (h : (commandStep btnUp btnDown t tSent c).refresh = false) :
    c.refresh = false ∧ (commandStep btnUp btnDown t tSent c).st.displayed = c.st.displayed := by
  unfold commandStep at h ⊢
  split
  · rename_i hg
    rw [if_pos hg] at h
    exact absurd h (by simp)
  · rename_i hg
    rw [if_neg hg] at h
    exact ⟨h, rfl⟩

theorem pollStep_unrefreshed (ok : Bool) (t : Nat) (c : Ctx)
    (h : (pollStep ok t c).refresh = false) :
    c.refresh = false ∧ (pollStep ok t c).st.displayed = c.st.displayed := by
  rw [pollStep_refresh] at h
  refine ⟨h, ?_⟩
  simp [Engine.displayed]

theorem rxStep_unrefreshed (t : Nat) (frame : List uint8_t) (c : Ctx)
    (h : (rxStep t frame c).refresh = false) :
    c.refresh = false ∧ (rxStep t frame c).st.displayed = c.st.displayed := by
  by_cases ha : ackAccepted c.st frame
  · rw [rxStep_accept t frame c ha] at h
    exact absurd h (by simp)
  · by_cases hs : isStatusFrame c.st frame
    · rw [rxStep_status t frame c hs] at h
      exact absurd h (by simp)
    · rw [rxStep_reject t frame c (Or.inr (Or.inr hs)) ha] at h ⊢
      exact ⟨h, rfl⟩

theorem receiveStep_unrefreshed (t : Nat) (rx : Option (List uint8_t)) (c : Ctx)
    (h : (receiveStep t rx c).refresh = false) :
    c.refresh = false ∧ (receiveStep t rx c).st.displayed = c.st.displayed := by
  cases rx with
  | none => exact ⟨h, rfl⟩
  | some frame => exact rxStep_unrefreshed t frame c h

theorem staleStep_unrefreshed (t : Nat) (c : Ctx) (h : (staleStep t c).refresh = false) :
    c.refresh = false ∧ (staleStep t c).st.displayed = c.st.displayed := by
  unfold staleStep at h ⊢
  split
  · rename_i hg
    rw [if_pos hg] at h
    exact absurd h (by simp)
  · rename_i hg
    rw [if_neg hg] at h
    exact ⟨h, rfl⟩

theorem retryStep_unrefreshed (t : Nat) (c : Ctx) (h : (retryStep t c).refresh = false) :
    c.refresh = false ∧ (retryStep t c).st.displayed = c.st.displayed := by
  unfold retryStep at h ⊢
  split
  · rename_i hg
    rw [if_pos hg] at h
    split at h
    · exact absurd h (by simp)
    · exact absurd h (by simp)
  · rename_i hg
    rw [if_neg hg] at h
    exact ⟨h, rfl⟩

theorem clearStep_unrefreshed (t : Nat) (c : Ctx) (h : (clearStep t c).refresh = false) :
    c.refresh = false ∧ (clearStep t c).st.displayed = c.st.displayed := by
  unfold clearStep at h ⊢
  split
  · rename_i hg
    rw [if_pos hg] at h
    exact absurd h (by simp)
  · rename_i hg
    rw [if_neg hg] at h
    exact ⟨h, rfl⟩

/-- An iteration that reaches the screen update with the refresh flag down has
not touched any displayed variable. -/
theorem atScreenUpdate_unrefreshed (i : Inputs) (s : Engine)
    (h : (atScreenUpdate i s).refresh = false) :
    (atScreenUpdate i s).st.displayed = s.displayed := by
  unfold atScreenUpdate afterRetry beforeReceive at h ⊢
  obtain ⟨h7, e7⟩ := clearStep_unrefreshed _ _ h
  obtain ⟨h6, e6⟩ := retryStep_unrefreshed _ _ h7
  obtain ⟨h5, e5⟩ := staleStep_unrefreshed _ _ h6
  obtain ⟨h4, e4⟩ := receiveStep_unrefreshed _ _ _ h5
  obtain ⟨h3, e3⟩ := pollStep_unrefreshed _ _ _ h4
  obtain ⟨h2, e2⟩ := commandStep_unrefreshed _ _ _ _ _ h3
  obtain ⟨_, e1⟩ := selectStep_unrefreshed _ _ _ h2
  have e0 := initStep_displayed s
  rw [e7, e6, e5, e4, e3, e2, e1, e0]

/-- C20: the display is never stale.  For every state and every iteration,
under arbitrary inputs: if one of the variables the screen reads
(`currentLauncher`, `telemAvailable`, `hatchOpen`, `altitude`, `temperature`,
`batteryPercent`, `currentCommand`, `ackReceived`, `commandFailed`) differs
between the start of the iteration and the screen update, which is also the
state at its end, then the refresh flag is true at the screen update and the
screen is drawn from the new state. -/
theorem display_never_stale (WIDTH : Int) (i : Inputs) (s : Engine)
    (h : (atScreenUpdate i s).st.displayed ≠ s.displayed) :
    (atScreenUpdate i s).refresh = true
      ∧ display WIDTH (atScreenUpdate i s) = some (screenUpdate WIDTH (atScreenUpdate i s).st)
      ∧ (loopIteration i s).st = (atScreenUpdate i s).st
      ∧ (loopIteration i s).refresh = (atScreenUpdate i s).refresh := by
  have hr : (atScreenUpdate i s).refresh = true := by
    by_contra hc
    have hf : (atScreenUpdate i s).refresh = false := by simpa using hc
    exact h (atScreenUpdate_unrefreshed i s hf)
  refine ⟨hr, ?_, rfl, rfl⟩
  unfold display
  rw [hr]
  rfl

theorem display_never_stale_witness :
    (atScreenUpdate (rxAt 5000 statusFrameZero) (run initialState [quietAt 2000]).1).refresh
        = true
      ∧ display 128 (atScreenUpdate (rxAt 5000 statusFrameZero)
          (run initialState [quietAt 2000]).1)
        = some (screenUpdate 128 (atScreenUpdate (rxAt 5000 statusFrameZero)
            (run initialState [quietAt 2000]).1).st)
      ∧ (loopIteration (rxAt 5000 statusFrameZero) (run initialState [quietAt 2000]).1).st
        = (atScreenUpdate (rxAt 5000 statusFrameZero) (run initialState [quietAt 2000]).1).st
      ∧ (loopIteration (rxAt 5000 statusFrameZero) (run initialState [quietAt 2000]).1).refresh
        = (atScreenUpdate (rxAt 5000 statusFrameZero)
            (run initialState [quietAt 2000]).1).refresh :=
  display_never_stale 128 (rxAt 5000 statusFrameZero) (run initialState [quietAt 2000]).1
    (by decide)

/-! ## Selection reset, applied to live states -/

set_option maxRecDepth 8192 in
theorem select_resets_on_move_witness :
    (liveAcked.telemAvailable = true ∧ liveAcked.tGetStatus = 4000
        ∧ liveAcked.currentCommand = Command.OPEN ∧ liveAcked.currentRepeat = 1
        ∧ liveAcked.ackReceived = true ∧ liveAcked.tAckReceived = 7100
        ∧ liveAcked.tCommandSent = 7000 ∧ liveAcked.currentLauncher = 0)
      ∧ ((selectStep false true ⟨liveAcked, false, []⟩).st.telemAvailable = false
        ∧ (selectStep false true ⟨liveAcked, false, []⟩).st.tGetStatus = 0
        ∧ (selectStep false true ⟨liveAcked, false, []⟩).st.currentCommand = Command.NONE
        ∧ (selectStep false true ⟨liveAcked, false, []⟩).st.currentRepeat = 0
        ∧ (selectStep false true ⟨liveAcked, false, []⟩).st.ackReceived = false
        ∧ (selectStep false true ⟨liveAcked, false, []⟩).st.tAckReceived = 0
        ∧ (selectStep false true ⟨liveAcked, false, []⟩).st.commandFailed = false
        ∧ (selectStep false true ⟨liveAcked, false, []⟩).st.tCommandSent
          = (⟨liveAcked, false, []⟩ : Ctx).st.tCommandSent)
      ∧ (liveFailed.telemAvailable = true ∧ liveFailed.tGetStatus = 4000
        ∧ liveFailed.currentCommand = Command.OPEN ∧ liveFailed.currentRepeat = 2
        ∧ liveFailed.commandFailed = true ∧ liveFailed.tCommandSent = 8000)
      ∧ ((selectStep false true ⟨liveFailed, false, []⟩).st.telemAvailable = false
        ∧ (selectStep false true ⟨liveFailed, false, []⟩).st.tGetStatus = 0
        ∧ (selectStep false true ⟨liveFailed, false, []⟩).st.currentCommand = Command.NONE
        ∧ (selectStep false true ⟨liveFailed, false, []⟩).st.currentRepeat = 0
        ∧ (selectStep false true ⟨liveFailed, false, []⟩).st.ackReceived = false
        ∧ (selectStep false true ⟨liveFailed, false, []⟩).st.tAckReceived = 0
        ∧ (selectStep false true ⟨liveFailed, false, []⟩).st.commandFailed = false
        ∧ (selectStep false true ⟨liveFailed, false, []⟩).st.tCommandSent
          = (⟨liveFailed, false, []⟩ : Ctx).st.tCommandSent) :=
  ⟨⟨by decide, by decide, by decide, by decide, by decide, by decide, by decide, by decide⟩,
    select_resets_on_move false true ⟨liveAcked, false, []⟩ (by decide),
    ⟨by decide, by decide, by decide, by decide, by decide, by decide⟩,
    select_resets_on_move false true ⟨liveFailed, false, []⟩ (by decide)⟩

/-! ## Timed failure scenario with iterations in between -/

/-- Without button edge and without frame, an iteration that finds a current
command runs the staleness check, the timeout check and the hold check only. -/
theorem idle_iteration (i : Inputs) (s : Engine) (he : i.noEdge) (hrx : i.rx = none)
    (hc : s.currentCommand ≠ Command.NONE) :
    loopIteration i s
      = endStep (clearStep i.tClear (retryStep i.tRetry (staleStep i.tStale (initStep s)))) := by
  unfold loopIteration afterRetry
  rw [beforeReceive_quiet i s he hc, hrx]
  rfl

/-- Before the timeout an idle iteration leaves a pending command alone. -/
theorem idle_pending (i : Inputs) (s : Engine) (l : Int) (cmd : Command) (sent : Nat)
    (rep : Int) (ta : Nat)
    (h : s.sessionIs l ⟨cmd, sent, rep, false, ta, false⟩) (hc : cmd ≠ Command.NONE)
    (he : i.noEdge) (hrx : i.rx = none) (ht : i.tRetry < sent + 1000) :
    (loopIteration i s).st.sessionIs l ⟨cmd, sent, rep, false, ta, false⟩
      ∧ frames (loopIteration i s).out = [] := by
  obtain ⟨hl, h1, h2, h3, h4, h5, h6⟩ := sessionIs_fields h
  simp only at h1 h2 h3 h4 h5 h6
  rw [idle_iteration i s he hrx (by rw [h1]; exact hc)]
  have hr : retryStep i.tRetry (staleStep i.tStale (initStep s))
      = staleStep i.tStale (initStep s) := by
    unfold retryStep
    rw [if_neg]
    simp [h2, DELAY_COMMAND_TIMEOUT]
    intro _ _ _ _
    exact ht
  rw [hr]
  unfold clearStep
  rw [if_neg]
  · simp [endStep, Engine.sessionIs, Engine.session, frames_append, frames, hl, h1, h2, h3, h4,
      h5, h6]
  · simp [h4, h6]

/-- During the hold an idle iteration leaves a failed command alone. -/
theorem idle_failed (i : Inputs) (s : Engine) (l : Int) (cmd : Command) (sent : Nat)
    (rep : Int) (ta : Nat)
    (h : s.sessionIs l ⟨cmd, sent, rep, false, ta, true⟩) (hc : cmd ≠ Command.NONE)
    (he : i.noEdge) (hrx : i.rx = none) (ht : i.tClear ≤ sent + 2000) :
    (loopIteration i s).st.sessionIs l ⟨cmd, sent, rep, false, ta, true⟩
      ∧ frames (loopIteration i s).out = [] := by
  obtain ⟨hl, h1, h2, h3, h4, h5, h6⟩ := sessionIs_fields h
  simp only at h1 h2 h3 h4 h5 h6
  rw [idle_iteration i s he hrx (by rw [h1]; exact hc)]
  have hr : retryStep i.tRetry (staleStep i.tStale (initStep s))
      = staleStep i.tStale (initStep s) := by
    unfold retryStep
    rw [if_neg]
    simp [h6]
  rw [hr]
  unfold clearStep
  rw [if_neg]
  · simp [endStep, Engine.sessionIs, Engine.session, frames_append, frames, hl, h1, h2, h3, h4,
      h5, h6]
  · simp [h4, h2, DELAY_COMMAND_TIMEOUT, DELAY_ORDER_DISPLAYED]
    omega

theorem run_idle_pending (l : Int) (cmd : Command) (sent : Nat) (rep : Int) (ta : Nat)
    (hc : cmd ≠ Command.NONE) (ins : List Inputs) :
    ∀ s : Engine, s.sessionIs l ⟨cmd, sent, rep, false, ta, false⟩ → Idle ins →
      RetryBefore (sent + 1000) ins →
      (run s ins).1.sessionIs l ⟨cmd, sent, rep, false, ta, false⟩
        ∧ frames (run s ins).2 = [] := by
  induction ins with
  | nil =>
    intro s h _ _
    exact ⟨h, rfl⟩
  | cons i rest ih =>
    intro s h hi hr
    obtain ⟨e1, e2⟩ := hi i (List.mem_cons_self _ _)
    obtain ⟨k1, k2⟩ := idle_pending i s l cmd sent rep ta h hc e1 e2
      (hr i (List.mem_cons_self _ _))
    obtain ⟨r1, r2⟩ := ih _ k1 (fun j hj => hi j (List.mem_cons_of_mem _ hj))
      (fun j hj => hr j (List.mem_cons_of_mem _ hj))
    rw [run_cons]
    exact ⟨r1, by rw [frames_append, k2, r2]; rfl⟩

theorem run_idle_failed (l : Int) (cmd : Command) (sent : Nat) (rep : Int) (ta : Nat)
    (hc : cmd ≠ Command.NONE) (ins : List Inputs) :
    ∀ s : Engine, s.sessionIs l ⟨cmd, sent, rep, false, ta, true⟩ → Idle ins →
      ClearBy (sent + 2000) ins →
      (run s ins).1.sessionIs l ⟨cmd, sent, rep, false, ta, true⟩
        ∧ frames (run s ins).2 = [] := by
  induction ins with
  | nil =>
    intro s h _ _
    exact ⟨h, rfl⟩
  | cons i rest ih =>
    intro s h hi hr
    obtain ⟨e1, e2⟩ := hi i (List.mem_cons_self _ _)
    obtain ⟨k1, k2⟩ := idle_failed i s l cmd sent rep ta h hc e1 e2
      (hr i (List.mem_cons_self _ _))
    obtain ⟨r1, r2⟩ := ih _ k1 (fun j hj => hi j (List.mem_cons_of_mem _ hj))
      (fun j hj => hr j (List.mem_cons_of_mem _ hj))
    rw [run_cons]
    exact ⟨r1, by rw [frames_append, k2, r2]; rfl⟩

/-- Extending a run: what holds after `a`, followed by what `b` does from any
state with that session. -/
theorem run_extend (s : Engine) (a b : List Inputs) (l : Int) (k k2 : CommandSession)
    (fs fs2 : List (Nat × List uint8_t))
    (ha : (run s a).1.sessionIs l k ∧ frames (run s a).2 = fs)
    (hb : ∀ s2 : Engine, s2.sessionIs l k →
      (run s2 b).1.sessionIs l k2 ∧ frames (run s2 b).2 = fs2) :
    (run s (a ++ b)).1.sessionIs l k2 ∧ frames (run s (a ++ b)).2 = fs ++ fs2 := by
  obtain ⟨b1, b2⟩ := hb _ ha.1
  rw [run_append]
  exact ⟨b1, by rw [frames_append, ha.2, b2]⟩

theorem run_single (s : Engine) (i : Inputs) :
    (run s [i]).1 = (loopIteration i s).st
      ∧ frames (run s [i]).2 = frames (loopIteration i s).out := by
  rw [run_cons, run_nil]
  exact ⟨rfl, by rw [List.append_nil]⟩

/-- An Up edge without Left/Right edge and without frame, whose timeout check
reads the clock less than the timeout after the send, starts an OPEN session
stamped with the send time and transmits that one frame. -/
theorem issue_open (i : Inputs) (s : Engine) (l : Int) (hl : s.currentLauncher = l)
    (hup : i.btnUp = true) (hle : i.btnLeft = false) (hri : i.btnRight = false)
    (hrx : i.rx = none) (ht : i.tRetry < i.tSent + 1000) :
    (loopIteration i s).st.sessionIs l ⟨Command.OPEN, i.tSent, 0, false, 0, false⟩
      ∧ frames (loopIteration i s).out = [(i.tSent, sendCommand l Command.OPEN)] := by
  have hsel : selectStep false false (initStep s) = initStep s := by simp [selectStep]
  have hb : beforeReceive i s = commandStep true i.btnDown i.tCmd i.tSent (initStep s) := by
    unfold beforeReceive
    rw [hup, hle, hri, hsel]
    unfold pollStep
    rw [if_neg]
    simp [commandStep]
  have hr : afterRetry i s
      = staleStep i.tStale (commandStep true i.btnDown i.tCmd i.tSent (initStep s)) := by
    unfold afterRetry
    rw [hb, hrx]
    simp only [receiveStep]
    unfold retryStep
    rw [if_neg]
    simp [commandStep, DELAY_COMMAND_TIMEOUT]
    intro _
    exact ht
  unfold loopIteration
  rw [hr]
  unfold clearStep
  rw [if_neg]
  · simp [endStep, Engine.sessionIs, Engine.session, frames_append, frames, hl, commandStep,
      frames_spacingWait]
  · simp [commandStep]

/-- With a clock that is not behind the last poll, the spacing wait puts every
send at clock 400 or later. -/
theorem issue_time_ge (now : Nat) (i : Inputs) (s : Engine) (hg : s.tGetStatus ≤ now)
    (hup : i.btnUp = true) (hle : i.btnLeft = false) (hri : i.btnRight = false)
    (hclk : i.clockOk now s) : DELAY_MIN_BETWEEN_COMMANDS ≤ i.tSent := by
  obtain ⟨c1, c2, _⟩ := hclk
  have hsel : selectStep false false (initStep s) = initStep s := by simp [selectStep]
  rw [hle, hri, hsel, sleepTotal_commandStep, hup, initStep_out] at c2
  simp only [Bool.true_or, if_true, sleepTotal, initStep_tGetStatus, initStep_tCommandSent,
    sleepTotal_spacingWait] at c2
  unfold elapsed DELAY_MIN_BETWEEN_COMMANDS at c2
  unfold DELAY_MIN_BETWEEN_COMMANDS
  split at c2 <;> split at c2 <;> omega

set_option maxRecDepth 8192 in
/-- C5 (as stated, fails): a run with consistent clock readings.  Launcher 1 is
selected at clock 2000, the OPEN frame is sent at 5000 and repeated at 6000 and
7000, the session fails at 8000; in the iteration 4000 ms after the send
(clock 9000) the session is not cleared: `currentCommand` is still OPEN and
`commandFailed` still true.  It is cleared one millisecond later. -/
theorem failed_session_still_held_after_4000 :
    ClockOk 2000 initialState
        [rightAt 2000, upAt 5000, quietAt 6000, quietAt 7000, quietAt 8000, quietAt 9000]
      ∧ frames (run initialState
          [rightAt 2000, upAt 5000, quietAt 6000, quietAt 7000, quietAt 8000, quietAt 9000]).2
        = [(5000, [67, 83, 1, 4]), (6000, [67, 83, 1, 4]), (7000, [67, 83, 1, 4])]
      ∧ (run initialState
          [rightAt 2000, upAt 5000, quietAt 6000, quietAt 7000,
            quietAt 8000]).1.commandFailed = true
      ∧ (run initialState
          [rightAt 2000, upAt 5000, quietAt 6000, quietAt 7000, quietAt 8000,
            quietAt 9000]).1.currentCommand = Command.OPEN
      ∧ (run initialState
          [rightAt 2000, upAt 5000, quietAt 6000, quietAt 7000, quietAt 8000,
            quietAt 9000]).1.commandFailed = true
      ∧ (run initialState
          [rightAt 2000, upAt 5000, quietAt 6000, quietAt 7000, quietAt 8000,
            quietAt 9000]).1.currentCommand ≠ Command.NONE
      ∧ (run initialState
          [rightAt 2000, upAt 5000, quietAt 6000, quietAt 7000, quietAt 8000,
            quietAt 9001]).1.currentCommand = Command.NONE := by
  refine ⟨?_, by decide, by decide, by decide, by decide, by decide, by decide⟩
  simp only [ClockOk, Inputs.clockOk]
  decide

/-- C5 (amended): with launcher 1 selected, let an iteration with consistent
clock readings handle an Up edge and send the OPEN frame at clock `T` (the
spacing wait makes `T ≥ 400`), and let no inbound frame and no button edge
arrive afterwards.  Whatever iterations run in between (before the respective
timeout), the engine repeats the frame in the iterations at `T + 1000` and
`T + 2000` and sends nothing else; the session is still pending before the
iteration at `T + 3000`, which marks it failed; it is still failed, with
`currentCommand` OPEN, after the iteration at `T + 4000`; and an iteration at
any clock `u > T + 4000` clears it to the empty session. -/
theorem timed_failure_scenario (now T u : Nat) (s : Engine) (i0 : Inputs)
    (q0 q1 q2 q3 : List Inputs)
    (hs : s.currentLauncher = 1) (hg : s.tGetStatus ≤ now)
    (hup : i0.btnUp = true) (hle : i0.btnLeft = false) (hri : i0.btnRight = false)
    (hrx : i0.rx = none) (hclk : i0.clockOk now s) (hT : i0.tSent = T)
    (hret : i0.tRetry < T + 1000)
    (h0 : Idle q0 ∧ RetryBefore (T + 1000) q0)
    (h1 : Idle q1 ∧ RetryBefore (T + 2000) q1)
    (h2 : Idle q2 ∧ RetryBefore (T + 3000) q2)
    (h3 : Idle q3 ∧ ClearBy (T + 4000) q3)
    (hu : T + 4000 < u) :
    DELAY_MIN_BETWEEN_COMMANDS ≤ T
      ∧ frames (run s (scenarioCleared T u i0 q0 q1 q2 q3)).2
        = [(T, [67, 83, 1, 4]), (T + 1000, [67, 83, 1, 4]), (T + 2000, [67, 83, 1, 4])]
      ∧ (run s (scenarioPending T i0 q0 q1 q2)).1.pending
      ∧ (run s (scenarioFailed T i0 q0 q1 q2)).1.commandFailed = true
      ∧ (run s (scenarioFailed T i0 q0 q1 q2)).1.currentCommand = Command.OPEN
      ∧ (run s (scenarioHeld T i0 q0 q1 q2 q3)).1.commandFailed = true
      ∧ (run s (scenarioHeld T i0 q0 q1 q2 q3)).1.currentCommand = Command.OPEN
      ∧ (run s (scenarioCleared T u i0 q0 q1 q2 q3)).1.session = CommandSession.empty := by
  have hne : Command.OPEN ≠ Command.NONE := by decide
  have hframe : sendCommand 1 Command.OPEN = [67, 83, 1, 4] := by decide
  have hmin := issue_time_ge now i0 s hg hup hle hri hclk
  rw [hT] at hmin
  have hpos : 0 < T := by
    unfold DELAY_MIN_BETWEEN_COMMANDS at hmin
    omega
  -- the iteration that sends the command
  have a0 : (run s [i0]).1.sessionIs 1 ⟨Command.OPEN, T, 0, false, 0, false⟩
      ∧ frames (run s [i0]).2 = [(T, [67, 83, 1, 4])] := by
    obtain ⟨k1, k2⟩ := issue_open i0 s 1 hs hup hle hri hrx (by rw [hT]; exact hret)
    rw [hT, hframe] at k2
    rw [hT] at k1
    rw [(run_single s i0).1, (run_single s i0).2]
    exact ⟨k1, k2⟩
  have a1 := run_extend s [i0] q0 1 _ _ _ [] a0
    (fun s2 hs2 => run_idle_pending 1 _ T 0 0 hne q0 s2 hs2 h0.1 h0.2)
  have a2 := run_extend s ([i0] ++ q0) [quietAt (T + 1000)] 1 _
    ⟨Command.OPEN, T + 1000, 0 + 1, false, 0, false⟩ _ [(T + 1000, [67, 83, 1, 4])] a1
    (fun s2 hs2 => by
      obtain ⟨k1, k2⟩ := quiet_resend (T + 1000) s2 1 _ _ _ _ hs2 hne hpos (by omega)
        (by omega)
      rw [hframe] at k2
      rw [(run_single s2 _).1, (run_single s2 _).2]
      exact ⟨k1, k2⟩)
  have a3 := run_extend s ([i0] ++ q0 ++ [quietAt (T + 1000)]) q1 1 _ _ _ [] a2
    (fun s2 hs2 => run_idle_pending 1 _ (T + 1000) (0 + 1) 0 hne q1 s2 hs2 h1.1
      (by
        have : T + 1000 + 1000 = T + 2000 := by omega
        rw [this]
        exact h1.2))
  have a4 := run_extend s ([i0] ++ q0 ++ [quietAt (T + 1000)] ++ q1) [quietAt (T + 2000)] 1 _
    ⟨Command.OPEN, T + 2000, 0 + 1 + 1, false, 0, false⟩ _ [(T + 2000, [67, 83, 1, 4])] a3
    (fun s2 hs2 => by
      obtain ⟨k1, k2⟩ := quiet_resend (T + 2000) s2 1 _ _ _ _ hs2 hne (by omega) (by omega)
        (by omega)
      rw [hframe] at k2
      rw [(run_single s2 _).1, (run_single s2 _).2]
      exact ⟨k1, k2⟩)
  have a5 := run_extend s
    ([i0] ++ q0 ++ [quietAt (T + 1000)] ++ q1 ++ [quietAt (T + 2000)]) q2 1 _ _ _ [] a4
    (fun s2 hs2 => run_idle_pending 1 _ (T + 2000) (0 + 1 + 1) 0 hne q2 s2 hs2 h2.1
      (by
        have : T + 2000 + 1000 = T + 3000 := by omega
        rw [this]
        exact h2.2))
  have a6 := run_extend s (scenarioPending T i0 q0 q1 q2) [quietAt (T + 3000)] 1 _
    ⟨Command.OPEN, T + 2000, 0 + 1 + 1, false, 0, true⟩ _ [] a5
    (fun s2 hs2 => by
      obtain ⟨k1, k2⟩ := quiet_fail (T + 3000) s2 1 _ _ _ _ hs2 hne (by omega) (by omega)
        (by omega) (by omega)
      rw [(run_single s2 _).1, (run_single s2 _).2]
      exact ⟨k1, k2⟩)
  have a7 := run_extend s (scenarioFailed T i0 q0 q1 q2) q3 1 _ _ _ [] a6
    (fun s2 hs2 => run_idle_failed 1 _ (T + 2000) (0 + 1 + 1) 0 hne q3 s2 hs2 h3.1
      (by
        have : T + 2000 + 2000 = T + 4000 := by omega
        rw [this]
        exact h3.2))
  have a8 := run_extend s (scenarioFailed T i0 q0 q1 q2 ++ q3) [quietAt (T + 4000)] 1 _
    ⟨Command.OPEN, T + 2000, 0 + 1 + 1, false, 0, true⟩ _ [] a7
    (fun s2 hs2 => by
      obtain ⟨k1, k2⟩ := quiet_hold (T + 4000) s2 1 _ _ _ _ hs2 hne (by omega)
      rw [(run_single s2 _).1, (run_single s2 _).2]
      exact ⟨k1, k2⟩)
  have a9 := run_extend s (scenarioHeld T i0 q0 q1 q2 q3) [quietAt u] 1 _
    CommandSession.empty _ [] a8
    (fun s2 hs2 => by
      obtain ⟨k1, k2⟩ := quiet_clear u s2 1 _ _ _ _ hs2 hne (by omega)
      rw [(run_single s2 _).1, (run_single s2 _).2]
      exact ⟨k1, k2⟩)
  have b5 := sessionIs_fields a5.1
  have b6 := sessionIs_fields a6.1
  have b8 := sessionIs_fields a8.1
  refine ⟨hmin, ?_, ?_, b6.2.2.2.2.2.2, b6.2.1, b8.2.2.2.2.2.2, b8.2.1, a9.1.2⟩
  · have hf := a9.2
    simp only [List.append_nil, List.nil_append, List.cons_append, List.singleton_append] at hf
    exact hf
  · have hc : (run s (scenarioPending T i0 q0 q1 q2)).1.currentCommand = Command.OPEN :=
      b5.2.1
    exact ⟨by rw [hc]; exact hne, b5.2.2.2.2.1, b5.2.2.2.2.2.2⟩

set_option maxRecDepth 8192 in
theorem timed_failure_scenario_witness :
    DELAY_MIN_BETWEEN_COMMANDS ≤ 5000
      ∧ frames (run selectedOne
          (scenarioCleared 5000 9001 (upAt 5000) [quietAt 5010, quietAt 5990] [quietAt 6500]
            [quietAt 7990] [quietAt 8500])).2
        = [(5000, [67, 83, 1, 4]), (5000 + 1000, [67, 83, 1, 4]), (5000 + 2000, [67, 83, 1, 4])]
      ∧ (run selectedOne
          (scenarioPending 5000 (upAt 5000) [quietAt 5010, quietAt 5990] [quietAt 6500]
            [quietAt 7990])).1.pending
      ∧ (run selectedOne
          (scenarioFailed 5000 (upAt 5000) [quietAt 5010, quietAt 5990] [quietAt 6500]
            [quietAt 7990])).1.commandFailed = true
      ∧ (run selectedOne
          (scenarioFailed 5000 (upAt 5000) [quietAt 5010, quietAt 5990] [quietAt 6500]
            [quietAt 7990])).1.currentCommand = Command.OPEN
      ∧ (run selectedOne
          (scenarioHeld 5000 (upAt 5000) [quietAt 5010, quietAt 5990] [quietAt 6500]
            [quietAt 7990] [quietAt 8500])).1.commandFailed = true
      ∧ (run selectedOne
          (scenarioHeld 5000 (upAt 5000) [quietAt 5010, quietAt 5990] [quietAt 6500]
            [quietAt 7990] [quietAt 8500])).1.currentCommand = Command.OPEN
      ∧ (run selectedOne
          (scenarioCleared 5000 9001 (upAt 5000) [quietAt 5010, quietAt 5990] [quietAt 6500]
            [quietAt 7990] [quietAt 8500])).1.session = CommandSession.empty :=
  timed_failure_scenario 2010 5000 9001 selectedOne (upAt 5000)
    [quietAt 5010, quietAt 5990] [quietAt 6500] [quietAt 7990] [quietAt 8500]
    (by decide) (by decide) rfl rfl rfl rfl
    (by unfold Inputs.clockOk; decide) rfl (by decide)
    ⟨by unfold Idle Inputs.noEdge; decide, by unfold RetryBefore; decide⟩
    ⟨by unfold Idle Inputs.noEdge; decide, by unfold RetryBefore; decide⟩
    ⟨by unfold Idle Inputs.noEdge; decide, by unfold RetryBefore; decide⟩
    ⟨by unfold Idle Inputs.noEdge; decide, by unfold ClearBy; decide⟩
    (by decide)

/-! ## Telemetry freshness over runs of the loop -/

/-- In a run with consistent clock readings, the last iteration is entered at
a clock that is not before the entry clock of the run. -/
theorem clockOk_last (a : List Inputs) (i : Inputs) :
    ∀ (now : Nat) (s : Engine), ClockOk now s (a ++ [i]) →
      ∃ now2, now ≤ now2 ∧ i.clockOk now2 (run s a).1 := by
  induction a with
  | nil =>
    intro now s h
    exact ⟨now, le_refl _, h.1⟩
  | cons j rest ih =>
    intro now s h
    obtain ⟨h1, h2⟩ := h
    obtain ⟨now2, k1, k2⟩ := ih _ _ h2
    refine ⟨now2, ?_, ?_⟩
    · obtain ⟨c1, c2, c3, c4, c5, c6, c7⟩ := h1
      omega
    · rw [run_cons]
      exact k2

/-- Consistent readings of one iteration: the receive reading is not before
the entry clock. -/
theorem clockOk_tRx (now : Nat) (s : Engine) (i : Inputs) (h : i.clockOk now s) :
    now ≤ i.tRx := by
  obtain ⟨c1, c2, c3, c4, _⟩ := h
  omega

/-- C12: telemetry freshness.  (a) In every run of the loop from the initial
state, entered after the two start-up sleeps (`TURNON_DELAY` and
`DELAY_LOGO_INIT`) and with consistent clock readings up to the iteration that
accepts a Status frame at receive time `T`: if no later iteration accepts
another Status frame, then in every later iteration whose staleness reading is
at least `T + DELAY_GET_STATUS_TIMEOUT` the staleness step leaves
`telemAvailable` false, and so does the iteration.  (b) For every state: when
Status frames are accepted at `T` and later at `U`, telemetry is available at
the end of every iteration: the one receiving at `T`, those in between that
read the clock in the window of `T`, the one receiving at `U`, and those after
it that read the clock before `U + DELAY_GET_STATUS_TIMEOUT`, provided the
selection does not change. -/
theorem telemetry_freshness :
    (∀ (now : Nat) (before : List Inputs) (i0 : Inputs) (frame : List uint8_t)
        (pre : List Inputs) (i : Inputs),
        TURNON_DELAY + DELAY_LOGO_INIT ≤ now →
        ClockOk now initialState (before ++ [i0]) →
        i0.rx = some frame →
        isStatusFrame (beforeReceive i0 (run initialState before).1).st frame →
        NoStatusAccepted (loopIteration i0 (run initialState before).1).st (pre ++ [i]) →
        i0.tRx + DELAY_GET_STATUS_TIMEOUT ≤ i.tStale →
        (staleStep i.tStale (receiveStep i.tRx i.rx
            (beforeReceive i
              (run initialState (before ++ i0 :: pre)).1))).st.telemAvailable = false
          ∧ (run initialState (before ++ i0 :: (pre ++ [i]))).1.telemAvailable = false)
      ∧ (∀ (s : Engine) (i1 i2 : Inputs) (f1 f2 : List uint8_t) (mid post : List Inputs),
        i1.rx = some f1 → isStatusFrame (beforeReceive i1 s).st f1 →
        i1.tStale < i1.tRx + DELAY_GET_STATUS_TIMEOUT →
        InWindow i1.tRx mid → SelectionFixed (loopIteration i1 s).st mid →
        i2.rx = some f2 → isStatusFrame (beforeReceive i2 (run s (i1 :: mid)).1).st f2 →
        i2.tStale < i2.tRx + DELAY_GET_STATUS_TIMEOUT →
        InWindow i2.tRx post →
        SelectionFixed (loopIteration i2 (run s (i1 :: mid)).1).st post →
        AllAvailable s (i1 :: (mid ++ i2 :: post))) := by
  constructor
  · intro now before i0 frame pre i hnow hclk hrx hs hno ht
    obtain ⟨now2, n1, n2⟩ := clockOk_last before i0 now initialState hclk
    have hT : 0 < i0.tRx := by
      have := clockOk_tRx now2 _ i0 n2
      unfold TURNON_DELAY DELAY_LOGO_INIT at hnow
      omega
    have e1 : (run initialState (before ++ i0 :: pre)).1
        = (run (loopIteration i0 (run initialState before).1).st pre).1 := by
      rw [run_append, run_cons]
    have e2 : (run initialState (before ++ i0 :: (pre ++ [i]))).1
        = (loopIteration i (run (loopIteration i0 (run initialState before).1).st pre).1).st := by
      rw [run_append, run_cons, run_append, run_cons, run_nil]
    rw [e1, e2]
    have hinv := loopIteration_status_inv i0 (run initialState before).1 frame hrx hs
    obtain ⟨m1, m2⟩ := noStatusAccepted_append pre [i] _ hno
    have hinv2 := run_keeps_telem_time i0.tRx pre _ hinv m1
    have hst := loopIteration_stale i0.tRx i
      (run (loopIteration i0 (run initialState before).1).st pre).1 hT hinv2 m2.1 ht
    refine ⟨hst, ?_⟩
    rw [(loopIteration_telem i _).1]
    exact hst
  · intro s i1 i2 f1 f2 mid post hrx1 hs1 hw1 hmid hsel1 hrx2 hs2 hw2 hpost hsel2
    obtain ⟨a1, a2⟩ := loopIteration_status i1 s f1 hrx1 hs1 hw1
    obtain ⟨m1, _, _⟩ := run_keeps_fresh i1.tRx mid _ a1 (by omega) hmid hsel1
    have hrun : (run s (i1 :: mid)).1 = (run (loopIteration i1 s).st mid).1 := by
      rw [run_cons]
    rw [hrun] at hs2 hsel2
    obtain ⟨b1, b2⟩ := loopIteration_status i2 _ f2 hrx2 hs2 hw2
    obtain ⟨p1, _, _⟩ := run_keeps_fresh i2.tRx post _ b1 (by omega) hpost hsel2
    exact ⟨a1, allAvailable_append mid (i2 :: post) _ m1 ⟨b1, p1⟩⟩

set_option maxRecDepth 8192 in
theorem telemetry_freshness_witness :
    ((staleStep 15000 (receiveStep 15000 none
          (beforeReceive (quietAt 15000)
            (run initialState
              ([quietAt 2000] ++ rxAt 5000 statusFrameZero :: [quietAt 6000])).1))).st.telemAvailable
        = false
      ∧ (run initialState
          ([quietAt 2000] ++ rxAt 5000 statusFrameZero
            :: ([quietAt 6000] ++ [quietAt 15000]))).1.telemAvailable = false)
      ∧ (run initialState
          ([quietAt 2000] ++ rxAt 5000 statusFrameZero :: [quietAt 6000])).1.telemAvailable
        = true
      ∧ AllAvailable initialState
        (rxAt 5000 statusFrameZero
          :: ([quietAt 9000] ++ rxAt 14000 statusFrameZero :: [quietAt 23000])) :=
  ⟨telemetry_freshness.1 2000 [quietAt 2000] (rxAt 5000 statusFrameZero) statusFrameZero
      [quietAt 6000] (quietAt 15000) (by decide)
      (by simp only [List.cons_append, List.nil_append, ClockOk, Inputs.clockOk]; decide)
      rfl (by unfold isStatusFrame; decide)
      (by simp [NoStatusAccepted, statusAccepted, quietAt]) (by decide),
    by decide,
    telemetry_freshness.2 initialState (rxAt 5000 statusFrameZero) (rxAt 14000 statusFrameZero)
      statusFrameZero statusFrameZero [quietAt 9000] [quietAt 23000]
      rfl (by unfold isStatusFrame; decide) (by decide)
      (by simp [InWindow, quietAt, rxAt, DELAY_GET_STATUS_TIMEOUT])
      (by simp only [SelectionFixed]; decide)
      rfl (by unfold isStatusFrame; decide) (by decide)
      (by simp [InWindow, quietAt, rxAt, DELAY_GET_STATUS_TIMEOUT])
      (by simp only [SelectionFixed]; decide)⟩

end CansatRemote
